import Mathlib

/-!
# HDMI CEC dissector (`epan/dissectors/packet-cec.c`)

A shallow embedding of the CEC frame decoder: the value-string tables, the
three custom formatters, the parameter-length switch and the parameter field
switch of `add_parameters_cec`, the frame decoder `dissect_cec` and the
diagnostics of `expert_add_info_cec`.

Conventions of the embedding.

* A captured frame (`tvbuff_t`) is a list of bytes; a byte is a `Fin 256`.
* C integers are natural numbers; a `guint8` variable is reduced `% 256` at
  every assignment.
* A C text is a `String` whose characters stand for the bytes of the text.
* The dissector writes into the columns, the protocol tree and the expert
  list of a packet; these form the state `packet_info`, threaded through
  every call.  A failing access to the frame stops the dissection and leaves
  the state as it was at that point.
* The size limits of the columns are not modelled; the texts written here
  stay far below them.
-/

namespace Cec

/-! ## Value-string tables -/

/-- An entry of a value-string table: a code and its display name. -/
structure value_string where
  value : Nat
  strptr : String
  deriving DecidableEq, Repr

def cec_abort_reason : List value_string := [
  ⟨0x00, "Unrecognized Opcode"⟩,
  ⟨0x01, "Not in correct mode to respond"⟩,
  ⟨0x02, "Cannot provide source"⟩,
  ⟨0x03, "Invalid operand"⟩,
  ⟨0x04, "Refused"⟩]

def cec_analogue_broadcast_type : List value_string := [
  ⟨0x00, "Cable"⟩,
  ⟨0x01, "Satellite"⟩,
  ⟨0x02, "Terrestrial"⟩]

def cec_audio_mute_status : List value_string := [
  ⟨0x00, "Un-Muted"⟩,
  ⟨0x01, "Muted"⟩]

def cec_audio_rate : List value_string := [
  ⟨0x00, "Rate Control Off"⟩,
  ⟨0x01, "Standard Rate: 100%"⟩,
  ⟨0x02, "Fast Rate: 101% Max"⟩,
  ⟨0x03, "Slow Rate: 99% Min"⟩,
  ⟨0x04, "Standard Rate: 100.0%"⟩,
  ⟨0x05, "Fast Rate: 100.1% Max"⟩,
  ⟨0x06, "Slow Rate: 99.9% Min"⟩]

def cec_broadcast_system : List value_string := [
  ⟨0x00, "PAL B/G"⟩,
  ⟨0x01, "SECAM L\x27"⟩,
  ⟨0x02, "PAL M"⟩,
  ⟨0x03, "NTSC M"⟩,
  ⟨0x04, "PAL I"⟩,
  ⟨0x05, "SECAM DK"⟩,
  ⟨0x06, "SECAM B/G"⟩,
  ⟨0x07, "SECAM L"⟩,
  ⟨0x08, "PAL DK"⟩,
  ⟨0x1F, "Other System"⟩]

def cec_cdc_message : List value_string := [
  ⟨0x00, "CDC_HEC_InquireState"⟩,
  ⟨0x01, "CDC_HEC_ReportState"⟩,
  ⟨0x02, "CDC_HEC_SetState"⟩,
  ⟨0x03, "CDC_HEC_RequestDeactivation"⟩,
  ⟨0x04, "CDC_HEC_NotifyAlive"⟩,
  ⟨0x05, "CDC_HEC_Discover"⟩,
  ⟨0x06, "CDC_HEC_SetStateAdjacent"⟩]

def cec_deck_control_mode : List value_string := [
  ⟨0x01, "Skip Forward / Wind"⟩,
  ⟨0x02, "Skip Reverse / Rewind"⟩,
  ⟨0x03, "Stop"⟩,
  ⟨0x04, "Eject"⟩]

def cec_deck_info : List value_string := [
  ⟨0x11, "Play"⟩,
  ⟨0x12, "Record"⟩,
  ⟨0x13, "Play Reverse"⟩,
  ⟨0x14, "Still"⟩,
  ⟨0x15, "Slow"⟩,
  ⟨0x16, "Slow Reverse"⟩,
  ⟨0x17, "Fast Forward"⟩,
  ⟨0x18, "Fast Reverse"⟩,
  ⟨0x19, "No Media"⟩,
  ⟨0x1A, "Stop"⟩,
  ⟨0x1B, "Skip Forward / Wind"⟩,
  ⟨0x1C, "Skip Reverse / Rewind"⟩,
  ⟨0x1D, "Index Search Forward"⟩,
  ⟨0x1E, "Index Search Reverse"⟩,
  ⟨0x1F, "Other Status"⟩]

def cec_device_type : List value_string := [
  ⟨0x00, "TV"⟩,
  ⟨0x01, "Recording Device"⟩,
  ⟨0x03, "Tuner"⟩,
  ⟨0x04, "Playback Device"⟩,
  ⟨0x05, "Audio System"⟩]

def cec_destination : List value_string := [
  ⟨0x0, "TV"⟩,
  ⟨0x1, "Recording Device 1"⟩,
  ⟨0x2, "Recording Device 2"⟩,
  ⟨0x3, "Tuner 1"⟩,
  ⟨0x4, "Playback Device 1"⟩,
  ⟨0x5, "Audio System"⟩,
  ⟨0x6, "Tuner 2"⟩,
  ⟨0x7, "Tuner 3"⟩,
  ⟨0x8, "Playback Device 2"⟩,
  ⟨0x9, "Recording Device 3"⟩,
  ⟨0xA, "Tuner 4"⟩,
  ⟨0xB, "Playback Device 3"⟩,
  ⟨0xE, "Free Use"⟩,
  ⟨0xF, "Broadcast"⟩]

def cec_initiator : List value_string := [
  ⟨0x0, "TV"⟩,
  ⟨0x1, "Recording Device 1"⟩,
  ⟨0x2, "Recording Device 2"⟩,
  ⟨0x3, "Tuner 1"⟩,
  ⟨0x4, "Playback Device 1"⟩,
  ⟨0x5, "Audio System"⟩,
  ⟨0x6, "Tuner 2"⟩,
  ⟨0x7, "Tuner 3"⟩,
  ⟨0x8, "Playback Device 2"⟩,
  ⟨0x9, "Recording Device 3"⟩,
  ⟨0xA, "Tuner 4"⟩,
  ⟨0xB, "Playback Device 3"⟩,
  ⟨0xE, "Free Use"⟩,
  ⟨0xF, "Unregistered"⟩]

def cec_menu_request_type : List value_string := [
  ⟨0x00, "Activate"⟩,
  ⟨0x01, "Deactivate"⟩,
  ⟨0x02, "Query"⟩]

def cec_menu_state : List value_string := [
  ⟨0x00, "Activated"⟩,
  ⟨0x01, "Deactivated"⟩]

def cec_opcode : List value_string := [
  ⟨0x00, "Feature Abort"⟩,
  ⟨0x04, "Image View On"⟩,
  ⟨0x05, "Tuner Step Increment"⟩,
  ⟨0x06, "Tuner Step Decrement"⟩,
  ⟨0x07, "Tuner Device Status"⟩,
  ⟨0x08, "Give Tuner Device Status"⟩,
  ⟨0x09, "Record On"⟩,
  ⟨0x0A, "Record Status"⟩,
  ⟨0x0B, "Record Off"⟩,
  ⟨0x0D, "Text View On"⟩,
  ⟨0x0F, "Record TV Screen"⟩,
  ⟨0x1A, "Give Deck Status"⟩,
  ⟨0x1B, "Deck Status"⟩,
  ⟨0x32, "Set Menu Language"⟩,
  ⟨0x33, "Clear Analogue Timer"⟩,
  ⟨0x34, "Set Analogue Timer"⟩,
  ⟨0x35, "Timer Status"⟩,
  ⟨0x36, "Standby"⟩,
  ⟨0x41, "Play"⟩,
  ⟨0x42, "Deck Control"⟩,
  ⟨0x43, "Timer Cleared Status"⟩,
  ⟨0x44, "User Control Pressed"⟩,
  ⟨0x45, "User Control Released"⟩,
  ⟨0x46, "Give OSD Name"⟩,
  ⟨0x47, "Set OSD Name"⟩,
  ⟨0x64, "Set OSD String"⟩,
  ⟨0x67, "Set Timer Program Title"⟩,
  ⟨0x70, "System Audio Mode Request"⟩,
  ⟨0x71, "Give Audio Status"⟩,
  ⟨0x72, "Set System Audio Mode"⟩,
  ⟨0x7A, "Report Audio Status"⟩,
  ⟨0x7D, "Give System Audio Mode Status"⟩,
  ⟨0x7E, "System Audio Mode Status"⟩,
  ⟨0x80, "Routing Change"⟩,
  ⟨0x81, "Routing Information"⟩,
  ⟨0x82, "Active Source"⟩,
  ⟨0x83, "Give Physical Address"⟩,
  ⟨0x84, "Report Physical Address"⟩,
  ⟨0x85, "Request Active Source"⟩,
  ⟨0x86, "Set Stream Path"⟩,
  ⟨0x87, "Device Vendor ID"⟩,
  ⟨0x89, "Vendor Command"⟩,
  ⟨0x8A, "Vendor Remote Button Down"⟩,
  ⟨0x8B, "Vendor Remote Button Up"⟩,
  ⟨0x8C, "Give Device Vendor ID"⟩,
  ⟨0x8D, "Menu Request"⟩,
  ⟨0x8E, "Menu Status"⟩,
  ⟨0x8F, "Give Device Power Status"⟩,
  ⟨0x90, "Report Power Status"⟩,
  ⟨0x91, "Get Menu Language"⟩,
  ⟨0x92, "Set Analogue Service"⟩,
  ⟨0x93, "Set Digital Service"⟩,
  ⟨0x97, "Set Digital Timer"⟩,
  ⟨0x99, "Clear Digital Timer"⟩,
  ⟨0x9A, "Set Audio Rate"⟩,
  ⟨0x9D, "Inactive Source"⟩,
  ⟨0x9E, "CEC Version"⟩,
  ⟨0x9F, "Get CEC Version"⟩,
  ⟨0xA0, "Vendor Command With ID"⟩,
  ⟨0xA1, "Clear External Timer"⟩,
  ⟨0xA2, "Set External Timer"⟩,
  ⟨0xC0, "Initiate ARC"⟩,
  ⟨0xC1, "Report ARC Initiated"⟩,
  ⟨0xC2, "Report ARC Terminated"⟩,
  ⟨0xC3, "Request ARC Initiation"⟩,
  ⟨0xC4, "Request ARC Termination"⟩,
  ⟨0xC5, "Terminate ARC"⟩,
  ⟨0xF8, "CDC Message"⟩,
  ⟨0xFF, "Abort"⟩]

def cec_power_status : List value_string := [
  ⟨0x00, "On"⟩,
  ⟨0x01, "Standby"⟩,
  ⟨0x02, "In transition Standby to On"⟩,
  ⟨0x03, "In transition On to Standby"⟩]

def cec_status_request : List value_string := [
  ⟨0x01, "On"⟩,
  ⟨0x02, "Off"⟩,
  ⟨0x03, "Once"⟩]

def cec_system_audio_status : List value_string := [
  ⟨0x00, "Off"⟩,
  ⟨0x01, "On"⟩]

set_option maxHeartbeats 2000000 in
def cec_user_control_code : List value_string := [
  ⟨0x00, "Select"⟩,
  ⟨0x01, "Up"⟩,
  ⟨0x02, "Down"⟩,
  ⟨0x03, "Left"⟩,
  ⟨0x04, "Right"⟩,
  ⟨0x05, "Right-Up"⟩,
  ⟨0x06, "Right-Down"⟩,
  ⟨0x07, "Left-Up"⟩,
  ⟨0x08, "Left-Down"⟩,
  ⟨0x09, "Root Menu"⟩,
  ⟨0x0A, "Setup Menu"⟩,
  ⟨0x0B, "Contents Menu"⟩,
  ⟨0x0C, "Favorites Menu"⟩,
  ⟨0x0D, "Exit"⟩,
  ⟨0x20, "0"⟩,
  ⟨0x21, "1"⟩,
  ⟨0x22, "2"⟩,
  ⟨0x23, "3"⟩,
  ⟨0x24, "4"⟩,
  ⟨0x25, "5"⟩,
  ⟨0x26, "6"⟩,
  ⟨0x27, "7"⟩,
  ⟨0x28, "8"⟩,
  ⟨0x29, "9"⟩,
  ⟨0x2A, "Dot"⟩,
  ⟨0x2B, "Enter"⟩,
  ⟨0x2C, "Clear"⟩,
  ⟨0x2F, "Next Favorite"⟩,
  ⟨0x30, "Channel Up"⟩,
  ⟨0x31, "Channel Down"⟩,
  ⟨0x32, "Previous Channel"⟩,
  ⟨0x33, "Sound Select"⟩,
  ⟨0x34, "Input Select"⟩,
  ⟨0x35, "Display Information"⟩,
  ⟨0x36, "Help"⟩,
  ⟨0x37, "Page Up"⟩,
  ⟨0x38, "Page Down"⟩,
  ⟨0x40, "Power"⟩,
  ⟨0x41, "Volume Up"⟩,
  ⟨0x42, "Volume Down"⟩,
  ⟨0x43, "Mute"⟩,
  ⟨0x44, "Play"⟩,
  ⟨0x45, "Stop"⟩,
  ⟨0x46, "Pause"⟩,
  ⟨0x47, "Record"⟩,
  ⟨0x48, "Rewind"⟩,
  ⟨0x49, "Fast forward"⟩,
  ⟨0x4A, "Eject"⟩,
  ⟨0x4B, "Forward"⟩,
  ⟨0x4C, "Backward"⟩,
  ⟨0x4D, "Stop-Record"⟩,
  ⟨0x4E, "Pause-Record"⟩,
  ⟨0x50, "Angle"⟩,
  ⟨0x51, "Sub picture"⟩,
  ⟨0x52, "Video on Demand"⟩,
  ⟨0x53, "Electronic Program Guide"⟩,
  ⟨0x54, "Timer Programming"⟩,
  ⟨0x55, "Initial Configuration"⟩,
  ⟨0x60, "Play Function"⟩,
  ⟨0x61, "Pause-Play Function"⟩,
  ⟨0x62, "Record Function"⟩,
  ⟨0x63, "Pause-Record Function"⟩,
  ⟨0x64, "Stop Function"⟩,
  ⟨0x65, "Mute Function"⟩,
  ⟨0x66, "Restore Volume Function"⟩,
  ⟨0x67, "Tune Function"⟩,
  ⟨0x68, "Select Media Function"⟩,
  ⟨0x69, "Select A/V Input Function"⟩,
  ⟨0x6A, "Select Audio Input Function"⟩,
  ⟨0x6B, "Power Toggle Function"⟩,
  ⟨0x6C, "Power Off Function"⟩,
  ⟨0x6D, "Power On Function"⟩,
  ⟨0x71, "F1 (Blue)"⟩,
  ⟨0x72, "F2 (Red)"⟩,
  ⟨0x73, "F3 (Green)"⟩,
  ⟨0x74, "F4 (Yellow)"⟩,
  ⟨0x75, "F5"⟩,
  ⟨0x76, "Data"⟩]

def cec_vendor_id : List value_string := [
  ⟨0x000000, "Unknown"⟩,
  ⟨0x000039, "Toshiba"⟩,
  ⟨0x0000F0, "Samsung"⟩,
  ⟨0x0005CD, "Denon"⟩,
  ⟨0x000678, "Marantz"⟩,
  ⟨0x000982, "Loewe"⟩,
  ⟨0x0009B0, "Onkyo"⟩,
  ⟨0x000CB8, "Medion"⟩,
  ⟨0x000CE7, "Toshiba 2"⟩,
  ⟨0x001582, "Pulse-Eight"⟩,
  ⟨0x001950, "Harman-Kardon 2"⟩,
  ⟨0x001A11, "Google"⟩,
  ⟨0x0020C7, "Akai"⟩,
  ⟨0x002467, "AOC"⟩,
  ⟨0x008045, "Panasonic"⟩,
  ⟨0x00903E, "Philips"⟩,
  ⟨0x009053, "Daewoo"⟩,
  ⟨0x00A0DE, "Yamaha"⟩,
  ⟨0x00D0D5, "Grundig"⟩,
  ⟨0x00E036, "Pioneer"⟩,
  ⟨0x00E091, "LG"⟩,
  ⟨0x08001F, "Sharp"⟩,
  ⟨0x080046, "Sony"⟩,
  ⟨0x18C086, "Broadcom"⟩,
  ⟨0x6B746D, "Vizio"⟩,
  ⟨0x8065E9, "Benq"⟩,
  ⟨0x9C645E, "Harman-Kardon"⟩]

def cec_version : List value_string := [
  ⟨0x00, "1.1"⟩,
  ⟨0x01, "1.2"⟩,
  ⟨0x02, "1.2a"⟩,
  ⟨0x03, "1.3"⟩,
  ⟨0x04, "1.3a"⟩,
  ⟨0x05, "1.4"⟩]

/-! ## Texts and `printf` conversions -/

/-- Modelled from the spec: the host framework's table lookup (not under
src/).  §4.2: a table maps a code to its display name and a lookup of a code
that is not in the table yields nothing, so its caller falls back on a
default.  A table is the finite list of its entries; how the C lookup finds
the end of an array is not modelled. -/
def try_val_to_str (val : Nat) : List value_string → Option String
  | [] => none
  | vs :: rest => if vs.value = val then some vs.strptr else try_val_to_str val rest

/-- Modelled from the spec: the host framework's lookup with a default (not
under src/).  §4.2: "lookups missing a code yield a caller-supplied default
rather than failing". -/
def val_to_str_const (val : Nat) (vs : List value_string) (unknown_str : String) : String :=
  (try_val_to_str val vs).getD unknown_str

/-- The conversion `%u`: decimal digits. -/
def fmt_u (n : Nat) : String := toString n

/-- The conversion `%hhX`: the argument is cut to an unsigned char and written
in upper-case hexadecimal digits without padding. -/
def fmt_hhX (n : Nat) : String :=
  String.mk ((Nat.toDigits 16 (n % 256)).map Char.toUpper)

/-- The conversion `%.Ns` (and `%s` for `prec = none`): the bytes of the C
string up to its terminating NUL, at most `prec` of them. -/
def fmt_s (prec : Option Nat) (s : String) : String :=
  let cstr := s.data.takeWhile (fun c => c != Char.ofNat 0)
  match prec with
  | none => String.mk cstr
  | some n => String.mk (cstr.take n)

/-- A finite, non-negative `float` (IEEE 754 binary32) number: `m * 2 ^ e`
with a significand `m` below `2 ^ 24`. -/
structure float where
  m : Nat
  e : Int
  deriving DecidableEq, Repr

/-- The quotient `num / den` rounded to the nearest integer, a tie going to
the even one. -/
def round_half_even (num den : Nat) : Nat :=
  let q := num / den
  let r := num % den
  if 2 * r < den then q
  else if den < 2 * r then q + 1
  else if q % 2 = 0 then q else q + 1

/-- The number of binary digits of `n`, counted with `fuel` halvings. -/
def bit_length_aux : Nat → Nat → Nat
  | 0, _ => 0
  | fuel + 1, n => if n = 0 then 0 else 1 + bit_length_aux fuel (n / 2)

/-- The number of binary digits of a number. -/
def bit_length (n : Nat) : Nat := bit_length_aux n n

/-- The `float` nearest to `m * 2 ^ e`: the number itself when `m` has at
most 24 binary digits, else `m` rounded to 24 digits, a tie going to the even
significand.  The range of the exponent is not modelled. -/
def float_round (m : Nat) (e : Int) : float :=
  if m < 2 ^ 24 then ⟨m, e⟩
  else
    let s := bit_length m - 24
    let r := round_half_even m (2 ^ s)
    if r < 2 ^ 24 then ⟨r, e + s⟩ else ⟨r / 2, e + s + 1⟩

/-- The conversion of an unsigned integer to `float`. -/
def float_of_guint (n : Nat) : float := float_round n 0

/-- The product of two `float` numbers: the exact product, rounded. -/
def float_mul (a b : float) : float := float_round (a.m * b.m) (a.e + b.e)

/-- The decimal digits of `k`, padded with zeros on the left to 6 digits. -/
def pad6 (k : Nat) : String :=
  String.mk (List.replicate (6 - (toString k).length) (Char.ofNat 48)) ++ toString k

/-- The conversion `%f` (in the C locale): the number rounded to 6 decimals,
a tie going to the even digit, written as integer part, point and 6
decimals. -/
def fmt_f (x : float) : String :=
  let scaled :=
    if 0 ≤ x.e then x.m * 2 ^ x.e.toNat * 1000000
    else round_half_even (x.m * 1000000) (2 ^ (-x.e).toNat)
  toString (scaled / 1000000) ++ "." ++ pad6 (scaled % 1000000)

/-- Modelled from the spec: the size of the label buffer handed to a custom
formatter, a macro of the host framework (not under src/); the texts written
here are far shorter. -/
def ITEM_LABEL_LENGTH : Nat := 240

/-- The bounded write `g_snprintf(s, n, ...)`: at most `n - 1` bytes of the
formatted text are stored. -/
def g_snprintf (n : Nat) (text : String) : String :=
  String.mk (text.data.take (n - 1))

/-! ## Custom formatters -/

/-- The tuner-frequency formatter `cec_fmt_analogue_frequency`; the constant
`62.5f` is the `float` `125 * 2 ^ (-1)`. -/
def cec_fmt_analogue_frequency (v : Nat) : String :=
  let hz := float_mul ⟨125, -1⟩ (float_of_guint (v &&& 0xFFFF))
  g_snprintf ITEM_LABEL_LENGTH (fmt_f hz ++ " kHz")

/-- The volume formatter `cec_fmt_audio_volume_status`. -/
def cec_fmt_audio_volume_status (v : Nat) : String :=
  let pct := (v &&& 0x7F) % 256
  if pct ≤ 100 then
    g_snprintf ITEM_LABEL_LENGTH (fmt_u pct ++ "%")
  else if v = 0x7F then
    g_snprintf ITEM_LABEL_LENGTH "(Unknown)"
  else
    g_snprintf ITEM_LABEL_LENGTH "(Reserved)"

/-- The physical-address formatter `cec_fmt_physical_address`. -/
def cec_fmt_physical_address (v : Nat) : String :=
  g_snprintf ITEM_LABEL_LENGTH
    (fmt_hhX (v >>> 12 &&& 0xF) ++ "." ++
     fmt_hhX (v >>> 8 &&& 0xF) ++ "." ++
     fmt_hhX (v >>> 4 &&& 0xF) ++ "." ++
     fmt_hhX (v &&& 0xF))

/-! ## Frames, fields and the dissection state -/

/-- A captured frame: its bytes in order. -/
abbrev tvbuff_t := List (Fin 256)

/-- The number of bytes of the frame, `tvb_length`. -/
def tvb_length (tvb : tvbuff_t) : Nat := tvb.length

inductive ftenum where
  | FT_PROTOCOL | FT_BOOLEAN | FT_UINT8 | FT_UINT16 | FT_UINT24 | FT_BYTES | FT_STRING
  deriving DecidableEq, Repr

inductive field_display where
  | BASE_NONE | BASE_DEC | BASE_HEX | BASE_CUSTOM | STR_ASCII
  deriving DecidableEq, Repr

/-- The custom formatters a field can be registered with (`CF_FUNC`). -/
inductive custom_fmt_func where
  | cec_fmt_analogue_frequency | cec_fmt_audio_volume_status | cec_fmt_physical_address
  deriving DecidableEq, Repr

/-- The `strings` member of a field registration. -/
inductive field_strings where
  | NULL
  | VALS (vs : List value_string)
  | CF_FUNC (f : custom_fmt_func)
  deriving DecidableEq, Repr

/-- A field registration: display name, filter name, type, display, strings
and bit mask, as listed in `proto_register_cec`. -/
structure header_field_info where
  name : String
  abbrev_name : String
  type : ftenum
  display : field_display
  strings : field_strings
  bitmask : Nat
  deriving DecidableEq, Repr

open ftenum field_display field_strings in
/-- The protocol entry registered by `proto_register_protocol`. -/
def proto_cec : header_field_info := ⟨"HDMI CEC", "cec", FT_PROTOCOL, BASE_NONE, NULL, 0x00⟩

open ftenum field_display field_strings

/-! ### The fields registered by `proto_register_cec` -/

def hf_cec_abort_reason : header_field_info :=
  ⟨"Abort Reason", "cec.params.abort_reason", FT_UINT8, BASE_DEC, (VALS cec_abort_reason), 0x00⟩

def hf_cec_analogue_broadcast_type : header_field_info :=
  ⟨"Analogue Broadcast Type", "cec.params.analogue_bcast_type", FT_UINT8, BASE_HEX, (VALS cec_analogue_broadcast_type), 0x00⟩

def hf_cec_analogue_frequency : header_field_info :=
  ⟨"Analogue Frequency", "cec.params.analog_freq", FT_UINT16, BASE_CUSTOM, (CF_FUNC .cec_fmt_analogue_frequency), 0x00⟩

def hf_cec_audio_mute_status : header_field_info :=
  ⟨"Audio Mute", "cec.params.audio_mute", FT_BOOLEAN, BASE_DEC, (VALS cec_audio_mute_status), 0x80⟩

def hf_cec_audio_rate : header_field_info :=
  ⟨"Audio Rate", "cec.params.audio_status.rate", FT_UINT8, BASE_HEX, (VALS cec_audio_rate), 0x00⟩

def hf_cec_audio_status : header_field_info :=
  ⟨"Audio Status", "cec.audio_status", FT_BYTES, BASE_NONE, NULL, 0x00⟩

def hf_cec_audio_volume_status : header_field_info :=
  ⟨"Audio Volume Status", "cec.params.audio_status.vol", FT_UINT8, BASE_CUSTOM, (CF_FUNC .cec_fmt_audio_volume_status), 0x7F⟩

def hf_cec_broadcast_system : header_field_info :=
  ⟨"Broadcast System", "cec.params.bcast_sys", FT_UINT8, BASE_HEX, (VALS cec_broadcast_system), 0x00⟩

def hf_cec_cdc_message : header_field_info :=
  ⟨"CDC Message", "cec.params.cdc_msg", FT_UINT8, BASE_HEX, (VALS cec_cdc_message), 0x00⟩

def hf_cec_deck_control_mode : header_field_info :=
  ⟨"Deck Control Mode", "cec.params.deck_ctrl_mode", FT_UINT8, BASE_DEC, (VALS cec_deck_control_mode), 0x00⟩

def hf_cec_deck_info : header_field_info :=
  ⟨"Deck Info", "cec.params.deck_info", FT_UINT8, BASE_DEC, (VALS cec_deck_info), 0x00⟩

def hf_cec_destination : header_field_info :=
  ⟨"Destination", "cec.dst", FT_UINT8, BASE_DEC, (VALS cec_destination), 0x0F⟩

def hf_cec_device_type : header_field_info :=
  ⟨"Device Type", "cec.params.dev_type", FT_UINT8, BASE_DEC, (VALS cec_device_type), 0x00⟩

def hf_cec_initiator : header_field_info :=
  ⟨"Source", "cec.src", FT_UINT8, BASE_DEC, (VALS cec_initiator), 0xF0⟩

def hf_cec_menu_language : header_field_info :=
  ⟨"Menu Language", "cec.params.menu_lang", FT_STRING, STR_ASCII, NULL, 0x00⟩

def hf_cec_menu_request_type : header_field_info :=
  ⟨"Menu Request Type", "cec.params.menu_request_type", FT_UINT8, BASE_HEX, (VALS cec_menu_request_type), 0x00⟩

def hf_cec_menu_state : header_field_info :=
  ⟨"Menu State", "cec.params.menu_state", FT_UINT8, BASE_HEX, (VALS cec_menu_state), 0x00⟩

def hf_cec_osd_name : header_field_info :=
  ⟨"OSD Name", "cec.params.osd_name", FT_STRING, STR_ASCII, NULL, 0x00⟩

def hf_cec_opcode : header_field_info :=
  ⟨"Opcode", "cec.op", FT_UINT8, BASE_HEX, (VALS cec_opcode), 0x00⟩

def hf_cec_parameters : header_field_info :=
  ⟨"Parameters", "cec.params", FT_BYTES, BASE_NONE, NULL, 0x00⟩

def hf_cec_physical_address : header_field_info :=
  ⟨"Physical Address", "cec.params.phy_addr", FT_UINT16, BASE_CUSTOM, (CF_FUNC .cec_fmt_physical_address), 0x00⟩

def hf_cec_power_status : header_field_info :=
  ⟨"Power Status", "cec.params.pwr_status", FT_UINT8, BASE_HEX, (VALS cec_power_status), 0x00⟩

def hf_cec_status_request : header_field_info :=
  ⟨"Status Request", "cec.params.status_request", FT_UINT8, BASE_HEX, (VALS cec_status_request), 0x00⟩

def hf_cec_system_audio_status : header_field_info :=
  ⟨"System Audio Status", "cec.params.system_audio_status", FT_UINT8, BASE_HEX, (VALS cec_system_audio_status), 0x00⟩

def hf_cec_user_control_code : header_field_info :=
  ⟨"User Control Code", "cec.params.usr_ctrl_code", FT_UINT8, BASE_HEX, (VALS cec_user_control_code), 0x00⟩

def hf_cec_vendor_command : header_field_info :=
  ⟨"Vendor Command", "cec.params.vendor_cmd", FT_BYTES, BASE_NONE, NULL, 0x00⟩

def hf_cec_vendor_id : header_field_info :=
  ⟨"Vendor ID", "cec.params.vendor_id", FT_UINT24, BASE_HEX, (VALS cec_vendor_id), 0x00⟩

def hf_cec_version : header_field_info :=
  ⟨"CEC Version", "cec.params.cec_ver", FT_UINT8, BASE_HEX, (VALS cec_version), 0x00⟩

/-! ### Expert fields registered by `proto_register_cec` -/

inductive expert_group where
  | PI_PROTOCOL | PI_SEQUENCE
  deriving DecidableEq, Repr

inductive expert_severity where
  | PI_CHAT | PI_NOTE | PI_WARN
  deriving DecidableEq, Repr

/-- An expert registration: filter name, group, severity and summary. -/
structure expert_field where
  name : String
  group : expert_group
  severity : expert_severity
  summary : String
  deriving DecidableEq, Repr

open expert_group expert_severity

def ei_cec_extra_bytes : expert_field :=
  ⟨"cec.extra_bytes", PI_PROTOCOL, PI_WARN, "Extra bytes in packet"⟩

def ei_cec_feature_abort : expert_field :=
  ⟨"cec.feature_abort", PI_SEQUENCE, PI_NOTE, "Feature Abort"⟩

def ei_cec_poll : expert_field :=
  ⟨"cec.poll", PI_SEQUENCE, PI_CHAT, "Poll message"⟩

/-! ### The protocol tree, the columns and the expert list -/

/-- The value of a decoded field. -/
inductive fvalue where
  | none
  | uinteger (v : Nat)
  | boolean (b : Bool)
  | bytes (bs : List (Fin 256))
  | string (s : String)
  deriving DecidableEq, Repr

/-- A handle on a tree: the tree handed to the dissector, or the subtree of
the item with the given index in the item list. -/
inductive proto_tree where
  | root
  | subtree (item : Nat)
  deriving DecidableEq, Repr

/-- A node of the protocol tree: the tree it was added to, its registration,
the byte range it covers, its value and the text set on it, if any. -/
structure field_info where
  tree : proto_tree
  hfinfo : header_field_info
  start : Nat
  length : Nat
  value : fvalue
  text : Option String
  deriving DecidableEq, Repr

/-- An entry of the expert list: its registration, its message and, for an
entry added over a byte range, that range; `item` is the tree item the
entry is attached to, if any. -/
structure expert_info where
  ei : expert_field
  item : Option Nat
  message : String
  range : Option (Nat × Nat)
  deriving DecidableEq, Repr

/-- The four columns the dissector writes. -/
structure column_info where
  protocol : String
  info : String
  def_src : String
  def_dst : String
  deriving DecidableEq, Repr

/-- The column a column call addresses. -/
inductive column where
  | COL_PROTOCOL | COL_INFO | COL_DEF_SRC | COL_DEF_DST
  deriving DecidableEq, Repr

/-- The state of a dissection: the columns, the items added to the protocol
tree in the order of their addition, and the expert list. -/
structure packet_info where
  cinfo : column_info
  items : List field_info
  expert : List expert_info
  deriving DecidableEq, Repr

/-- The state handed to the dissector: empty columns, tree and expert list. -/
def packet_info.init : packet_info := ⟨⟨"", "", "", ""⟩, [], []⟩

/-- Modelled from the spec: the failure of the host framework's accessors
(not under src/).  §7 names the failure of a decode `InvalidFrame`; the
dissector has no failure of its own. -/
inductive exception where
  | InvalidFrame
  deriving DecidableEq, Repr

/-- The outcome of a step of the dissection: a value and the new state, or a
failure together with the state reached when it occurred. -/
inductive Outcome (α : Type) where
  | ok (val : α) (pinfo : packet_info)
  | thrown (e : exception) (pinfo : packet_info)
  deriving DecidableEq, Repr

/-- A step of the dissection. -/
def Dissector (α : Type) : Type := packet_info → Outcome α

def Dissector.pure {α : Type} (a : α) : Dissector α := fun pinfo => Outcome.ok a pinfo

def Dissector.bind {α β : Type} (m : Dissector α) (k : α → Dissector β) : Dissector β :=
  fun pinfo =>
    match m pinfo with
    | Outcome.ok a pinfo1 => k a pinfo1
    | Outcome.thrown e pinfo1 => Outcome.thrown e pinfo1

instance : Monad Dissector where
  pure := Dissector.pure
  bind := Dissector.bind

/-- The failing step. -/
def THROW {α : Type} (e : exception) : Dissector α := fun pinfo => Outcome.thrown e pinfo

/-- A step that only changes the state. -/
def modify_pinfo (f : packet_info → packet_info) : Dissector Unit :=
  fun pinfo => Outcome.ok () (f pinfo)

/-- The state an outcome carries. -/
def Outcome.pinfo {α : Type} : Outcome α → packet_info
  | Outcome.ok _ p => p
  | Outcome.thrown _ p => p

/-- Whether the step failed. -/
def Outcome.failed {α : Type} : Outcome α → Bool
  | Outcome.ok _ _ => false
  | Outcome.thrown _ _ => true

/-! ## The host framework's calls

The calls below belong to the host framework, whose code is not under src/.
Each is modelled by its effect on the frame and on the dissection state. -/

/-- Modelled from the spec: the bytes of the frame at `[offset, offset +
length)`, if the frame has them all (§4.4: a decode "never reads past" the
end of the bytes it is given). -/
def tvb_bytes (tvb : tvbuff_t) (offset length : Nat) : Option (List (Fin 256)) :=
  if offset + length ≤ tvb_length tvb then some ((tvb.drop offset).take length) else none

/-- The number a byte string holds, most significant byte first. -/
def pntoh (bs : List (Fin 256)) : Nat := bs.foldl (fun acc b => acc * 256 + b.val) 0

/-- Modelled from the spec: the host framework's bounds-checked read of
`length` bytes as a big-endian number (not under src/).  §7: the decode of an
empty input fails, and the only access `dissect_cec` makes before any other
work is this read, of byte 0; so a read outside the frame fails the call. -/
def tvb_get_ntoh (tvb : tvbuff_t) (offset length : Nat) : Dissector Nat :=
  match tvb_bytes tvb offset length with
  | some bs => pure (pntoh bs)
  | none => THROW exception.InvalidFrame

def tvb_get_guint8 (tvb : tvbuff_t) (offset : Nat) : Dissector Nat := tvb_get_ntoh tvb offset 1

/-- The 16-bit read; every such read of this dissector is `ENC_BIG_ENDIAN`. -/
def tvb_get_guint16 (tvb : tvbuff_t) (offset : Nat) : Dissector Nat := tvb_get_ntoh tvb offset 2

/-- The 24-bit read; every such read of this dissector is `ENC_BIG_ENDIAN`. -/
def tvb_get_guint24 (tvb : tvbuff_t) (offset : Nat) : Dissector Nat := tvb_get_ntoh tvb offset 3

/-- The text of an `ENC_ASCII` byte string: a byte below 0x80 is its
character, any other byte is replaced by the three bytes of U+FFFD. -/
def ascii_text (bs : List (Fin 256)) : String :=
  String.mk (bs.flatMap fun b =>
    if b.val < 0x80 then [Char.ofNat b.val]
    else [Char.ofNat 0xEF, Char.ofNat 0xBF, Char.ofNat 0xBD])

/-- Modelled from the spec: the host framework's bounds-checked read of an
`ENC_ASCII` text of `length` bytes (not under src/); it fails like the
numeric reads when the frame does not hold the bytes. -/
def tvb_get_string_enc (tvb : tvbuff_t) (offset : Nat) (length : Nat) : Dissector String :=
  match tvb_bytes tvb offset length with
  | some bs => pure (ascii_text bs)
  | none => THROW exception.InvalidFrame

/-- The number of low zero bits of a bit mask (0 for the empty mask). -/
def hfinfo_bitshift_aux : Nat → Nat → Nat
  | 0, _ => 0
  | fuel + 1, mask => if mask % 2 = 1 then 0 else 1 + hfinfo_bitshift_aux fuel (mask / 2)

def hfinfo_bitshift (mask : Nat) : Nat :=
  if mask = 0 then 0 else hfinfo_bitshift_aux 32 mask

/-- The number a field shows: the bits of the raw number selected by the
registration's mask, shifted down; the raw number when there is no mask. -/
def hfinfo_mask_value (hfinfo : header_field_info) (raw : Nat) : Nat :=
  if hfinfo.bitmask = 0 then raw
  else (raw &&& hfinfo.bitmask) >>> hfinfo_bitshift hfinfo.bitmask

/-- The value a field of the given registration takes from its bytes. -/
def field_value (hfinfo : header_field_info) (bs : List (Fin 256)) : fvalue :=
  match hfinfo.type with
  | FT_PROTOCOL => fvalue.none
  | FT_BOOLEAN => fvalue.boolean (hfinfo_mask_value hfinfo (pntoh bs) != 0)
  | FT_UINT8 => fvalue.uinteger (hfinfo_mask_value hfinfo (pntoh bs))
  | FT_UINT16 => fvalue.uinteger (hfinfo_mask_value hfinfo (pntoh bs))
  | FT_UINT24 => fvalue.uinteger (hfinfo_mask_value hfinfo (pntoh bs))
  | FT_BYTES => fvalue.bytes bs
  | FT_STRING => fvalue.string (ascii_text bs)

/-- Modelled from the spec: the host framework's reading of the length of
an item, a C `int` (not under src/).  §3 has a byte range "never negative":
a negative length is refused, except `-1`, by which the framework means the
rest of the frame from `start`, which must then hold a byte. -/
def get_hfi_length (tvb : tvbuff_t) (start : Nat) (length : Int) : Option Nat :=
  if length = -1 then
    if start < tvb_length tvb then some (tvb_length tvb - start) else none
  else if length < 0 then none
  else some length.toNat

/-- Modelled from the spec: the host framework's call that adds a field over
`[start, start + length)` to a tree and returns the new item (not under
src/).  The field's value (`field_value`) is read from the frame, so the
call fails as the reads do when the range is not inside the frame, and then
adds nothing. -/
def proto_tree_add_item (tree : proto_tree) (hfinfo : header_field_info) (tvb : tvbuff_t)
    (start : Nat) (length : Int) : Dissector Nat := fun pinfo =>
  match get_hfi_length tvb start length with
  | none => Outcome.thrown exception.InvalidFrame pinfo
  | some len =>
    match tvb_bytes tvb start len with
    | none => Outcome.thrown exception.InvalidFrame pinfo
    | some bs =>
      Outcome.ok pinfo.items.length
        { pinfo with items := pinfo.items ++ [⟨tree, hfinfo, start, len, field_value hfinfo bs, none⟩] }

/-- The subtree of an item. -/
def proto_item_add_subtree (pi : Nat) : proto_tree := proto_tree.subtree pi

/-- The item list with `f` applied to its item number `pi`. -/
def update_item (f : field_info → field_info) : Nat → List field_info → List field_info
  | _, [] => []
  | 0, fi :: rest => f fi :: rest
  | n + 1, fi :: rest => fi :: update_item f n rest

def proto_item_set_len (pi : Nat) (length : Nat) : Dissector Unit :=
  modify_pinfo fun pinfo =>
    { pinfo with items := update_item (fun fi => { fi with length := length }) pi pinfo.items }

def proto_item_set_text (pi : Nat) (text : String) : Dissector Unit :=
  modify_pinfo fun pinfo =>
    { pinfo with items := update_item (fun fi => { fi with text := some text }) pi pinfo.items }

/-- The text of a column. -/
def column_info.get (cinfo : column_info) : column → String
  | column.COL_PROTOCOL => cinfo.protocol
  | column.COL_INFO => cinfo.info
  | column.COL_DEF_SRC => cinfo.def_src
  | column.COL_DEF_DST => cinfo.def_dst

/-- The columns with the text of one of them replaced. -/
def column_info.set (cinfo : column_info) (col : column) (text : String) : column_info :=
  match col with
  | column.COL_PROTOCOL => { cinfo with protocol := text }
  | column.COL_INFO => { cinfo with info := text }
  | column.COL_DEF_SRC => { cinfo with def_src := text }
  | column.COL_DEF_DST => { cinfo with def_dst := text }

def col_set_str (col : column) (str : String) : Dissector Unit :=
  modify_pinfo fun pinfo => { pinfo with cinfo := pinfo.cinfo.set col str }

def col_clear (col : column) : Dissector Unit :=
  modify_pinfo fun pinfo => { pinfo with cinfo := pinfo.cinfo.set col "" }

/-- The column call that replaces the text of a column by a formatted text. -/
def col_add_fstr (col : column) (text : String) : Dissector Unit :=
  modify_pinfo fun pinfo => { pinfo with cinfo := pinfo.cinfo.set col text }

/-- The column call that appends a formatted text to a column. -/
def col_append_fstr (col : column) (text : String) : Dissector Unit :=
  modify_pinfo fun pinfo =>
    { pinfo with cinfo := pinfo.cinfo.set col (pinfo.cinfo.get col ++ text) }

/-- The expert call with the registration's own summary as message. -/
def expert_add_info (pi : Nat) (ei : expert_field) : Dissector Unit :=
  modify_pinfo fun pinfo =>
    { pinfo with expert := pinfo.expert ++ [⟨ei, some pi, ei.summary, none⟩] }

/-- The expert call with a formatted message. -/
def expert_add_info_format (pi : Nat) (ei : expert_field) (text : String) : Dissector Unit :=
  modify_pinfo fun pinfo =>
    { pinfo with expert := pinfo.expert ++ [⟨ei, some pi, text, none⟩] }

/-- The expert call that covers a byte range of the frame with a formatted
message. -/
def proto_tree_add_expert_format (ei : expert_field) (start length : Nat) (text : String) :
    Dissector Unit :=
  modify_pinfo fun pinfo =>
    { pinfo with expert := pinfo.expert ++ [⟨ei, none, text, some (start, length)⟩] }

/-! ## The dissector -/

open column

/-- The first switch of `add_parameters_cec`, "Should there be any
parameters?": the value it leaves in the `guint8` variable `oplen`, which
starts at 0, for the opcodes it lists, and `none` for its `default` branch,
which returns at once.  The switch is written as a chain of tests, one for
each `case`.  `len` is `tvb_length(tvb)`; it is at least 2 when the switch is
reached, the opcode byte having been read, so `len - 2` does not wrap. -/
def add_parameters_cec_oplen (opcode : Nat) (len : Nat) : Option Nat :=
  if opcode = 0x00 then some ((0 + 2) % 256) -- Feature Abort
  else if opcode = 0x1A then some ((0 + 1) % 256) -- Give Deck Status
  else if opcode = 0x1B then some ((0 + 1) % 256) -- Deck Status
  else if opcode = 0x32 then some ((0 + 3) % 256) -- Set Menu Language
  else if opcode = 0x44 then some ((0 + 1) % 256) -- User Control Pressed
  else if opcode = 0x47 then some ((0 + (len - 2)) % 256) -- Set OSD Name
  else if opcode = 0x70 then (if len ≥ 4 then some ((0 + 2) % 256) else some 0) -- System Audio Mode Request
  else if opcode = 0x72 then some ((0 + 1) % 256) -- Set System Audio Mode
  else if opcode = 0x7A then some ((0 + 1) % 256) -- Report Audio Status
  else if opcode = 0x7E then some ((0 + 1) % 256) -- System Audio Mode Status
  else if opcode = 0x80 then some ((0 + 4) % 256) -- Routing Change
  else if opcode = 0x81 then some ((0 + 2) % 256) -- Routing Information
  else if opcode = 0x82 then some ((0 + 2) % 256) -- Active Source
  else if opcode = 0x84 then some ((0 + 3) % 256) -- Report Physical Address
  else if opcode = 0x87 then some ((0 + 3) % 256) -- Device Vendor ID
  else if opcode = 0x89 then some ((0 + (len - 2)) % 256) -- Vendor Command
  else if opcode = 0x8D then some ((0 + 1) % 256) -- Menu Request
  else if opcode = 0x8E then some ((0 + 1) % 256) -- Menu Status
  else if opcode = 0x90 then some ((0 + 1) % 256) -- Report Device Power Status
  else if opcode = 0x9D then some ((0 + 2) % 256) -- Inactive Source
  else if opcode = 0x9E then some ((0 + 1) % 256) -- CEC Version
  else if opcode = 0xA0 then some ((0 + (len - 2)) % 256) -- Vendor Command With ID
  else none -- No Operands

/-- The second switch of `add_parameters_cec`, again as a chain of tests: the
fields under the parameter tree and the text appended to the info column. -/
def add_parameters_cec_fields (tvb : tvbuff_t) (params_tree : proto_tree) (opcode oplen : Nat) :
    Dissector Unit :=
  if opcode = 0x00 then do -- Feature Abort
    let _ ← proto_tree_add_item params_tree hf_cec_opcode tvb 2 1
    let _ ← proto_tree_add_item params_tree hf_cec_abort_reason tvb 3 1
  else if opcode = 0x1A then do -- Give Deck Status
    let _ ← proto_tree_add_item params_tree hf_cec_status_request tvb 2 1
  else if opcode = 0x1B then do -- Deck Status
    let _ ← proto_tree_add_item params_tree hf_cec_deck_info tvb 2 1
    let v ← tvb_get_guint8 tvb 2
    col_append_fstr COL_INFO ("is '" ++ val_to_str_const v cec_deck_info "Unknown" ++ "' ")
  else if opcode = 0x32 then do -- Set Menu Language
    let _ ← proto_tree_add_item params_tree hf_cec_menu_language tvb 2 3
    let s ← tvb_get_string_enc tvb 2 3
    col_append_fstr COL_INFO ("to '" ++ fmt_s (some 3) s ++ "' ")
  else if opcode = 0x44 then do -- User Control Pressed
    let _ ← proto_tree_add_item params_tree hf_cec_user_control_code tvb 2 1
    let v ← tvb_get_guint8 tvb 2
    col_append_fstr COL_INFO ("'" ++ val_to_str_const v cec_user_control_code "Unknown" ++ "' button ")
  else if opcode = 0x47 then do -- Set OSD Name
    let _ ← proto_tree_add_item params_tree hf_cec_osd_name tvb 2 oplen
    let s ← tvb_get_string_enc tvb 2 oplen
    col_append_fstr COL_INFO ("to '" ++ fmt_s (some oplen) s ++ "' ")
  else if opcode = 0x70 then do -- System Audio Mode Request
    if tvb_length tvb ≥ 4 then
      let _ ← proto_tree_add_item params_tree hf_cec_physical_address tvb 2 2
      let v ← tvb_get_guint16 tvb 2
      let addr := cec_fmt_physical_address v
      col_append_fstr COL_INFO ("at " ++ addr ++ " ")
    else
      col_append_fstr COL_INFO "Shutdown "
  else if opcode = 0x72 then do -- Set System Audio Mode
    let _ ← proto_tree_add_item params_tree hf_cec_system_audio_status tvb 2 1
    let v ← tvb_get_guint8 tvb 2
    col_append_fstr COL_INFO ("to '" ++ val_to_str_const v cec_system_audio_status "Unknown" ++ "' ")
  else if opcode = 0x7A then do -- Report Audio Status
    let audio_item ← proto_tree_add_item params_tree hf_cec_audio_status tvb 2 1
    let audio_tree := proto_item_add_subtree audio_item
    let b ← tvb_get_guint8 tvb 2
    if b &&& 0x80 ≠ 0 then
      proto_item_set_text audio_item "Audio Status: Muted"
      col_append_fstr COL_INFO "is Muted "
    else
      let b ← tvb_get_guint8 tvb 2
      let vol := cec_fmt_audio_volume_status b
      proto_item_set_text audio_item ("Audio Status: " ++ vol ++ " Volume")
      col_append_fstr COL_INFO ("is at " ++ vol ++ " Volume ")
    let _ ← proto_tree_add_item audio_tree hf_cec_audio_mute_status tvb 2 1
    let _ ← proto_tree_add_item audio_tree hf_cec_audio_volume_status tvb 2 1
  else if opcode = 0x7E then do -- System Audio Mode Status
    let _ ← proto_tree_add_item params_tree hf_cec_system_audio_status tvb 2 1
    let v ← tvb_get_guint8 tvb 2
    col_append_fstr COL_INFO ("is '" ++ val_to_str_const v cec_system_audio_status "Unknown" ++ "' ")
  else if opcode = 0x80 then do -- Routing Change
    let _ ← proto_tree_add_item params_tree hf_cec_physical_address tvb 2 2
    let _ ← proto_tree_add_item params_tree hf_cec_physical_address tvb 4 2
    let v ← tvb_get_guint16 tvb 2
    let orig_addr := cec_fmt_physical_address v
    let w ← tvb_get_guint16 tvb 4
    let new_addr := cec_fmt_physical_address w
    col_append_fstr COL_INFO ("from " ++ orig_addr ++ " to " ++ new_addr ++ " ")
  else if opcode = 0x81 then do -- Routing Information
    let _ ← proto_tree_add_item params_tree hf_cec_physical_address tvb 2 2
    let v ← tvb_get_guint16 tvb 2
    let _addr := cec_fmt_physical_address v
  else if opcode = 0x82 then do -- Active Source
    let _ ← proto_tree_add_item params_tree hf_cec_physical_address tvb 2 2
    let v ← tvb_get_guint16 tvb 2
    let addr := cec_fmt_physical_address v
    col_append_fstr COL_INFO ("to " ++ addr ++ " ")
  else if opcode = 0x84 then do -- Report Physical Address
    let _ ← proto_tree_add_item params_tree hf_cec_physical_address tvb 2 2
    let _ ← proto_tree_add_item params_tree hf_cec_device_type tvb 4 1
    let v ← tvb_get_guint16 tvb 2
    let addr := cec_fmt_physical_address v
    col_append_fstr COL_INFO ("of " ++ addr ++ " ")
  else if opcode = 0x87 then do -- Device Vendor ID
    let _ ← proto_tree_add_item params_tree hf_cec_vendor_id tvb 2 3
    let v ← tvb_get_guint24 tvb 2
    col_append_fstr COL_INFO ("is " ++ val_to_str_const v cec_vendor_id "Unknown" ++ " ")
  else if opcode = 0x89 then do -- Vendor Command
    let _ ← proto_tree_add_item params_tree hf_cec_vendor_command tvb 2 oplen
  else if opcode = 0x8D then do -- Menu Request
    let _ ← proto_tree_add_item params_tree hf_cec_menu_request_type tvb 2 1
    let v ← tvb_get_guint8 tvb 2
    col_append_fstr COL_INFO ("to " ++ val_to_str_const v cec_menu_request_type "Unknown" ++ " ")
  else if opcode = 0x8E then do -- Menu Status
    let _ ← proto_tree_add_item params_tree hf_cec_menu_state tvb 2 1
    let v ← tvb_get_guint8 tvb 2
    col_append_fstr COL_INFO ("is in a(n) " ++ val_to_str_const v cec_menu_state "Unknown" ++ " state ")
  else if opcode = 0x90 then do -- Report Device Power Status
    let _ ← proto_tree_add_item params_tree hf_cec_power_status tvb 2 1
    let v ← tvb_get_guint8 tvb 2
    col_append_fstr COL_INFO ("is " ++ val_to_str_const v cec_power_status "Unknown" ++ " ")
  else if opcode = 0x9D then do -- Inactive Source
    let _ ← proto_tree_add_item params_tree hf_cec_physical_address tvb 2 2
    let v ← tvb_get_guint16 tvb 2
    let addr := cec_fmt_physical_address v
    col_append_fstr COL_INFO ("at " ++ addr ++ " ")
  else if opcode = 0x9E then do -- CEC Version
    let _ ← proto_tree_add_item params_tree hf_cec_version tvb 2 1
    let v ← tvb_get_guint8 tvb 2
    col_append_fstr COL_INFO ("is " ++ val_to_str_const v cec_version "Unknown" ++ " ")
  else if opcode = 0xA0 then do -- Vendor Command With ID
    let _ ← proto_tree_add_item params_tree hf_cec_vendor_id tvb 2 3
    let _ ← proto_tree_add_item params_tree hf_cec_vendor_command tvb 5 ((oplen : Int) - 3)
  else pure ()

/-- The function `add_parameters_cec`: it returns the parameter length. -/
def add_parameters_cec (tvb : tvbuff_t) (tree : proto_tree) : Dissector Nat := do
  let opcode ← tvb_get_guint8 tvb 1
  -- Should there be any parameters?
  match add_parameters_cec_oplen opcode (tvb_length tvb) with
  | none => return 0
  | some oplen =>
    let params_item ← proto_tree_add_item tree hf_cec_parameters tvb 2 oplen
    let params_tree := proto_item_add_subtree params_item
    proto_item_set_text params_item ("Parameters: (" ++ fmt_u oplen ++ " bytes)")
    add_parameters_cec_fields tvb params_tree opcode oplen
    return oplen

/-- The function `expert_add_info_cec`; `bytes` is a `guint8`. -/
def expert_add_info_cec (tvb : tvbuff_t) (ti : Nat) (bytes : Nat) : Dissector Unit := do
  if tvb_length tvb = 1 then
    let h ← tvb_get_guint8 tvb 0
    expert_add_info_format ti ei_cec_poll
      ("Poll for " ++ val_to_str_const (h &&& 0xF) cec_destination "Unknown")
  else
    let op ← tvb_get_guint8 tvb 1
    if op = 0x00 then
      expert_add_info ti ei_cec_feature_abort
  if tvb_length tvb > bytes then
    let extra := tvb_length tvb - bytes
    col_append_fstr COL_INFO ("[Extra " ++ fmt_u extra ++ " bytes] ")
    proto_tree_add_expert_format ei_cec_extra_bytes bytes extra
      ("Extra " ++ fmt_u extra ++ " bytes in packet")

/-- The function `dissect_cec`; `tree` is `none` for the null tree, when no
details are asked. -/
def dissect_cec (tvb : tvbuff_t) (tree : Option proto_tree) : Dissector Unit := do
  col_set_str COL_PROTOCOL "HDMI CEC"
  -- Clear out stuff in the info column
  col_clear COL_INFO
  let header ← tvb_get_guint8 tvb 0
  col_add_fstr COL_DEF_SRC (val_to_str_const (header >>> 4) cec_initiator "Unknown")
  col_add_fstr COL_DEF_DST (val_to_str_const (header &&& 0xF) cec_destination "Unknown")
  match tree with
  | none => pure ()
  | some tree => -- We are being asked for details
    let ti ← proto_tree_add_item tree proto_cec tvb 0 1
    let cec_tree := proto_item_add_subtree ti
    let _ ← proto_tree_add_item cec_tree hf_cec_initiator tvb 0 1
    let _ ← proto_tree_add_item cec_tree hf_cec_destination tvb 0 1
    let mut bytes := 1
    -- If there is no opcode, it is a polling message
    if tvb_length tvb > 1 then
      let op ← tvb_get_guint8 tvb 1
      col_add_fstr COL_INFO (val_to_str_const op cec_opcode "Unknown" ++ " ")
      let _ ← proto_tree_add_item cec_tree hf_cec_opcode tvb 1 1
      let oplen ← add_parameters_cec tvb cec_tree
      bytes := (bytes + (1 + oplen)) % 256
      proto_item_set_len ti bytes
    else
      col_add_fstr COL_INFO
        ("Poll for " ++ val_to_str_const (header &&& 0xF) cec_destination "Unknown" ++ " ")
    expert_add_info_cec tvb ti bytes

/-- The decode of a frame with details asked: `dissect_cec` run on the empty
state with a tree. -/
def decode (tvb : tvbuff_t) : Outcome Unit :=
  dissect_cec tvb (some proto_tree.root) packet_info.init

/-! ## Notions used to state the properties -/

/-- The opcodes the first switch of `add_parameters_cec` lists, in its order:
the resolver table. -/
def resolver_table : List Nat :=
  [0x00, 0x1A, 0x1B, 0x32, 0x44, 0x47, 0x70, 0x72, 0x7A, 0x7E, 0x80, 0x81, 0x82, 0x84, 0x87,
   0x89, 0x8D, 0x8E, 0x90, 0x9D, 0x9E, 0xA0]

/-- The parameter length the first switch resolves for an opcode on a frame
of `len` bytes: the value of `oplen` after the switch, 0 on its `default`
branch. -/
def resolve (opcode len : Nat) : Nat := (add_parameters_cec_oplen opcode len).getD 0

/-- The parameters of a frame are fully present: the frame has no opcode
byte, or the parameter block its opcode resolves to lies inside the frame
and, for Vendor Command With ID (0xA0), holds at least the 3 bytes of the
vendor id. -/
def params_present (tvb : tvbuff_t) : Bool :=
  match tvb with
  | _ :: op :: _ =>
    match add_parameters_cec_oplen op.val (tvb_length tvb) with
    | none => true
    | some oplen =>
      decide (2 + oplen ≤ tvb_length tvb) && (decide (op.val ≠ 0xA0) || decide (3 ≤ oplen))
  | _ => true

/-- The part of an item that no later call changes: its tree, registration,
start and value (`proto_item_set_len` and `proto_item_set_text` change the
length and the text). -/
def item_core (fi : field_info) : proto_tree × header_field_info × Nat × fvalue :=
  (fi.tree, fi.hfinfo, fi.start, fi.value)

/-- From state `p` to state `q` the source and destination columns are
unchanged and the items of `p` are still the first items of `q`. -/
def Keeps (p q : packet_info) : Prop :=
  q.cinfo.def_src = p.cinfo.def_src ∧ q.cinfo.def_dst = p.cinfo.def_dst ∧
    (p.items.map item_core) <+: (q.items.map item_core)

/-- A step that keeps, from every state, the header columns and the items
already there. -/
def Stable {α : Type} (m : Dissector α) : Prop := ∀ p, Keeps p (m p).pinfo

/-- A step that fails from no state. -/
def NoThrow {α : Type} (m : Dissector α) : Prop := ∀ p, (m p).failed = false

/-- The upper-case hexadecimal digit of a number below 16. -/
def upper_hex_digit (d : Nat) : Char :=
  if d < 10 then Char.ofNat (48 + d) else Char.ofNat (55 + d)

/-- The state of the decode of a frame `h :: op :: rest` when
`add_parameters_cec` is called. -/
def opcode_state (h op : Fin 256) : packet_info :=
  { cinfo := ⟨"HDMI CEC", val_to_str_const op.val cec_opcode "Unknown" ++ " ",
      val_to_str_const (h.val >>> 4) cec_initiator "Unknown",
      val_to_str_const (h.val &&& 0xF) cec_destination "Unknown"⟩,
    items := [⟨proto_tree.root, proto_cec, 0, 1, fvalue.none, none⟩,
      ⟨proto_tree.subtree 0, hf_cec_initiator, 0, 1, fvalue.uinteger (h.val >>> 4), none⟩,
      ⟨proto_tree.subtree 0, hf_cec_destination, 0, 1, fvalue.uinteger (h.val &&& 0xF), none⟩,
      ⟨proto_tree.subtree 0, hf_cec_opcode, 1, 1, fvalue.uinteger op.val, none⟩],
    expert := [] }

/-- The value of the variable `bytes` of `dissect_cec` when
`expert_add_info_cec` is called: 1 for a frame without an opcode byte,
otherwise 1 + (1 + oplen) in the 8 bits of the variable. -/
def consumed (tvb : tvbuff_t) : Nat :=
  match tvb with
  | _ :: op :: _ => (1 + (1 + resolve op.val (tvb_length tvb))) % 256
  | _ => 1

/-- The opcode-specific fragment of a frame: the text `add_parameters_cec`
appends to the info column. -/
def fragment (tvb : tvbuff_t) : String :=
  (add_parameters_cec tvb proto_tree.root packet_info.init).pinfo.cinfo.info

/-- Two states of two runs on the same frame: the info column of `q` is that
of `q0` behind the text `x`, and the expert lists are `e` and `e0`. -/
def Sim (x : String) (e e0 : List expert_info) (q q0 : packet_info) : Prop :=
  q.cinfo.info = x ++ q0.cinfo.info ∧ q.expert = e ∧ q0.expert = e0

/-- Two steps that, from states related by `Sim`, both succeed with related
values or both fail, and end in related states. -/
def Rel {α : Type} (V : α → α → Prop) (m m0 : Dissector α) : Prop :=
  ∀ x e e0 q q0, Sim x e e0 q q0 →
    match m q, m0 q0 with
    | Outcome.ok a q1, Outcome.ok a0 q01 => V a a0 ∧ Sim x e e0 q1 q01
    | Outcome.thrown _ q1, Outcome.thrown _ q01 => Sim x e e0 q1 q01
    | _, _ => False

/-- A step that returns `a` whenever it succeeds. -/
def Returns {α : Type} (m : Dissector α) (a : α) : Prop :=
  ∀ p v p1, m p = Outcome.ok v p1 → v = a

/-- A step that never shortens the info column. -/
def Mono {α : Type} (m : Dissector α) : Prop :=
  ∀ p, p.cinfo.info.length ≤ (m p).pinfo.cinfo.info.length

/-- A step that, when it succeeds, has lengthened the info column. -/
def Grows {α : Type} (m : Dissector α) : Prop :=
  ∀ p, (m p).failed = false → p.cinfo.info.length < (m p).pinfo.cinfo.info.length

/-- A step that leaves the info column as it is. -/
def Silent {α : Type} (m : Dissector α) : Prop :=
  ∀ p, (m p).pinfo.cinfo.info = p.cinfo.info

/-- The opcodes of the resolver table whose branch of the second switch adds
fields only and calls no column function. -/
def silent_opcodes : List Nat := [0x00, 0x1A, 0x89, 0xA0]

/-- The opcodes whose branch of the second switch appends a text to the info
column. -/
def fragment_opcodes : List Nat :=
  [0x1B, 0x32, 0x44, 0x47, 0x70, 0x72, 0x7A, 0x7E, 0x80, 0x82, 0x84, 0x87, 0x8D, 0x8E, 0x90,
   0x9D, 0x9E]

/-- Whether every byte is a printable ASCII character, 0x20 to 0x7E. -/
def printable (bs : List (Fin 256)) : Bool :=
  bs.all fun b => decide (0x20 ≤ b.val) && decide (b.val ≤ 0x7E)

/-- The characters of a byte string, one for each byte. -/
def byte_chars (bs : List (Fin 256)) : List Char := bs.map fun b => Char.ofNat b.val

/-- The byte range of an item: its start and its length. -/
def field_range (fi : field_info) : Nat × Nat := (fi.start, fi.length)

/-- A step that, when it succeeds, has added items over the ranges `rs`, in
that order, and has changed the range of no item already there. -/
def Adds {α : Type} (m : Dissector α) (rs : List (Nat × Nat)) : Prop :=
  ∀ p, (m p).failed = false →
    (m p).pinfo.items.map field_range = p.items.map field_range ++ rs

/-- The opcodes of the resolver table with a fixed parameter length. -/
def fixed_opcodes : List Nat :=
  [0x00, 0x1A, 0x1B, 0x32, 0x44, 0x72, 0x7A, 0x7E, 0x80, 0x81, 0x82, 0x84, 0x87, 0x8D, 0x8E,
   0x90, 0x9D, 0x9E]

/-- The sub-fields of a decoded frame: the items after the protocol item, the
initiator, destination and opcode fields and the Parameters item. -/
def sub_fields (tvb : tvbuff_t) : List field_info := (decode tvb).pinfo.items.drop 5

/-- The size of the local buffers `addr`, `orig_addr` and `new_addr` of
`add_parameters_cec`, each declared `gchar [8]`. -/
def addr_size : Nat := 8

/-- The size of the local buffer `vol` of `add_parameters_cec`, declared
`gchar vol[11]`. -/
def vol_size : Nat := 11

theorem oplen_none_of_not_mem (opcode len : Nat) (h : opcode ∉ resolver_table) :
    add_parameters_cec_oplen opcode len = none := by
  simp only [resolver_table, List.mem_cons, List.mem_singleton, not_or, List.not_mem_nil,
    not_false_eq_true, and_true] at h
  obtain ⟨h0, h1, h2, h3, h4, h5, h6, h7, h8, h9, h10, h11, h12, h13, h14, h15, h16, h17, h18,
    h19, h20, h21⟩ := h
  unfold add_parameters_cec_oplen
  rw [if_neg h0, if_neg h1, if_neg h2, if_neg h3, if_neg h4, if_neg h5, if_neg h6, if_neg h7,
    if_neg h8, if_neg h9, if_neg h10, if_neg h11, if_neg h12, if_neg h13, if_neg h14, if_neg h15,
    if_neg h16, if_neg h17, if_neg h18, if_neg h19, if_neg h20, if_neg h21]

/-- The value of the first switch on its entries: a fixed count between 1 and
4, the rest of the frame in 8 bits, or the conditional count of 0x70. -/
theorem oplen_of_mem (opcode : Nat) (h : opcode ∈ resolver_table) :
    (∃ n, 1 ≤ n ∧ n ≤ 4 ∧ ∀ len, add_parameters_cec_oplen opcode len = some n) ∨
    ((opcode = 0x47 ∨ opcode = 0x89 ∨ opcode = 0xA0) ∧
      ∀ len, add_parameters_cec_oplen opcode len = some ((len - 2) % 256)) ∨
    (opcode = 0x70 ∧
      ∀ len, add_parameters_cec_oplen opcode len = some (if 4 ≤ len then 2 else 0)) := by
  simp only [resolver_table, List.mem_cons, List.mem_singleton, List.not_mem_nil, or_false] at h
  rcases h with h | h | h | h | h | h | h | h | h | h | h | h | h | h | h | h | h | h | h | h | h | h <;>
    subst h
  all_goals simp [add_parameters_cec_oplen]
  right
  intro len
  split <;> rfl

theorem mem_of_oplen_some (opcode len n : Nat) (h : add_parameters_cec_oplen opcode len = some n) :
    opcode ∈ resolver_table := by
  by_contra hm
  rw [oplen_none_of_not_mem opcode len hm] at h
  cases h

/-- C1 fails as stated: Feature Abort (0x00) on a 2-byte frame resolves to 2
parameter bytes, while no byte follows the opcode byte. -/
theorem C1_counterexample : resolve 0x00 2 = 2 ∧ ¬ (resolve 0x00 2 ≤ 2 - 2) := by
  constructor
  · rfl
  · simp [resolve, add_parameters_cec_oplen]

/-- C1, amended: for every opcode and every frame length `L ≥ 2` the resolved
parameter length is at most `L - 2`, except when the opcode is a fixed-length
entry and the frame is shorter than the entry needs; then the resolved length
is still the entry's fixed count, between 1 and 4 and the same for every
frame length, and it exceeds `L - 2`. -/
theorem C1_resolve_bound (opcode L : Nat) (hL : 2 ≤ L) :
    resolve opcode L ≤ L - 2 ∨
      (1 ≤ resolve opcode L ∧ resolve opcode L ≤ 4 ∧
        (∀ L', resolve opcode L' = resolve opcode L) ∧ L < 2 + resolve opcode L) := by
  by_cases hm : opcode ∈ resolver_table
  · rcases oplen_of_mem opcode hm with ⟨n, h1, h4, hn⟩ | ⟨_, hn⟩ | ⟨_, hn⟩
    · have hr : ∀ len, resolve opcode len = n := fun len => by simp [resolve, hn len]
      by_cases hfit : 2 + n ≤ L
      · left; rw [hr]; omega
      · right; simp only [hr]; exact ⟨h1, h4, fun _ => trivial, by omega⟩
    · left; simp only [resolve, hn L, Option.getD_some]; omega
    · left; simp only [resolve, hn L, Option.getD_some]; split <;> omega
  · left
    simp [resolve, oplen_none_of_not_mem opcode L hm]

theorem C1_resolve_bound_witness : 2 ≤ 4 ∧ (resolve 0x80 4 ≤ 4 - 2 ∨
      (1 ≤ resolve 0x80 4 ∧ resolve 0x80 4 ≤ 4 ∧
        (∀ L', resolve 0x80 L' = resolve 0x80 4) ∧ 4 < 2 + resolve 0x80 4)) :=
  ⟨by decide, C1_resolve_bound 0x80 4 (by decide)⟩

/-- C6 fails as stated: on a frame of 258 bytes the three rest-of-frame
opcodes resolve to 0 parameter bytes, not to 256. -/
theorem C6_counterexample :
    resolve 0x47 258 = 0 ∧ resolve 0x89 258 = 0 ∧ resolve 0xA0 258 = 0 ∧ 258 - 2 ≠ 0 := by
  refine ⟨rfl, rfl, rfl, by decide⟩

/-- C6, amended: for Set OSD Name (0x47), Vendor Command (0x89) and Vendor
Command With ID (0xA0) and every frame length `L ≥ 2` the resolved parameter
length is `(L - 2) mod 256`, the length being kept in 8 bits; it equals
`L - 2` for every `L ≤ 257`. -/
theorem C6_rest_of_frame (opcode L : Nat) (hop : opcode = 0x47 ∨ opcode = 0x89 ∨ opcode = 0xA0)
    (hL : 2 ≤ L) :
    resolve opcode L = (L - 2) % 256 ∧ (L ≤ 257 → resolve opcode L = L - 2) := by
  have h : resolve opcode L = (L - 2) % 256 := by
    rcases hop with h | h | h <;> subst h <;> simp [resolve, add_parameters_cec_oplen]
  exact ⟨h, fun h257 => by rw [h]; omega⟩

theorem C6_rest_of_frame_witness :
    (0x47 = 0x47 ∨ 0x47 = 0x89 ∨ 0x47 = 0xA0) ∧ 2 ≤ 16 ∧
      resolve 0x47 16 = (16 - 2) % 256 ∧ (16 ≤ 257 → resolve 0x47 16 = 16 - 2) :=
  ⟨Or.inl rfl, by decide, C6_rest_of_frame 0x47 16 (Or.inl rfl) (by decide)⟩

/-! ## The formatters -/

/-- The bounded write keeps a text shorter than its bound. -/
theorem g_snprintf_of_short (n : Nat) (text : String) (h : text.length < n) :
    g_snprintf n text = text := by
  unfold g_snprintf
  have h1 : text.data.length ≤ n - 1 := by
    have : text.data.length = text.length := rfl
    omega
  rw [List.take_of_length_le h1]

theorem round_half_even_two (a : Nat) : round_half_even (a * 1000000) 2 = a * 500000 := by
  unfold round_half_even
  have h1 : a * 1000000 % 2 = 0 := by omega
  have h2 : a * 1000000 / 2 = a * 500000 := by omega
  simp [h1, h2]

/-- The product `62.5f * n` of a 16-bit count is exact: its significand
`125 * n` has at most 24 binary digits. -/
theorem freq_float (n : Nat) (hn : n ≤ 0xFFFF) :
    float_mul ⟨125, -1⟩ (float_of_guint n) = ⟨125 * n, -1⟩ := by
  have h1 : n < 2 ^ 24 := by norm_num; omega
  have h2 : 125 * n < 2 ^ 24 := by norm_num; omega
  simp only [float_of_guint, float_round, if_pos h1, float_mul, if_pos h2]
  rfl

/-- The conversion `%f` of a number of halves `a / 2`. -/
theorem fmt_f_halves (a : Nat) :
    fmt_f ⟨a, -1⟩ = toString (a / 2) ++ (if a % 2 = 0 then ".000000" else ".500000") := by
  have hs : (if (0 : Int) ≤ -1 then a * 2 ^ (-1 : Int).toNat * 1000000
      else round_half_even (a * 1000000) (2 ^ (-(-1 : Int)).toNat)) = a * 500000 := by
    rw [if_neg (by decide)]
    exact round_half_even_two a
  unfold fmt_f
  simp only [hs]
  have hq : a * 500000 / 1000000 = a / 2 := by omega
  rw [hq]
  by_cases hp : a % 2 = 0
  · have hr : a * 500000 % 1000000 = 0 := by omega
    rw [hr, if_pos hp, String.append_assoc]; rfl
  · have hr : a * 500000 % 1000000 = 500000 := by omega
    rw [hr, if_neg hp, String.append_assoc]; rfl

/-- C10: for every raw value `v`, with `n = v & 0xFFFF`, the `float` product
`62.5f * n` is exactly `125 * n / 2`, with no rounding, and the formatter
writes it with six decimals, which are `.000000` or `.500000`, followed by
" kHz"; raw 16 gives "1000.000000 kHz". -/
theorem C10_frequency (v : Nat) :
    float_mul ⟨125, -1⟩ (float_of_guint (v &&& 0xFFFF)) = ⟨125 * (v &&& 0xFFFF), -1⟩ ∧
    cec_fmt_analogue_frequency v =
      toString (125 * (v &&& 0xFFFF) / 2) ++
        (if 125 * (v &&& 0xFFFF) % 2 = 0 then ".000000" else ".500000") ++ " kHz" ∧
    cec_fmt_analogue_frequency 16 = "1000.000000 kHz" := by
  have hn : v &&& 0xFFFF ≤ 0xFFFF := Nat.and_le_right
  refine ⟨freq_float _ hn, ?_, rfl⟩
  unfold cec_fmt_analogue_frequency
  simp only [freq_float _ hn, fmt_f_halves]
  apply g_snprintf_of_short
  have hl : (toString (125 * (v &&& 0xFFFF) / 2)).length ≤ 7 :=
    Nat.repr_length _ 7 (by decide) (by norm_num; omega)
  have hf : (if 125 * (v &&& 0xFFFF) % 2 = 0 then ".000000" else ".500000").length = 7 := by
    split <;> rfl
  simp only [String.length_append, hf, ITEM_LABEL_LENGTH]
  have : " kHz".length = 4 := rfl
  omega

/-! ## Field values -/

set_option maxRecDepth 100000 in
theorem byte_hi (h : Fin 256) : (h.val &&& 0xF0) >>> 4 = h.val >>> 4 := by
  revert h; decide

set_option maxRecDepth 100000 in
theorem byte_hi_le (h : Fin 256) : h.val >>> 4 ≤ 15 := by
  revert h; decide

theorem field_value_initiator (h : Fin 256) :
    field_value hf_cec_initiator [h] = fvalue.uinteger (h.val >>> 4) := by
  simp [field_value, hf_cec_initiator, hfinfo_mask_value, pntoh, hfinfo_bitshift,
    hfinfo_bitshift_aux, byte_hi]

theorem field_value_destination (h : Fin 256) :
    field_value hf_cec_destination [h] = fvalue.uinteger (h.val &&& 0xF) := by
  simp [field_value, hf_cec_destination, hfinfo_mask_value, pntoh, hfinfo_bitshift,
    hfinfo_bitshift_aux]

theorem field_value_opcode (b : Fin 256) :
    field_value hf_cec_opcode [b] = fvalue.uinteger b.val := by
  simp [field_value, hf_cec_opcode, hfinfo_mask_value, pntoh]

theorem field_value_parameters (bs : List (Fin 256)) :
    field_value hf_cec_parameters bs = fvalue.bytes bs := rfl

theorem field_value_physical_address (bs : List (Fin 256)) :
    field_value hf_cec_physical_address bs = fvalue.uinteger (pntoh bs) := rfl

theorem update_item_append_length (f : field_info → field_info) (l : List field_info)
    (x : field_info) : update_item f l.length (l ++ [x]) = l ++ [f x] := by
  induction l with
  | nil => rfl
  | cons y ys ih => simp [update_item, ih]

/-- The initiator and destination tables agree on every code but 0xF. -/
theorem tables_agree (v : Nat) (hv : v ≠ 0xF) :
    try_val_to_str v cec_initiator = try_val_to_str v cec_destination := by
  simp [try_val_to_str, cec_initiator, cec_destination, Ne.symm hv]

/-! ## Steps that cannot fail -/

theorem noThrow_pure {α : Type} (a : α) : NoThrow (Pure.pure a : Dissector α) := fun _ => rfl

theorem noThrow_bind {α β : Type} {m : Dissector α} {k : α → Dissector β}
    (hm : NoThrow m) (hk : ∀ a, NoThrow (k a)) : NoThrow (m >>= k) := by
  intro p
  have h1 := hm p
  show (Dissector.bind m k p).failed = false
  unfold Dissector.bind
  cases hmp : m p with
  | ok a p1 => exact hk a p1
  | thrown e p1 => rw [hmp] at h1; cases h1

theorem noThrow_modify (f : packet_info → packet_info) : NoThrow (modify_pinfo f) := fun _ => rfl

theorem noThrow_ite {α : Type} {c : Prop} [Decidable c] {a b : Dissector α}
    (ha : c → NoThrow a) (hb : ¬ c → NoThrow b) : NoThrow (if c then a else b) := by
  split
  · exact ha ‹_›
  · exact hb ‹_›

theorem noThrow_get_ntoh (tvb : tvbuff_t) (o n : Nat) (h : o + n ≤ tvb.length) :
    NoThrow (tvb_get_ntoh tvb o n) := by
  intro p
  simp [tvb_get_ntoh, tvb_bytes, tvb_length, h, Pure.pure, Dissector.pure, Outcome.failed]

theorem noThrow_get_string (tvb : tvbuff_t) (o n : Nat) (h : o + n ≤ tvb.length) :
    NoThrow (tvb_get_string_enc tvb o n) := by
  intro p
  simp [tvb_get_string_enc, tvb_bytes, tvb_length, h, Pure.pure, Dissector.pure, Outcome.failed]

theorem noThrow_add_item (n : Nat) (tree : proto_tree) (hf : header_field_info) (tvb : tvbuff_t)
    (s : Nat) (h : s + n ≤ tvb.length) :
    NoThrow (proto_tree_add_item tree hf tvb s (n : Int)) := by
  intro p
  have hl : get_hfi_length tvb s (n : Int) = some n := by
    simp [get_hfi_length]
  simp [proto_tree_add_item, hl, tvb_bytes, tvb_length, h, Outcome.failed]

theorem noThrow_col_append (c : column) (s : String) : NoThrow (col_append_fstr c s) :=
  fun _ => rfl

theorem noThrow_col_add (c : column) (s : String) : NoThrow (col_add_fstr c s) := fun _ => rfl

theorem noThrow_set_text (pi : Nat) (s : String) : NoThrow (proto_item_set_text pi s) :=
  fun _ => rfl

theorem noThrow_set_len (pi n : Nat) : NoThrow (proto_item_set_len pi n) := fun _ => rfl

theorem noThrow_expert_format (pi : Nat) (ei : expert_field) (s : String) :
    NoThrow (expert_add_info_format pi ei s) := fun _ => rfl

theorem noThrow_expert (pi : Nat) (ei : expert_field) : NoThrow (expert_add_info pi ei) :=
  fun _ => rfl

theorem noThrow_tree_expert (ei : expert_field) (a b : Nat) (s : String) :
    NoThrow (proto_tree_add_expert_format ei a b s) := fun _ => rfl

/-- The second switch does not fail on a frame that holds the resolved
parameter block and, for 0xA0, the vendor id. -/
theorem fields_noThrow (tvb : tvbuff_t) (tree : proto_tree) (opcode oplen : Nat)
    (hop : add_parameters_cec_oplen opcode (tvb_length tvb) = some oplen)
    (hfit : 2 + oplen ≤ tvb_length tvb) (hven : opcode = 0xA0 → 3 ≤ oplen) :
    NoThrow (add_parameters_cec_fields tvb tree opcode oplen) := by
  have hm := mem_of_oplen_some _ _ _ hop
  simp only [resolver_table, List.mem_cons, List.mem_singleton, List.not_mem_nil, or_false] at hm
  unfold tvb_length at hfit hop
  rcases hm with h | h | h | h | h | h | h | h | h | h | h | h | h | h | h | h | h | h | h | h | h | h <;>
    subst h <;> simp [add_parameters_cec_oplen] at hop
  case inr.inr.inr.inr.inr.inr.inr.inr.inr.inr.inr.inr.inr.inr.inr.inr.inr.inr.inr.inr.inr =>
    have h3 := hven rfl
    have hc : ((oplen : Int) - 3) = ((oplen - 3 : Nat) : Int) := by omega
    simp only [add_parameters_cec_fields]
    simp
    rw [hc]
    exact noThrow_bind (noThrow_add_item 3 _ _ _ _ (by omega))
      (fun _ => noThrow_bind (noThrow_add_item (oplen - 3) _ _ _ _ (by omega))
        (fun _ => noThrow_pure _))
  all_goals
    simp only [add_parameters_cec_fields]
    simp
    try unfold tvb_length
    repeat' first
      | exact noThrow_pure _
      | exact noThrow_col_append _ _
      | exact noThrow_set_text _ _
      | (refine noThrow_add_item 1 _ _ _ _ ?_; omega)
      | (refine noThrow_add_item 2 _ _ _ _ ?_; omega)
      | (refine noThrow_add_item 3 _ _ _ _ ?_; omega)
      | (refine noThrow_add_item oplen _ _ _ _ ?_; omega)
      | (refine noThrow_get_ntoh _ _ _ ?_; omega)
      | (refine noThrow_get_string _ _ _ ?_; omega)
      | apply noThrow_bind
      | apply noThrow_ite
      | intro _

theorem dissector_pure_bind {α β : Type} (a : α) (k : α → Dissector β) :
    (Pure.pure a >>= k) = k a := rfl

theorem tvb_get_guint8_zero (h : Fin 256) (rest : tvbuff_t) :
    tvb_get_guint8 (h :: rest) 0 = Pure.pure h.val := by
  simp [tvb_get_guint8, tvb_get_ntoh, tvb_bytes, tvb_length, pntoh]

theorem tvb_get_guint8_one (h op : Fin 256) (rest : tvbuff_t) :
    tvb_get_guint8 (h :: op :: rest) 1 = Pure.pure op.val := by
  simp [tvb_get_guint8, tvb_get_ntoh, tvb_bytes, tvb_length, pntoh]

theorem add_parameters_cec_noThrow (h op : Fin 256) (rest : tvbuff_t) (tree : proto_tree)
    (hp : params_present (h :: op :: rest) = true) :
    NoThrow (add_parameters_cec (h :: op :: rest) tree) := by
  unfold add_parameters_cec
  rw [tvb_get_guint8_one, dissector_pure_bind]
  simp only [params_present] at hp
  cases hop : add_parameters_cec_oplen op.val (tvb_length (h :: op :: rest)) with
  | none => exact noThrow_pure _
  | some oplen =>
    rw [hop] at hp
    simp at hp
    simp only
    refine noThrow_bind (noThrow_add_item oplen _ _ _ _ hp.1) (fun _ => ?_)
    refine noThrow_bind (noThrow_set_text _ _) (fun _ => ?_)
    refine noThrow_bind (fields_noThrow _ _ _ _ hop hp.1 ?_) (fun _ => noThrow_pure _)
    intro h0
    rcases hp.2 with h1 | h1
    · exact absurd h0 h1
    · exact h1

theorem expert_add_info_cec_noThrow (tvb : tvbuff_t) (ti bytes : Nat) (h1 : 1 ≤ tvb.length) :
    NoThrow (expert_add_info_cec tvb ti bytes) := by
  unfold expert_add_info_cec tvb_length
  simp
  repeat' first
    | exact noThrow_pure _
    | exact noThrow_col_append _ _
    | exact noThrow_expert_format _ _ _
    | exact noThrow_expert _ _
    | exact noThrow_tree_expert _ _ _ _
    | (refine noThrow_get_ntoh _ _ _ ?_; omega)
    | apply noThrow_bind
    | apply noThrow_ite
    | intro _

theorem dissect_cec_noThrow (tvb : tvbuff_t) (h1 : 1 ≤ tvb.length)
    (hp : params_present tvb = true) : NoThrow (dissect_cec tvb (some proto_tree.root)) := by
  unfold dissect_cec
  simp
  unfold tvb_length
  repeat' first
    | exact noThrow_pure _
    | exact noThrow_col_append _ _
    | exact noThrow_col_add _ _
    | exact noThrow_modify _
    | exact noThrow_set_len _ _
    | (refine expert_add_info_cec_noThrow _ _ _ ?_; omega)
    | (refine noThrow_add_item 1 _ _ _ _ ?_; omega)
    | (refine noThrow_get_ntoh _ _ _ ?_; omega)
    | (match tvb, hp with
       | h :: op :: rest, hp => exact add_parameters_cec_noThrow h op rest _ hp)
    | apply noThrow_bind
    | apply noThrow_ite
    | intro _

/-! ## Steps that keep the header -/

theorem keeps_refl (p : packet_info) : Keeps p p := ⟨rfl, rfl, List.prefix_refl _⟩

theorem keeps_trans {p q r : packet_info} (h1 : Keeps p q) (h2 : Keeps q r) : Keeps p r :=
  ⟨h2.1.trans h1.1, h2.2.1.trans h1.2.1, h1.2.2.trans h2.2.2⟩

theorem stable_pure {α : Type} (a : α) : Stable (Pure.pure a : Dissector α) :=
  fun p => keeps_refl p

theorem stable_bind {α β : Type} {m : Dissector α} {k : α → Dissector β}
    (hm : Stable m) (hk : ∀ a, Stable (k a)) : Stable (m >>= k) := by
  intro p
  have h1 := hm p
  show Keeps p (Dissector.bind m k p).pinfo
  unfold Dissector.bind
  cases hmp : m p with
  | ok a p1 => rw [hmp] at h1; exact keeps_trans h1 (hk a p1)
  | thrown e p1 => rw [hmp] at h1; exact h1

theorem stable_ite {α : Type} {c : Prop} [Decidable c] {a b : Dissector α}
    (ha : Stable a) (hb : Stable b) : Stable (if c then a else b) := by
  split
  · exact ha
  · exact hb

theorem stable_apply_of_eq {α : Type} {m : Dissector α} (hm : Stable m) {p q : packet_info}
    (h : p = q) : Keeps p (m q).pinfo := h ▸ hm p

theorem stable_get_ntoh (tvb : tvbuff_t) (o n : Nat) : Stable (tvb_get_ntoh tvb o n) := by
  intro p
  unfold tvb_get_ntoh
  cases tvb_bytes tvb o n <;> exact keeps_refl p

theorem stable_get_guint8 (tvb : tvbuff_t) (o : Nat) : Stable (tvb_get_guint8 tvb o) :=
  stable_get_ntoh tvb o 1

theorem stable_get_guint16 (tvb : tvbuff_t) (o : Nat) : Stable (tvb_get_guint16 tvb o) :=
  stable_get_ntoh tvb o 2

theorem stable_get_guint24 (tvb : tvbuff_t) (o : Nat) : Stable (tvb_get_guint24 tvb o) :=
  stable_get_ntoh tvb o 3

theorem stable_get_string (tvb : tvbuff_t) (o n : Nat) : Stable (tvb_get_string_enc tvb o n) := by
  intro p
  unfold tvb_get_string_enc
  cases tvb_bytes tvb o n <;> exact keeps_refl p

theorem stable_add_item (tree : proto_tree) (hf : header_field_info) (tvb : tvbuff_t)
    (s : Nat) (n : Int) : Stable (proto_tree_add_item tree hf tvb s n) := by
  intro p
  unfold proto_tree_add_item
  split
  · exact keeps_refl p
  · split
    · exact keeps_refl p
    · exact ⟨rfl, rfl, by simp [Outcome.pinfo]⟩

theorem map_core_update_item (f : field_info → field_info)
    (hf : ∀ fi, item_core (f fi) = item_core fi) (n : Nat) (l : List field_info) :
    (update_item f n l).map item_core = l.map item_core := by
  induction l generalizing n with
  | nil => cases n <;> rfl
  | cons x xs ih =>
    cases n with
    | zero => simp [update_item, hf]
    | succ k => simp [update_item, ih]

theorem stable_set_len (pi n : Nat) : Stable (proto_item_set_len pi n) := by
  intro p
  refine ⟨rfl, rfl, ?_⟩
  simp only [proto_item_set_len, modify_pinfo, Outcome.pinfo]
  rw [map_core_update_item]
  intro fi; rfl

theorem stable_set_text (pi : Nat) (s : String) : Stable (proto_item_set_text pi s) := by
  intro p
  refine ⟨rfl, rfl, ?_⟩
  simp only [proto_item_set_text, modify_pinfo, Outcome.pinfo]
  rw [map_core_update_item]
  intro fi; rfl

theorem stable_col_append_info (s : String) : Stable (col_append_fstr column.COL_INFO s) :=
  fun _ => ⟨rfl, rfl, List.prefix_refl _⟩

theorem stable_col_add_info (s : String) : Stable (col_add_fstr column.COL_INFO s) :=
  fun _ => ⟨rfl, rfl, List.prefix_refl _⟩

theorem stable_expert_format (pi : Nat) (ei : expert_field) (s : String) :
    Stable (expert_add_info_format pi ei s) := fun _ => ⟨rfl, rfl, List.prefix_refl _⟩

theorem stable_expert (pi : Nat) (ei : expert_field) : Stable (expert_add_info pi ei) :=
  fun _ => ⟨rfl, rfl, List.prefix_refl _⟩

theorem stable_tree_expert (ei : expert_field) (a b : Nat) (s : String) :
    Stable (proto_tree_add_expert_format ei a b s) := fun _ => ⟨rfl, rfl, List.prefix_refl _⟩

theorem fields_stable (tvb : tvbuff_t) (tree : proto_tree) (opcode oplen : Nat) :
    Stable (add_parameters_cec_fields tvb tree opcode oplen) := by
  unfold add_parameters_cec_fields
  repeat' with_reducible first
    | apply stable_ite
    | apply stable_bind
    | exact stable_pure _
    | exact stable_col_append_info _
    | exact stable_set_text _ _
    | exact stable_add_item _ _ _ _ _
    | exact stable_get_guint8 _ _
    | exact stable_get_guint16 _ _
    | exact stable_get_guint24 _ _
    | exact stable_get_string _ _ _
    | intro _

theorem add_parameters_cec_stable (tvb : tvbuff_t) (tree : proto_tree) :
    Stable (add_parameters_cec tvb tree) := by
  unfold add_parameters_cec
  refine stable_bind (stable_get_guint8 _ _) (fun opcode => ?_)
  cases add_parameters_cec_oplen opcode (tvb_length tvb) with
  | none => exact stable_pure _
  | some oplen =>
    exact stable_bind (stable_add_item _ _ _ _ _) (fun _ =>
      stable_bind (stable_set_text _ _) (fun _ =>
        stable_bind (fields_stable _ _ _ _) (fun _ => stable_pure _)))

theorem expert_add_info_cec_stable (tvb : tvbuff_t) (ti bytes : Nat) :
    Stable (expert_add_info_cec tvb ti bytes) := by
  unfold expert_add_info_cec
  repeat' with_reducible first
    | apply stable_ite
    | apply stable_bind
    | exact stable_pure _
    | exact stable_col_append_info _
    | exact stable_expert_format _ _ _
    | exact stable_expert _ _
    | exact stable_tree_expert _ _ _ _
    | exact stable_get_guint8 _ _
    | intro _

theorem col_set_str_bind {β : Type} (c : column) (s : String) (k : Unit → Dissector β)
    (p : packet_info) :
    (col_set_str c s >>= k) p = k () { p with cinfo := p.cinfo.set c s } := rfl

theorem col_clear_bind {β : Type} (c : column) (k : Unit → Dissector β) (p : packet_info) :
    (col_clear c >>= k) p = k () { p with cinfo := p.cinfo.set c "" } := rfl

theorem col_add_fstr_bind {β : Type} (c : column) (s : String) (k : Unit → Dissector β)
    (p : packet_info) :
    (col_add_fstr c s >>= k) p = k () { p with cinfo := p.cinfo.set c s } := rfl

theorem add_item_head_bind {β : Type} (tree : proto_tree) (hf : header_field_info) (h : Fin 256)
    (rest : tvbuff_t) (k : Nat → Dissector β) (p : packet_info) :
    (proto_tree_add_item tree hf (h :: rest) 0 1 >>= k) p =
      k p.items.length
        { p with items := p.items ++ [⟨tree, hf, 0, 1, field_value hf [h], none⟩] } := by
  show Dissector.bind _ _ _ = _
  simp [Dissector.bind, proto_tree_add_item, get_hfi_length, tvb_bytes, tvb_length]

/-- Whatever follows the header byte, the decode ends in a state that still
has the header columns and the three header items. -/
theorem header_kept (h : Fin 256) (rest : tvbuff_t) :
    Keeps
      { cinfo := ⟨"HDMI CEC", "",
          val_to_str_const (h.val >>> 4) cec_initiator "Unknown",
          val_to_str_const (h.val &&& 0xF) cec_destination "Unknown"⟩,
        items := [⟨proto_tree.root, proto_cec, 0, 1, field_value proto_cec [h], none⟩,
          ⟨proto_tree.subtree 0, hf_cec_initiator, 0, 1, field_value hf_cec_initiator [h], none⟩,
          ⟨proto_tree.subtree 0, hf_cec_destination, 0, 1,
            field_value hf_cec_destination [h], none⟩],
        expert := [] }
      (decode (h :: rest)).pinfo := by
  unfold decode dissect_cec
  simp only [col_set_str_bind, col_clear_bind, tvb_get_guint8_zero, dissector_pure_bind,
    col_add_fstr_bind, add_item_head_bind]
  refine stable_apply_of_eq ?_ rfl
  repeat' with_reducible first
    | apply stable_ite
    | apply stable_bind
    | exact stable_pure _
    | exact stable_col_add_info _
    | exact stable_set_len _ _
    | exact stable_add_item _ _ _ _ _
    | exact stable_get_guint8 _ _
    | exact add_parameters_cec_stable _ _
    | exact expert_add_info_cec_stable _ _ _
    | intro _

/-! ## Decodes of whole frames -/

/-- The decode of a 1-byte frame. -/
theorem decode_poll (h : Fin 256) :
    decode [h] = Outcome.ok ()
      { cinfo := ⟨"HDMI CEC",
          "Poll for " ++ val_to_str_const (h.val &&& 0xF) cec_destination "Unknown" ++ " ",
          val_to_str_const (h.val >>> 4) cec_initiator "Unknown",
          val_to_str_const (h.val &&& 0xF) cec_destination "Unknown"⟩,
        items := [⟨proto_tree.root, proto_cec, 0, 1, fvalue.none, none⟩,
          ⟨proto_tree.subtree 0, hf_cec_initiator, 0, 1, fvalue.uinteger (h.val >>> 4), none⟩,
          ⟨proto_tree.subtree 0, hf_cec_destination, 0, 1, fvalue.uinteger (h.val &&& 0xF), none⟩],
        expert := [⟨ei_cec_poll, some 0,
          "Poll for " ++ val_to_str_const (h.val &&& 0xF) cec_destination "Unknown", none⟩] } := by
  simp [decode, dissect_cec, bind, Dissector.bind, col_set_str, col_clear, modify_pinfo,
    tvb_get_guint8, tvb_get_ntoh, tvb_bytes, tvb_length, pure, Dissector.pure, pntoh,
    col_add_fstr, proto_tree_add_item, get_hfi_length, expert_add_info_cec,
    expert_add_info_format, column_info.set, packet_info.init, proto_item_add_subtree,
    field_value_initiator, field_value_destination]
  rfl

/-- The decode of a 2-byte frame whose opcode the first switch does not list. -/
theorem decode_no_operands (h op : Fin 256) (hop : add_parameters_cec_oplen op.val 2 = none) :
    decode [h, op] = Outcome.ok ()
      { cinfo := ⟨"HDMI CEC", val_to_str_const op.val cec_opcode "Unknown" ++ " ",
          val_to_str_const (h.val >>> 4) cec_initiator "Unknown",
          val_to_str_const (h.val &&& 0xF) cec_destination "Unknown"⟩,
        items := [⟨proto_tree.root, proto_cec, 0, 2, fvalue.none, none⟩,
          ⟨proto_tree.subtree 0, hf_cec_initiator, 0, 1, fvalue.uinteger (h.val >>> 4), none⟩,
          ⟨proto_tree.subtree 0, hf_cec_destination, 0, 1, fvalue.uinteger (h.val &&& 0xF), none⟩,
          ⟨proto_tree.subtree 0, hf_cec_opcode, 1, 1, fvalue.uinteger op.val, none⟩],
        expert := [] } := by
  have h0 : op.val ≠ 0 := by
    intro h0; rw [h0] at hop; simp [add_parameters_cec_oplen] at hop
  simp [decode, dissect_cec, bind, Dissector.bind, col_set_str, col_clear, modify_pinfo,
    tvb_get_guint8, tvb_get_ntoh, tvb_bytes, tvb_length, pure, Dissector.pure, pntoh,
    col_add_fstr, proto_tree_add_item, get_hfi_length, column_info.set, packet_info.init,
    proto_item_set_len, update_item, proto_item_add_subtree, add_parameters_cec, hop,
    expert_add_info_cec, h0, field_value_initiator, field_value_destination,
    field_value_opcode]
  rfl

/-! ## The frame decoder -/


/-- C2 fails as stated: on the 4-byte Routing Change frame the decode fails
and the tree holds the protocol, source, destination and opcode items only,
so no physical-address field (`cec.params.phy_addr`). -/
theorem C2_counterexample :
    (decode [0xF0, 0x80, 0x10, 0x00]).failed = true ∧
      (decode [0xF0, 0x80, 0x10, 0x00]).pinfo.items.map (fun fi => fi.hfinfo.abbrev_name) =
        ["cec", "cec.src", "cec.dst", "cec.op"] ∧
      hf_cec_physical_address.abbrev_name = "cec.params.phy_addr" :=
  ⟨rfl, rfl, rfl⟩

/-- C2, amended: the decode of a Routing Change frame (opcode 0x80) of 4
bytes fails at the Parameters item, whose range of 4 bytes from offset 2 is
not inside the frame.  The state it leaves has the summary "Routing Change ",
the protocol, initiator, destination and opcode items, each inside the first
2 bytes, no physical-address field and no diagnostic; no byte at an offset
of 4 or more is read. -/
theorem C2_routing_change_short (h a b : Fin 256) :
    decode [h, 0x80, a, b] = Outcome.thrown exception.InvalidFrame
      { cinfo := ⟨"HDMI CEC", "Routing Change ",
          val_to_str_const (h.val >>> 4) cec_initiator "Unknown",
          val_to_str_const (h.val &&& 0xF) cec_destination "Unknown"⟩,
        items := [⟨proto_tree.root, proto_cec, 0, 1, fvalue.none, none⟩,
          ⟨proto_tree.subtree 0, hf_cec_initiator, 0, 1, fvalue.uinteger (h.val >>> 4), none⟩,
          ⟨proto_tree.subtree 0, hf_cec_destination, 0, 1, fvalue.uinteger (h.val &&& 0xF), none⟩,
          ⟨proto_tree.subtree 0, hf_cec_opcode, 1, 1, fvalue.uinteger 0x80, none⟩],
        expert := [] } := by
  simp [decode, dissect_cec, bind, Dissector.bind, col_set_str, col_clear, modify_pinfo,
    tvb_get_guint8, tvb_get_ntoh, tvb_bytes, tvb_length, pure, Dissector.pure, pntoh,
    col_add_fstr, proto_tree_add_item, get_hfi_length, column_info.set, packet_info.init,
    proto_item_add_subtree, add_parameters_cec, add_parameters_cec_oplen, Fin.coe_ofNat_eq_mod,
    field_value_initiator, field_value_destination, field_value_opcode]
  exact ⟨rfl, rfl⟩

/-- C3 fails as stated: a Vendor Command With ID frame of 258 bytes has its
vendor id and 253 command bytes, yet its decode fails, the parameter length
being 0 in 8 bits and the command length 0 - 3; and the 2-byte Vendor Command
With ID frame, whose resolved parameter block of 0 bytes is present, fails on
the vendor id. -/
theorem C3_counterexample :
    (0x00 :: 0xA0 :: List.replicate 256 (0 : Fin 256)).length = 258 ∧
    (decode (0x00 :: 0xA0 :: List.replicate 256 0)).failed = true ∧
    resolve 0xA0 2 = 0 ∧ (decode [0x00, 0xA0]).failed = true := by
  refine ⟨?_, ?_, rfl, rfl⟩
  · set_option maxRecDepth 1000000 in rfl
  · set_option maxRecDepth 1000000 in rfl

/-- C3, amended: the decode of the empty input fails with `InvalidFrame` and
leaves no item; the decode of an input of at least 1 byte does not fail when
its parameters are present in the sense of `params_present`: the frame has
no opcode byte, or the parameter block resolved in 8 bits lies inside the
frame and, for Vendor Command With ID, has at least the 3 vendor-id bytes. -/
theorem C3_decode_failure (tvb : tvbuff_t) (h1 : 1 ≤ tvb.length)
    (hp : params_present tvb = true) :
    decode [] = Outcome.thrown exception.InvalidFrame ⟨⟨"HDMI CEC", "", "", ""⟩, [], []⟩ ∧
    (decode tvb).failed = false :=
  ⟨rfl, dissect_cec_noThrow tvb h1 hp _⟩

theorem C3_decode_failure_witness :
    1 ≤ [(0x10 : Fin 256), 0x00, 0x00, 0x03].length ∧
    params_present [0x10, 0x00, 0x00, 0x03] = true ∧
    decode [] = Outcome.thrown exception.InvalidFrame ⟨⟨"HDMI CEC", "", "", ""⟩, [], []⟩ ∧
    (decode [0x10, 0x00, 0x00, 0x03]).failed = false :=
  ⟨by decide, rfl, C3_decode_failure [0x10, 0x00, 0x00, 0x03] (by decide) rfl⟩

/-- C4 fails as stated: the summary of the poll [0x00] is "Poll for TV "
with a space at its end, not "Poll for TV". -/
theorem C4_counterexample :
    (decode [0x00]).pinfo.cinfo.info = "Poll for TV " ∧
      (decode [0x00]).pinfo.cinfo.info ≠
        "Poll for " ++ val_to_str_const (0x00 &&& 0xF) cec_destination "Unknown" := by
  have h1 : (decode [0x00]).pinfo.cinfo.info = "Poll for TV " := rfl
  have h2 : "Poll for " ++ val_to_str_const (0x00 &&& 0xF) cec_destination "Unknown"
      = "Poll for TV" := rfl
  refine ⟨h1, ?_⟩
  rw [h1, h2]; decide

/-- C4, amended: for every 1-byte input [h] the decode does not fail, its
items are the protocol, initiator and destination items only (no opcode
field, no parameter field), and its summary is "Poll for ", the name of
`h & 0xF` in the destination table ("Unknown" when unmapped) and one
space. -/
theorem C4_poll (h : Fin 256) :
    (decode [h]).failed = false ∧
    (decode [h]).pinfo.items.map (fun fi => fi.hfinfo) =
      [proto_cec, hf_cec_initiator, hf_cec_destination] ∧
    (decode [h]).pinfo.cinfo.info =
      "Poll for " ++ val_to_str_const (h.val &&& 0xF) cec_destination "Unknown" ++ " " := by
  rw [decode_poll h]
  exact ⟨rfl, rfl, rfl⟩

/-- C5: for every frame with header byte `h`, whatever follows it and
whether or not the decode later fails, the source column is the name of
`h >> 4` in the initiator table and the destination column the name of
`h & 0xF` in the destination table, and the initiator and destination items
carry these two values, both at most 15.  0xF is "Unregistered" in the
initiator table and "Broadcast" in the destination table, the tables agree
on every other code, 0xC and 0xD are named "Unknown" in both, and the decode
of a header byte alone never fails. -/
theorem C5_header (h : Fin 256) (rest : tvbuff_t) :
    ((decode (h :: rest)).pinfo.cinfo.def_src =
        val_to_str_const (h.val >>> 4) cec_initiator "Unknown" ∧
      (decode (h :: rest)).pinfo.cinfo.def_dst =
        val_to_str_const (h.val &&& 0xF) cec_destination "Unknown" ∧
      ((decode (h :: rest)).pinfo.items.map item_core).take 3 =
        [(proto_tree.root, proto_cec, 0, fvalue.none),
         (proto_tree.subtree 0, hf_cec_initiator, 0, fvalue.uinteger (h.val >>> 4)),
         (proto_tree.subtree 0, hf_cec_destination, 0, fvalue.uinteger (h.val &&& 0xF))]) ∧
    (h.val >>> 4 ≤ 15 ∧ h.val &&& 0xF ≤ 15) ∧
    (val_to_str_const 0xF cec_initiator "Unknown" = "Unregistered" ∧
      val_to_str_const 0xF cec_destination "Unknown" = "Broadcast") ∧
    (∀ v, v ≠ 0xF → try_val_to_str v cec_initiator = try_val_to_str v cec_destination) ∧
    (∀ v, v = 0xC ∨ v = 0xD →
      val_to_str_const v cec_initiator "Unknown" = "Unknown" ∧
      val_to_str_const v cec_destination "Unknown" = "Unknown") ∧
    (decode [h]).failed = false := by
  obtain ⟨h1, h2, h3⟩ := header_kept h rest
  refine ⟨⟨h1, h2, ?_⟩, ⟨byte_hi_le h, Nat.and_le_right⟩, ⟨rfl, rfl⟩, tables_agree, ?_, ?_⟩
  · rw [List.prefix_iff_eq_take] at h3
    simp only [List.map, List.length] at h3
    rw [← h3]
    simp [item_core, field_value_initiator, field_value_destination]
    rfl
  · rintro v (rfl | rfl) <;> exact ⟨rfl, rfl⟩
  · rw [decode_poll h]; rfl

theorem C5_header_witness :
    (0xC : Nat) ≠ 0xF ∧ ((0xC : Nat) = 0xC ∨ (0xC : Nat) = 0xD) ∧
    try_val_to_str 0xC cec_initiator = try_val_to_str 0xC cec_destination ∧
    val_to_str_const 0xC cec_initiator "Unknown" = "Unknown" ∧
    val_to_str_const 0xC cec_destination "Unknown" = "Unknown" :=
  ⟨by decide, Or.inl rfl, (C5_header 0xC0 []).2.2.2.1 0xC (by decide),
    (C5_header 0xC0 []).2.2.2.2.1 0xC (Or.inl rfl)⟩

/-! ## Opcodes with and without parameters -/


/-- C7 fails as stated: on the 2-byte System Audio Mode Request frame the
text the second switch appends is "Shutdown " with a space at its end, not
"Shutdown". -/
theorem C7_counterexample :
    (add_parameters_cec [0x0F, 0x70] proto_tree.root packet_info.init).pinfo.cinfo.info =
      "Shutdown " ∧ "Shutdown " ≠ "Shutdown" :=
  ⟨rfl, by decide⟩

/-- C7, amended: for System Audio Mode Request (0x70) the resolved parameter
length is 2 when the frame has at least 4 bytes and 0 otherwise.  On a frame
of at least 4 bytes `add_parameters_cec` adds the Parameters item and one
physical-address field over bytes 2-3 and appends "at ", the formatted
address and a space; on a frame of 2 or 3 bytes it adds the Parameters item
of length 0 only, no field under it, and appends "Shutdown " (the word and a
space).  In neither case does it fail. -/
theorem C7_system_audio_mode_request (h a b : Fin 256) (rest : tvbuff_t) (tree : proto_tree)
    (p : packet_info) :
    (∀ L, resolve 0x70 L = if 4 ≤ L then 2 else 0) ∧
    add_parameters_cec (h :: 0x70 :: a :: b :: rest) tree p = Outcome.ok 2
      { cinfo := p.cinfo.set column.COL_INFO
          (p.cinfo.info ++ ("at " ++ cec_fmt_physical_address (a.val * 256 + b.val) ++ " ")),
        items := p.items ++
          [⟨tree, hf_cec_parameters, 2, 2, fvalue.bytes [a, b], some "Parameters: (2 bytes)"⟩,
           ⟨proto_tree.subtree p.items.length, hf_cec_physical_address, 2, 2,
              fvalue.uinteger (a.val * 256 + b.val), none⟩],
        expert := p.expert } ∧
    add_parameters_cec [h, 0x70, a] tree p = Outcome.ok 0
      { cinfo := p.cinfo.set column.COL_INFO (p.cinfo.info ++ "Shutdown "),
        items := p.items ++
          [⟨tree, hf_cec_parameters, 2, 0, fvalue.bytes [], some "Parameters: (0 bytes)"⟩],
        expert := p.expert } ∧
    add_parameters_cec [h, 0x70] tree p = Outcome.ok 0
      { cinfo := p.cinfo.set column.COL_INFO (p.cinfo.info ++ "Shutdown "),
        items := p.items ++
          [⟨tree, hf_cec_parameters, 2, 0, fvalue.bytes [], some "Parameters: (0 bytes)"⟩],
        expert := p.expert } := by
  refine ⟨fun L => ?_, ?_, ?_, ?_⟩
  · simp only [resolve, add_parameters_cec_oplen]
    simp
    split <;> rfl
  all_goals
    simp [add_parameters_cec, add_parameters_cec_oplen, add_parameters_cec_fields, bind,
      Dissector.bind, modify_pinfo, tvb_get_guint8, tvb_get_guint16, tvb_get_ntoh, tvb_bytes,
      tvb_length, pure, Dissector.pure, pntoh, col_append_fstr, proto_tree_add_item,
      get_hfi_length, column_info.set, column_info.get, proto_item_set_text,
      update_item_append_length, proto_item_add_subtree, Fin.coe_ofNat_eq_mod,
      field_value_parameters, field_value_physical_address]
    rfl

/-- C8 fails as stated: the summary of [0xF0, 0x36] is "Standby " with a
space at its end, not the opcode name "Standby" alone. -/
theorem C8_counterexample :
    (decode [0xF0, 0x36]).pinfo.cinfo.info = "Standby " ∧
      val_to_str_const 0x36 cec_opcode "Unknown" = "Standby" ∧
      (decode [0xF0, 0x36]).pinfo.cinfo.info ≠ val_to_str_const 0x36 cec_opcode "Unknown" := by
  have h1 : (decode [0xF0, 0x36]).pinfo.cinfo.info = "Standby " := rfl
  have h2 : val_to_str_const 0x36 cec_opcode "Unknown" = "Standby" := rfl
  refine ⟨h1, h2, ?_⟩
  rw [h1, h2]; decide

/-- C8, amended: for every opcode that is not in the resolver table and every
2-byte frame [h, op] the parameter length is 0, the decode does not fail, its
items are the protocol item and the initiator, destination and opcode fields,
its summary is the name of the opcode in the opcode table ("Unknown" for an
unnamed opcode) followed by one space, and no diagnostic is emitted. -/
theorem C8_no_operands (h op : Fin 256) (hop : op.val ∉ resolver_table) :
    resolve op.val 2 = 0 ∧
    decode [h, op] = Outcome.ok ()
      { cinfo := ⟨"HDMI CEC", val_to_str_const op.val cec_opcode "Unknown" ++ " ",
          val_to_str_const (h.val >>> 4) cec_initiator "Unknown",
          val_to_str_const (h.val &&& 0xF) cec_destination "Unknown"⟩,
        items := [⟨proto_tree.root, proto_cec, 0, 2, fvalue.none, none⟩,
          ⟨proto_tree.subtree 0, hf_cec_initiator, 0, 1, fvalue.uinteger (h.val >>> 4), none⟩,
          ⟨proto_tree.subtree 0, hf_cec_destination, 0, 1, fvalue.uinteger (h.val &&& 0xF), none⟩,
          ⟨proto_tree.subtree 0, hf_cec_opcode, 1, 1, fvalue.uinteger op.val, none⟩],
        expert := [] } := by
  have hn := oplen_none_of_not_mem op.val 2 hop
  exact ⟨by simp [resolve, hn], decode_no_operands h op hn⟩

theorem C8_no_operands_witness :
    ((0x36 : Fin 256).val ∉ resolver_table) ∧
    resolve (0x36 : Fin 256).val 2 = 0 ∧
    decode [0xF0, 0x36] = Outcome.ok ()
      { cinfo := ⟨"HDMI CEC", val_to_str_const (0x36 : Fin 256).val cec_opcode "Unknown" ++ " ",
          val_to_str_const ((0xF0 : Fin 256).val >>> 4) cec_initiator "Unknown",
          val_to_str_const ((0xF0 : Fin 256).val &&& 0xF) cec_destination "Unknown"⟩,
        items := [⟨proto_tree.root, proto_cec, 0, 2, fvalue.none, none⟩,
          ⟨proto_tree.subtree 0, hf_cec_initiator, 0, 1,
            fvalue.uinteger ((0xF0 : Fin 256).val >>> 4), none⟩,
          ⟨proto_tree.subtree 0, hf_cec_destination, 0, 1,
            fvalue.uinteger ((0xF0 : Fin 256).val &&& 0xF), none⟩,
          ⟨proto_tree.subtree 0, hf_cec_opcode, 1, 1,
            fvalue.uinteger (0x36 : Fin 256).val, none⟩],
        expert := [] } :=
  ⟨by decide, C8_no_operands 0xF0 0x36 (by decide)⟩

/-! ## The physical address -/

theorem fmt_hhX_digit (d : Nat) (hd : d ≤ 15) :
    fmt_hhX d = String.mk [upper_hex_digit d] := by
  interval_cases d <;> rfl

/-- C11: for every value v the physical-address formatter renders the four
nibbles (v >> 12) & 0xF, (v >> 8) & 0xF, (v >> 4) & 0xF and v & 0xF, the most
significant first, each as one upper-case hexadecimal digit, with a dot
between two digits; 0x1000 gives "1.0.0.0" and 0x0000 gives "0.0.0.0". -/
theorem C11_physical_address (v : Nat) :
    cec_fmt_physical_address v =
      String.mk [upper_hex_digit (v >>> 12 &&& 0xF), Char.ofNat 46,
                 upper_hex_digit (v >>> 8 &&& 0xF), Char.ofNat 46,
                 upper_hex_digit (v >>> 4 &&& 0xF), Char.ofNat 46,
                 upper_hex_digit (v &&& 0xF)] ∧
    cec_fmt_physical_address 0x1000 = "1.0.0.0" ∧
    cec_fmt_physical_address 0x0000 = "0.0.0.0" := by
  refine ⟨?_, rfl, rfl⟩
  unfold cec_fmt_physical_address
  rw [fmt_hhX_digit _ Nat.and_le_right, fmt_hhX_digit _ Nat.and_le_right,
    fmt_hhX_digit _ Nat.and_le_right, fmt_hhX_digit _ Nat.and_le_right]
  rw [g_snprintf_of_short]
  · rfl
  · show (7 : Nat) < 240
    decide

/-! ## The decode of a frame with an opcode byte -/

theorem returns_pure {α : Type} (a : α) : Returns (Pure.pure a : Dissector α) a := by
  intro p v p1 h
  cases h
  rfl

theorem returns_bind {α β : Type} {m : Dissector α} {k : α → Dissector β} {b : β}
    (hk : ∀ a, Returns (k a) b) : Returns (m >>= k) b := by
  intro p v p1 h
  change Dissector.bind m k p = _ at h
  unfold Dissector.bind at h
  cases hm : m p with
  | ok a q => rw [hm] at h; exact hk a q v p1 h
  | thrown e q => rw [hm] at h; cases h

theorem add_parameters_cec_returns (h op : Fin 256) (rest : tvbuff_t) (tree : proto_tree) :
    Returns (add_parameters_cec (h :: op :: rest) tree)
      (resolve op.val (tvb_length (h :: op :: rest))) := by
  unfold add_parameters_cec resolve
  rw [tvb_get_guint8_one, dissector_pure_bind]
  cases add_parameters_cec_oplen op.val (tvb_length (h :: op :: rest)) with
  | none => exact returns_pure 0
  | some oplen =>
    exact returns_bind fun _ => returns_bind fun _ => returns_bind fun _ => returns_pure oplen

theorem decode_cons_cons (h op : Fin 256) (rest : tvbuff_t) :
    decode (h :: op :: rest) =
      (add_parameters_cec (h :: op :: rest) (proto_tree.subtree 0) >>= fun oplen =>
        proto_item_set_len 0 ((1 + (1 + oplen)) % 256) >>= fun _ =>
        expert_add_info_cec (h :: op :: rest) 0 ((1 + (1 + oplen)) % 256))
      (opcode_state h op) := by
  simp [decode, dissect_cec, bind, Dissector.bind, col_set_str, col_clear, modify_pinfo,
    tvb_get_guint8, tvb_get_ntoh, tvb_bytes, tvb_length, pure, Dissector.pure, pntoh,
    col_add_fstr, proto_tree_add_item, get_hfi_length, column_info.set, packet_info.init,
    proto_item_add_subtree, opcode_state,
    field_value_initiator, field_value_destination, field_value_opcode]
  rfl

/-- The run of `expert_add_info_cec` on a frame with an opcode byte. -/
theorem expert_add_info_cec_cons_cons (h op : Fin 256) (rest : tvbuff_t) (ti bytes : Nat)
    (p : packet_info) :
    expert_add_info_cec (h :: op :: rest) ti bytes p =
      Outcome.ok ()
        { cinfo := p.cinfo.set column.COL_INFO
            (p.cinfo.info ++
              if tvb_length (h :: op :: rest) > bytes then
                "[Extra " ++ fmt_u (tvb_length (h :: op :: rest) - bytes) ++ " bytes] "
              else ""),
          items := p.items,
          expert := p.expert ++
            (if op.val = 0x00 then [⟨ei_cec_feature_abort, some ti, "Feature Abort", none⟩]
              else []) ++
            (if tvb_length (h :: op :: rest) > bytes then
              [⟨ei_cec_extra_bytes, none,
                "Extra " ++ fmt_u (tvb_length (h :: op :: rest) - bytes) ++ " bytes in packet",
                some (bytes, tvb_length (h :: op :: rest) - bytes)⟩]
              else []) } := by
  unfold expert_add_info_cec
  have h1 : tvb_length (h :: op :: rest) ≠ 1 := by simp [tvb_length]
  rw [if_neg h1]
  rw [tvb_get_guint8_one]
  by_cases h0 : op.val = 0x00 <;> by_cases hb : tvb_length (h :: op :: rest) > bytes
  all_goals
    simp [h0, hb, bind, Dissector.bind, expert_add_info, col_append_fstr,
      proto_tree_add_expert_format, modify_pinfo, pure, Dissector.pure, column_info.set,
      column_info.get, ei_cec_feature_abort]
theorem rel_pure {α : Type} {V : α → α → Prop} {a a0 : α} (h : V a a0) :
    Rel V (Pure.pure a : Dissector α) (Pure.pure a0) :=
  fun _ _ _ _ _ hs => ⟨h, hs⟩

theorem rel_bind {α β : Type} {V : α → α → Prop} {W : β → β → Prop}
    {m m0 : Dissector α} {k k0 : α → Dissector β}
    (hm : Rel V m m0) (hk : ∀ a a0, V a a0 → Rel W (k a) (k0 a0)) :
    Rel W (m >>= k) (m0 >>= k0) := by
  intro x e e0 q q0 hs
  have h1 := hm x e e0 q q0 hs
  show match Dissector.bind m k q, Dissector.bind m0 k0 q0 with
    | Outcome.ok a q1, Outcome.ok a0 q01 => W a a0 ∧ Sim x e e0 q1 q01
    | Outcome.thrown _ q1, Outcome.thrown _ q01 => Sim x e e0 q1 q01
    | _, _ => False
  unfold Dissector.bind
  cases hq : m q with
  | ok a q1 =>
    cases hq0 : m0 q0 with
    | ok a0 q01 =>
      rw [hq, hq0] at h1
      exact hk a a0 h1.1 x e e0 q1 q01 h1.2
    | thrown e1 q01 => rw [hq, hq0] at h1; exact h1.elim
  | thrown e1 q1 =>
    cases hq0 : m0 q0 with
    | ok a0 q01 => rw [hq, hq0] at h1; exact h1.elim
    | thrown e2 q01 => rw [hq, hq0] at h1; exact h1

theorem rel_ite {α : Type} {V : α → α → Prop} {c : Prop} [Decidable c] {a b a0 b0 : Dissector α}
    (ha : Rel V a a0) (hb : Rel V b b0) :
    Rel V (if c then a else b) (if c then a0 else b0) := by
  split
  · exact ha
  · exact hb

theorem rel_get_ntoh (tvb : tvbuff_t) (o n : Nat) :
    Rel Eq (tvb_get_ntoh tvb o n) (tvb_get_ntoh tvb o n) := by
  intro x e e0 q q0 hs
  unfold tvb_get_ntoh
  cases tvb_bytes tvb o n with
  | none => exact hs
  | some bs => exact ⟨rfl, hs⟩

theorem rel_get_guint8 (tvb : tvbuff_t) (o : Nat) :
    Rel Eq (tvb_get_guint8 tvb o) (tvb_get_guint8 tvb o) := rel_get_ntoh tvb o 1

theorem rel_get_guint16 (tvb : tvbuff_t) (o : Nat) :
    Rel Eq (tvb_get_guint16 tvb o) (tvb_get_guint16 tvb o) := rel_get_ntoh tvb o 2

theorem rel_get_guint24 (tvb : tvbuff_t) (o : Nat) :
    Rel Eq (tvb_get_guint24 tvb o) (tvb_get_guint24 tvb o) := rel_get_ntoh tvb o 3

theorem rel_get_string (tvb : tvbuff_t) (o n : Nat) :
    Rel Eq (tvb_get_string_enc tvb o n) (tvb_get_string_enc tvb o n) := by
  intro x e e0 q q0 hs
  unfold tvb_get_string_enc
  cases tvb_bytes tvb o n with
  | none => exact hs
  | some bs => exact ⟨rfl, hs⟩

theorem rel_add_item (t t0 : proto_tree) (hf : header_field_info) (tvb : tvbuff_t)
    (s : Nat) (n : Int) :
    Rel (fun _ _ => True) (proto_tree_add_item t hf tvb s n) (proto_tree_add_item t0 hf tvb s n) := by
  intro x e e0 q q0 hs
  unfold proto_tree_add_item
  cases get_hfi_length tvb s n with
  | none => exact hs
  | some len =>
    dsimp only
    cases tvb_bytes tvb s len with
    | none => exact hs
    | some bs => exact ⟨trivial, hs.1, hs.2.1, hs.2.2⟩

theorem rel_set_text (pi pi0 : Nat) (s s0 : String) :
    Rel (fun _ _ => True) (proto_item_set_text pi s) (proto_item_set_text pi0 s0) :=
  fun _ _ _ _ _ hs => ⟨trivial, hs⟩

theorem rel_col_append_info (s : String) :
    Rel (fun _ _ => True) (col_append_fstr column.COL_INFO s) (col_append_fstr column.COL_INFO s) := by
  intro x e e0 q q0 hs
  refine ⟨trivial, ?_, hs.2.1, hs.2.2⟩
  show q.cinfo.info ++ s = x ++ (q0.cinfo.info ++ s)
  rw [hs.1, String.append_assoc]

theorem rel_fields (tvb : tvbuff_t) (t t0 : proto_tree) (opcode oplen : Nat) :
    Rel (fun _ _ => True) (add_parameters_cec_fields tvb t opcode oplen)
      (add_parameters_cec_fields tvb t0 opcode oplen) := by
  unfold add_parameters_cec_fields
  repeat' with_reducible first
    | apply rel_ite
    | apply rel_bind
    | exact rel_pure trivial
    | exact rel_col_append_info _
    | exact rel_set_text _ _ _ _
    | exact rel_add_item _ _ _ _ _ _
    | exact rel_get_guint8 _ _
    | exact rel_get_guint16 _ _
    | exact rel_get_guint24 _ _
    | exact rel_get_string _ _ _
    | (intro a a0 h; subst h)
    | (intro a a0 h)

theorem rel_add_parameters_cec (tvb : tvbuff_t) (t t0 : proto_tree) :
    Rel Eq (add_parameters_cec tvb t) (add_parameters_cec tvb t0) := by
  unfold add_parameters_cec
  refine rel_bind (rel_get_guint8 _ _) ?_
  intro opcode _ ho
  subst ho
  cases add_parameters_cec_oplen opcode (tvb_length tvb) with
  | none => exact rel_pure rfl
  | some oplen =>
    exact rel_bind (rel_add_item _ _ _ _ _ _) fun _ _ _ =>
      rel_bind (rel_set_text _ _ _ _) fun _ _ _ =>
        rel_bind (rel_fields _ _ _ _ _) fun _ _ _ => rel_pure rfl

theorem proto_item_set_len_bind {β : Type} (pi n : Nat) (k : Unit → Dissector β)
    (p : packet_info) :
    (proto_item_set_len pi n >>= k) p =
      k () { p with items := update_item (fun fi => { fi with length := n }) pi p.items } := rfl

/-- The run of `add_parameters_cec` inside the decode of a frame, when it
succeeds: it returns the resolved length, appends the fragment to the opcode
name and leaves the expert list empty. -/
theorem add_parameters_cec_opcode_state (h op : Fin 256) (rest : tvbuff_t) (v : Nat)
    (p1 : packet_info)
    (hr : add_parameters_cec (h :: op :: rest) (proto_tree.subtree 0) (opcode_state h op) =
      Outcome.ok v p1) :
    v = resolve op.val (tvb_length (h :: op :: rest)) ∧
    p1.cinfo.info =
      val_to_str_const op.val cec_opcode "Unknown" ++ " " ++ fragment (h :: op :: rest) ∧
    p1.expert = [] := by
  refine ⟨add_parameters_cec_returns h op rest _ _ _ _ hr, ?_⟩
  have hs : Sim (val_to_str_const op.val cec_opcode "Unknown" ++ " ") [] []
      (opcode_state h op) packet_info.init := ⟨(String.append_empty _).symm, rfl, rfl⟩
  have hrel := rel_add_parameters_cec (h :: op :: rest) (proto_tree.subtree 0) proto_tree.root
    _ _ _ _ _ hs
  rw [hr] at hrel
  unfold fragment
  cases h0 : add_parameters_cec (h :: op :: rest) proto_tree.root packet_info.init with
  | ok a q => rw [h0] at hrel; exact ⟨hrel.2.1, hrel.2.2.1⟩
  | thrown e q => rw [h0] at hrel; exact hrel.elim

/-- The decode of a frame with an opcode byte, when it succeeds: the summary
is the opcode name, a space, the fragment and the Extra-bytes text if any;
the expert list is the Feature-Abort note if the opcode is 0x00 and the
Extra-bytes warning if the frame is longer than the consumed count; the
protocol item has the consumed count as its length. -/
theorem decode_of_ok (h op : Fin 256) (rest : tvbuff_t)
    (hok : (decode (h :: op :: rest)).failed = false) :
    (decode (h :: op :: rest)).pinfo.cinfo.info =
      val_to_str_const op.val cec_opcode "Unknown" ++ " " ++ fragment (h :: op :: rest) ++
        (if tvb_length (h :: op :: rest) > consumed (h :: op :: rest) then
          "[Extra " ++ fmt_u (tvb_length (h :: op :: rest) - consumed (h :: op :: rest)) ++
            " bytes] "
        else "") ∧
    (decode (h :: op :: rest)).pinfo.expert =
      (if op.val = 0x00 then [⟨ei_cec_feature_abort, some 0, "Feature Abort", none⟩] else []) ++
      (if tvb_length (h :: op :: rest) > consumed (h :: op :: rest) then
        [⟨ei_cec_extra_bytes, none,
          "Extra " ++ fmt_u (tvb_length (h :: op :: rest) - consumed (h :: op :: rest)) ++
            " bytes in packet",
          some (consumed (h :: op :: rest),
            tvb_length (h :: op :: rest) - consumed (h :: op :: rest))⟩]
      else []) ∧
    (decode (h :: op :: rest)).pinfo.items.head?.map (fun fi => fi.length) =
      some (consumed (h :: op :: rest)) := by
  rw [decode_cons_cons] at hok ⊢
  change (Dissector.bind _ _ _).failed = false at hok
  change (Dissector.bind _ _ _).pinfo.cinfo.info = _ ∧ (Dissector.bind _ _ _).pinfo.expert = _ ∧
    (Dissector.bind _ _ _).pinfo.items.head?.map _ = _
  unfold Dissector.bind at hok ⊢
  cases hr : add_parameters_cec (h :: op :: rest) (proto_tree.subtree 0) (opcode_state h op) with
  | thrown e q => rw [hr] at hok; cases hok
  | ok v p1 =>
    obtain ⟨hv, hi, he⟩ := add_parameters_cec_opcode_state h op rest v p1 hr
    have hk := add_parameters_cec_stable (h :: op :: rest) (proto_tree.subtree 0) (opcode_state h op)
    rw [hr] at hk
    obtain ⟨-, -, hk3⟩ := hk
    have hc : (1 + (1 + v)) % 256 = consumed (h :: op :: rest) := by rw [hv]; rfl
    simp only []
    rw [proto_item_set_len_bind, expert_add_info_cec_cons_cons, hc]
    simp only [Outcome.pinfo]
    refine ⟨?_, ?_, ?_⟩
    · show p1.cinfo.info ++ _ = _
      rw [hi]
    · rw [he]; rfl
    · cases hitems : p1.items with
      | nil =>
        change _ <+: List.map item_core p1.items at hk3
        rw [hitems] at hk3
        simp [opcode_state] at hk3
      | cons x xs => rfl

/-! ## The text a step appends to the info column -/

theorem silent_pure {α : Type} (a : α) : Silent (Pure.pure a : Dissector α) := fun _ => rfl

theorem silent_bind {α β : Type} {m : Dissector α} {k : α → Dissector β}
    (hm : Silent m) (hk : ∀ a, Silent (k a)) : Silent (m >>= k) := by
  intro p
  have h1 := hm p
  change (Dissector.bind m k p).pinfo.cinfo.info = _
  unfold Dissector.bind
  cases hq : m p with
  | ok a q => rw [hq] at h1; exact (hk a q).trans h1
  | thrown e q => rw [hq] at h1; exact h1

theorem silent_get_ntoh (tvb : tvbuff_t) (o n : Nat) : Silent (tvb_get_ntoh tvb o n) := by
  intro p
  unfold tvb_get_ntoh
  cases tvb_bytes tvb o n <;> rfl

theorem silent_get_string (tvb : tvbuff_t) (o n : Nat) : Silent (tvb_get_string_enc tvb o n) := by
  intro p
  unfold tvb_get_string_enc
  cases tvb_bytes tvb o n <;> rfl

theorem silent_add_item (t : proto_tree) (hf : header_field_info) (tvb : tvbuff_t)
    (s : Nat) (n : Int) : Silent (proto_tree_add_item t hf tvb s n) := by
  intro p
  unfold proto_tree_add_item
  cases get_hfi_length tvb s n with
  | none => rfl
  | some len =>
    dsimp only
    cases tvb_bytes tvb s len <;> rfl

theorem silent_set_text (pi : Nat) (s : String) : Silent (proto_item_set_text pi s) :=
  fun _ => rfl

theorem mono_of_silent {α : Type} {m : Dissector α} (h : Silent m) : Mono m :=
  fun p => le_of_eq (congrArg String.length (h p).symm)

theorem mono_bind {α β : Type} {m : Dissector α} {k : α → Dissector β}
    (hm : Mono m) (hk : ∀ a, Mono (k a)) : Mono (m >>= k) := by
  intro p
  have h1 := hm p
  change _ ≤ (Dissector.bind m k p).pinfo.cinfo.info.length
  unfold Dissector.bind
  cases hq : m p with
  | ok a q => rw [hq] at h1; exact le_trans h1 (hk a q)
  | thrown e q => rw [hq] at h1; exact h1

theorem mono_ite {α : Type} {c : Prop} [Decidable c] {a b : Dissector α}
    (ha : Mono a) (hb : Mono b) : Mono (if c then a else b) := by
  split
  · exact ha
  · exact hb

theorem mono_col_append_info (s : String) : Mono (col_append_fstr column.COL_INFO s) := by
  intro p
  show _ ≤ (p.cinfo.info ++ s).length
  rw [String.length_append]
  exact Nat.le_add_right _ _

theorem grows_col_append_info (s : String) (hs : 0 < s.length) :
    Grows (col_append_fstr column.COL_INFO s) := by
  intro p _
  show _ < (p.cinfo.info ++ s).length
  rw [String.length_append]
  exact Nat.lt_add_of_pos_right hs

/-- A step that cannot lengthen, then a step that does. -/
theorem grows_bind_right {α β : Type} {m : Dissector α} {k : α → Dissector β}
    (hm : Mono m) (hk : ∀ a, Grows (k a)) : Grows (m >>= k) := by
  intro p
  have h1 := hm p
  change (Dissector.bind m k p).failed = false →
    _ < (Dissector.bind m k p).pinfo.cinfo.info.length
  unfold Dissector.bind
  cases hq : m p with
  | ok a q => rw [hq] at h1; exact fun hf => lt_of_le_of_lt h1 (hk a q hf)
  | thrown e q => intro hf; cases hf

/-- A step that lengthens, then a step that does not shorten. -/
theorem grows_bind_left {α β : Type} {m : Dissector α} {k : α → Dissector β}
    (hm : Grows m) (hk : ∀ a, Mono (k a)) : Grows (m >>= k) := by
  intro p
  have h1 := hm p
  change (Dissector.bind m k p).failed = false →
    _ < (Dissector.bind m k p).pinfo.cinfo.info.length
  unfold Dissector.bind
  cases hq : m p with
  | ok a q => rw [hq] at h1; exact fun _ => lt_of_lt_of_le (h1 rfl) (hk a q)
  | thrown e q => intro hf; cases hf

theorem grows_ite {α : Type} {c : Prop} [Decidable c] {a b : Dissector α}
    (ha : Grows a) (hb : Grows b) : Grows (if c then a else b) := by
  split
  · exact ha
  · exact hb

theorem pos_length_append_left (s t : String) (h : 0 < s.length) : 0 < (s ++ t).length := by
  rw [String.length_append]; omega

theorem pos_length_append_right (s t : String) (h : 0 < t.length) : 0 < (s ++ t).length := by
  rw [String.length_append]; omega

theorem fields_grows (tvb : tvbuff_t) (t : proto_tree) (opcode oplen : Nat)
    (hop : opcode ∈ fragment_opcodes) :
    Grows (add_parameters_cec_fields tvb t opcode oplen) := by
  simp only [fragment_opcodes, List.mem_cons, List.mem_singleton, List.not_mem_nil, or_false] at hop
  rcases hop with h | h | h | h | h | h | h | h | h | h | h | h | h | h | h | h | h
  all_goals
    subst h
    simp only [add_parameters_cec_fields, Nat.reduceEqDiff, if_false, if_true]
    repeat' first
      | apply grows_ite
      | exact grows_col_append_info _ (pos_length_append_right _ _ (by decide))
      | exact grows_col_append_info _ (by decide)
      | exact grows_bind_left (grows_col_append_info _ (by decide)) fun _ =>
          mono_bind (mono_of_silent (silent_add_item _ _ _ _ _)) fun _ =>
            mono_bind (mono_of_silent (silent_add_item _ _ _ _ _)) fun _ =>
              mono_of_silent (silent_pure _)
      | exact grows_bind_left
          (grows_col_append_info _ (pos_length_append_right _ _ (by decide))) fun _ =>
          mono_bind (mono_of_silent (silent_add_item _ _ _ _ _)) fun _ =>
            mono_bind (mono_of_silent (silent_add_item _ _ _ _ _)) fun _ =>
              mono_of_silent (silent_pure _)
      | refine grows_bind_right (mono_of_silent (silent_add_item _ _ _ _ _)) ?_
      | refine grows_bind_right (mono_of_silent (silent_get_ntoh _ _ _)) ?_
      | refine grows_bind_right (mono_of_silent (silent_get_string _ _ _)) ?_
      | refine grows_bind_right (mono_of_silent (silent_set_text _ _)) ?_
      | intro _

theorem fields_silent (tvb : tvbuff_t) (t : proto_tree) (opcode oplen : Nat)
    (hop : opcode ∈ silent_opcodes) :
    Silent (add_parameters_cec_fields tvb t opcode oplen) := by
  simp only [silent_opcodes, List.mem_cons, List.mem_singleton, List.not_mem_nil, or_false] at hop
  rcases hop with h | h | h | h
  all_goals
    subst h
    simp only [add_parameters_cec_fields, Nat.reduceEqDiff, if_false, if_true]
    repeat' first
      | exact silent_pure _
      | exact silent_add_item _ _ _ _ _
      | refine silent_bind (silent_add_item _ _ _ _ _) ?_
      | intro _

theorem fragment_opcodes_subset (opcode : Nat) (h : opcode ∈ fragment_opcodes) :
    opcode ∈ resolver_table := by
  simp only [fragment_opcodes, List.mem_cons, List.mem_singleton, List.not_mem_nil, or_false] at h
  rcases h with h | h | h | h | h | h | h | h | h | h | h | h | h | h | h | h | h <;>
    subst h <;> simp [resolver_table]

theorem oplen_some_of_mem (opcode len : Nat) (h : opcode ∈ resolver_table) :
    ∃ n, add_parameters_cec_oplen opcode len = some n := by
  rcases oplen_of_mem opcode h with ⟨n, -, -, hn⟩ | ⟨-, hn⟩ | ⟨-, hn⟩
  · exact ⟨_, hn len⟩
  · exact ⟨_, hn len⟩
  · exact ⟨_, hn len⟩

theorem add_parameters_cec_grows (h op : Fin 256) (rest : tvbuff_t) (tree : proto_tree)
    (hop : op.val ∈ fragment_opcodes) :
    Grows (add_parameters_cec (h :: op :: rest) tree) := by
  unfold add_parameters_cec
  rw [tvb_get_guint8_one, dissector_pure_bind]
  obtain ⟨n, hn⟩ := oplen_some_of_mem op.val (tvb_length (h :: op :: rest))
    (fragment_opcodes_subset _ hop)
  rw [hn]
  exact grows_bind_right (mono_of_silent (silent_add_item _ _ _ _ _)) fun _ =>
    grows_bind_right (mono_of_silent (silent_set_text _ _)) fun _ =>
      grows_bind_left (fields_grows _ _ _ _ hop) fun _ => mono_of_silent (silent_pure _)

/-- The fragment of a frame whose opcode has an appending branch, when its
parameters are present, is not empty. -/
theorem fragment_pos (h op : Fin 256) (rest : tvbuff_t) (hop : op.val ∈ fragment_opcodes)
    (hp : params_present (h :: op :: rest) = true) :
    0 < (fragment (h :: op :: rest)).length :=
  add_parameters_cec_grows h op rest proto_tree.root hop packet_info.init
    (add_parameters_cec_noThrow h op rest proto_tree.root hp packet_info.init)

/-- The fragment of a frame whose opcode has a branch without a column call is
empty. -/
theorem fragment_silent (h op : Fin 256) (rest : tvbuff_t) (hop : op.val ∈ silent_opcodes) :
    fragment (h :: op :: rest) = "" := by
  unfold fragment add_parameters_cec
  rw [tvb_get_guint8_one, dissector_pure_bind]
  cases add_parameters_cec_oplen op.val (tvb_length (h :: op :: rest)) with
  | none => rfl
  | some oplen =>
    exact silent_bind (silent_add_item _ _ _ _ _) (fun _ =>
      silent_bind (silent_set_text _ _) fun _ =>
        silent_bind (fields_silent _ _ _ _ hop) fun _ => silent_pure _) packet_info.init

/-! ## The consumed count, the extra bytes and the summary -/

/-- C12 fails as stated: on the Set OSD Name frame of 256 bytes the header,
the opcode and the 254 resolved parameter bytes are the whole frame, 2 + 254
not being below 256, and the decode succeeds; yet the Extra-bytes warning is
emitted, with the count 256 from offset 0, the consumed count being 0 in its
8 bits. -/
theorem C12_counterexample :
    ((0x10 : Fin 256) :: 0x47 :: List.replicate 254 0x41).length = 256 ∧
    2 + resolve 0x47 256 = 256 ∧
    (decode (0x10 :: 0x47 :: List.replicate 254 0x41)).failed = false ∧
    (decode (0x10 :: 0x47 :: List.replicate 254 0x41)).pinfo.expert =
      [⟨ei_cec_extra_bytes, none, "Extra 256 bytes in packet", some (0, 256)⟩] := by
  refine ⟨?_, rfl, ?_, ?_⟩
  · set_option maxRecDepth 1000000 in rfl
  · set_option maxRecDepth 1000000 in rfl
  · set_option maxRecDepth 1000000 in rfl

/-- C12, amended: for every frame whose decode succeeds, with L its length
and c the consumed count kept in 8 bits (1 for a poll, otherwise 2 plus the
resolved parameter length, modulo 256), which is also the length set on the
protocol item: the Extra-bytes warning is emitted exactly when c < L, once,
with the message "Extra N bytes in packet" for N = L - c over the N bytes
from offset c, and the summary then ends in "[Extra N bytes] ", the text and
one space; otherwise no such warning is emitted. -/
theorem C12_extra_bytes (tvb : tvbuff_t) (hok : (decode tvb).failed = false) :
    (consumed tvb =
      match tvb with
      | _ :: op :: _ => (2 + resolve op.val (tvb_length tvb)) % 256
      | _ => 1) ∧
    (decode tvb).pinfo.items.head?.map (fun fi => fi.length) = some (consumed tvb) ∧
    (decode tvb).pinfo.expert.filter (fun e => decide (e.ei = ei_cec_extra_bytes)) =
      (if consumed tvb < tvb_length tvb then
        [⟨ei_cec_extra_bytes, none,
          "Extra " ++ fmt_u (tvb_length tvb - consumed tvb) ++ " bytes in packet",
          some (consumed tvb, tvb_length tvb - consumed tvb)⟩]
      else []) ∧
    ∃ s, (decode tvb).pinfo.cinfo.info =
      s ++ (if consumed tvb < tvb_length tvb then
        "[Extra " ++ fmt_u (tvb_length tvb - consumed tvb) ++ " bytes] " else "") := by
  match tvb, hok with
  | [], hok => cases hok
  | [h], _ =>
    rw [decode_poll]
    refine ⟨rfl, rfl, ?_, ⟨_, (String.append_empty _).symm⟩⟩
    rfl
  | h :: op :: rest, hok =>
    obtain ⟨h1, h2, h3⟩ := decode_of_ok h op rest hok
    refine ⟨?_, h3, ?_, ⟨_, h1⟩⟩
    · show (1 + (1 + _)) % 256 = (2 + _) % 256
      rw [← Nat.add_assoc]
    · rw [h2]
      by_cases h0 : op.val = 0x00 <;>
        by_cases hc : consumed (h :: op :: rest) < tvb_length (h :: op :: rest)
      all_goals
        have hc1 := hc
        rw [← gt_iff_lt] at hc1
        simp only [h0, hc, hc1, if_true, if_false]
        rfl

theorem C12_extra_bytes_witness :
    (decode [0x10, 0x36, 0x00]).failed = false ∧
    consumed [0x10, 0x36, 0x00] = 2 ∧
    (decode [0x10, 0x36, 0x00]).pinfo.expert.filter (fun e => decide (e.ei = ei_cec_extra_bytes)) =
      [⟨ei_cec_extra_bytes, none, "Extra 1 bytes in packet", some (2, 1)⟩] :=
  ⟨rfl, rfl, (C12_extra_bytes [0x10, 0x36, 0x00] rfl).2.2.1⟩

theorem params_present_rest_of_frame (h op : Fin 256) (rest : tvbuff_t)
    (hop : op.val = 0x47 ∨ op.val = 0x89 ∨ (op.val = 0xA0 ∧ 5 ≤ tvb_length (h :: op :: rest)))
    (hL : tvb_length (h :: op :: rest) ≤ 255) :
    params_present (h :: op :: rest) = true ∧
    resolve op.val (tvb_length (h :: op :: rest)) = tvb_length (h :: op :: rest) - 2 := by
  have h2 : tvb_length (h :: op :: rest) = rest.length + 2 := rfl
  rw [h2] at hop hL ⊢
  rcases hop with h47 | h89 | ⟨hA0, h5⟩
  · simp only [params_present, resolve, h47, add_parameters_cec_oplen, h2]
    simp
    omega
  · simp only [params_present, resolve, h89, add_parameters_cec_oplen, h2]
    simp
    omega
  · simp only [params_present, resolve, hA0, add_parameters_cec_oplen, h2]
    simp
    omega

/-- C20: the consumed count is below 256 for every frame, and for every Set
OSD Name (0x47) or Vendor Command (0x89) frame of at most 255 bytes, and
every Vendor Command With ID (0xA0) frame of 5 to 255 bytes, the decode
succeeds, the consumed count is the length of the frame, it is the length set
on the protocol item, and the expert list is empty: no Extra-bytes warning. -/
theorem C20_rest_of_frame (h op : Fin 256) (rest : tvbuff_t)
    (hop : op.val = 0x47 ∨ op.val = 0x89 ∨ (op.val = 0xA0 ∧ 5 ≤ tvb_length (h :: op :: rest)))
    (hL : tvb_length (h :: op :: rest) ≤ 255) :
    (∀ tvb, consumed tvb < 256) ∧
    (decode (h :: op :: rest)).failed = false ∧
    consumed (h :: op :: rest) = tvb_length (h :: op :: rest) ∧
    (decode (h :: op :: rest)).pinfo.items.head?.map (fun fi => fi.length) =
      some (tvb_length (h :: op :: rest)) ∧
    (decode (h :: op :: rest)).pinfo.expert = [] := by
  obtain ⟨hp, hr⟩ := params_present_rest_of_frame h op rest hop hL
  have hok : (decode (h :: op :: rest)).failed = false :=
    dissect_cec_noThrow (h :: op :: rest) (by simp) hp _
  have hc : consumed (h :: op :: rest) = tvb_length (h :: op :: rest) := by
    show (1 + (1 + resolve op.val (tvb_length (h :: op :: rest)))) % 256 = _
    rw [hr]
    have h2 : tvb_length (h :: op :: rest) = rest.length + 2 := rfl
    rw [h2] at hL ⊢
    omega
  have h0 : op.val ≠ 0x00 := by
    rcases hop with h47 | h89 | ⟨hA0, -⟩ <;> omega
  obtain ⟨-, h2, h3⟩ := decode_of_ok h op rest hok
  refine ⟨?_, hok, hc, ?_, ?_⟩
  · intro tvb
    unfold consumed
    split
    · exact Nat.mod_lt _ (by decide)
    · decide
  · rw [h3, hc]
  · rw [h2, hc, if_neg h0, if_neg (lt_irrefl _)]
    rfl

theorem C20_rest_of_frame_witness :
    (((0x47 : Fin 256).val = 0x47 ∨ (0x47 : Fin 256).val = 0x89 ∨
      ((0x47 : Fin 256).val = 0xA0 ∧ 5 ≤ tvb_length [0x10, 0x47, 0x54, 0x56])) ∧
    tvb_length [0x10, 0x47, 0x54, 0x56] ≤ 255) ∧
    consumed [0x10, 0x47, 0x54, 0x56] = tvb_length [0x10, 0x47, 0x54, 0x56] ∧
    (decode [0x10, 0x47, 0x54, 0x56]).pinfo.expert = [] :=
  ⟨⟨Or.inl rfl, by decide⟩,
    (C20_rest_of_frame 0x10 0x47 [0x54, 0x56] (Or.inl rfl) (by decide)).2.2.1,
    (C20_rest_of_frame 0x10 0x47 [0x54, 0x56] (Or.inl rfl) (by decide)).2.2.2.2⟩

/-- C17: for every frame with an opcode byte whose decode succeeds without an
Extra-bytes warning, the summary is the name of the opcode byte in the opcode
table ("Unknown" if it has none), one space and the fragment, the text
`add_parameters_cec` appends, with nothing after it. -/
theorem C17_summary (h op : Fin 256) (rest : tvbuff_t)
    (hok : (decode (h :: op :: rest)).failed = false)
    (hno : ∀ e ∈ (decode (h :: op :: rest)).pinfo.expert, e.ei ≠ ei_cec_extra_bytes) :
    (decode (h :: op :: rest)).pinfo.cinfo.info =
      val_to_str_const op.val cec_opcode "Unknown" ++ " " ++ fragment (h :: op :: rest) := by
  obtain ⟨h1, h2, -⟩ := decode_of_ok h op rest hok
  by_cases hc : tvb_length (h :: op :: rest) > consumed (h :: op :: rest)
  · exfalso
    rw [h2, if_pos hc] at hno
    exact hno _ (List.mem_append_right _ (List.mem_singleton_self _)) rfl
  · rw [h1, if_neg hc, String.append_empty]

theorem C17_summary_witness :
    (decode [0x0F, 0x82, 0x10, 0x00]).failed = false ∧
    (∀ e ∈ (decode [0x0F, 0x82, 0x10, 0x00]).pinfo.expert, e.ei ≠ ei_cec_extra_bytes) ∧
    (decode [0x0F, 0x82, 0x10, 0x00]).pinfo.cinfo.info =
      val_to_str_const (0x82 : Fin 256).val cec_opcode "Unknown" ++ " " ++
        fragment [0x0F, 0x82, 0x10, 0x00] ∧
    fragment [0x0F, 0x82, 0x10, 0x00] = "to 1.0.0.0 " :=
  have hno : ∀ e ∈ (decode [0x0F, 0x82, 0x10, 0x00]).pinfo.expert,
      e.ei ≠ ei_cec_extra_bytes := by
    intro e he
    have he1 : e ∈ ([] : List expert_info) := he
    cases he1
  ⟨rfl, hno, C17_summary 0x0F 0x82 [0x10, 0x00] rfl hno, rfl⟩

/-! ## Feature Abort and the fragments of the opcodes -/

theorem field_value_abort_reason (b : Fin 256) :
    field_value hf_cec_abort_reason [b] = fvalue.uinteger b.val := by
  simp [field_value, hf_cec_abort_reason, hfinfo_mask_value, pntoh]

theorem field_value_vendor_id (a b c : Fin 256) :
    field_value hf_cec_vendor_id [a, b, c] =
      fvalue.uinteger ((a.val * 256 + b.val) * 256 + c.val) := by
  simp [field_value, hf_cec_vendor_id, hfinfo_mask_value, pntoh]

theorem field_value_vendor_command (bs : List (Fin 256)) :
    field_value hf_cec_vendor_command bs = fvalue.bytes bs := rfl

/-- C14: for every 4-byte frame [h, 0x00, o, r] the decode succeeds; its
summary is the name of opcode 0x00, "Feature Abort", and a space; the fields
under the Parameters item are the opcode field over byte 2 with value o and
the abort-reason field over byte 3 with value r, in that order and no other;
the abort-reason field is registered with the abort-reason table, in which
0x03 is "Invalid operand"; the expert list is the Feature-Abort note alone,
so there is no Extra-bytes warning. -/
theorem C14_feature_abort (h o r : Fin 256) :
    decode [h, 0x00, o, r] = Outcome.ok ()
      { cinfo := ⟨"HDMI CEC", "Feature Abort ",
          val_to_str_const (h.val >>> 4) cec_initiator "Unknown",
          val_to_str_const (h.val &&& 0xF) cec_destination "Unknown"⟩,
        items := [⟨proto_tree.root, proto_cec, 0, 4, fvalue.none, none⟩,
          ⟨proto_tree.subtree 0, hf_cec_initiator, 0, 1, fvalue.uinteger (h.val >>> 4), none⟩,
          ⟨proto_tree.subtree 0, hf_cec_destination, 0, 1, fvalue.uinteger (h.val &&& 0xF), none⟩,
          ⟨proto_tree.subtree 0, hf_cec_opcode, 1, 1, fvalue.uinteger 0x00, none⟩,
          ⟨proto_tree.subtree 0, hf_cec_parameters, 2, 2, fvalue.bytes [o, r],
            some "Parameters: (2 bytes)"⟩,
          ⟨proto_tree.subtree 4, hf_cec_opcode, 2, 1, fvalue.uinteger o.val, none⟩,
          ⟨proto_tree.subtree 4, hf_cec_abort_reason, 3, 1, fvalue.uinteger r.val, none⟩],
        expert := [⟨ei_cec_feature_abort, some 0, "Feature Abort", none⟩] } ∧
    val_to_str_const 0x00 cec_opcode "Unknown" = "Feature Abort" ∧
    hf_cec_abort_reason.strings = field_strings.VALS cec_abort_reason ∧
    val_to_str_const 0x03 cec_abort_reason "Unknown" = "Invalid operand" ∧
    ei_cec_feature_abort.severity = expert_severity.PI_NOTE := by
  refine ⟨?_, rfl, rfl, rfl, rfl⟩
  simp [decode, dissect_cec, Outcome.pinfo, bind, Dissector.bind, col_set_str,
        col_clear, modify_pinfo,
        tvb_get_guint8, tvb_get_ntoh, tvb_bytes, tvb_length, pure, Dissector.pure, pntoh,
        col_add_fstr, proto_tree_add_item, get_hfi_length, column_info.set, column_info.get,
        packet_info.init, proto_item_set_len, proto_item_set_text, update_item,
        proto_item_add_subtree, add_parameters_cec, add_parameters_cec_oplen,
        add_parameters_cec_fields, col_append_fstr, expert_add_info_cec, expert_add_info,
        Fin.coe_ofNat_eq_mod,
        field_value_initiator, field_value_destination, field_value_opcode,
        field_value_parameters, field_value_abort_reason]
  exact ⟨rfl, ⟨rfl, rfl⟩, rfl⟩

/-- C15 fails as stated: the decodes of the Vendor Command With ID frames of
2, 3 and 4 bytes fail, and the items they leave hold no vendor-command
field, of no length. -/
theorem C15_counterexample :
    (decode [0x10, 0xA0]).failed = true ∧
    (decode [0x10, 0xA0]).pinfo.items.filter
      (fun fi => decide (fi.hfinfo = hf_cec_vendor_command)) = [] ∧
    (decode [0x10, 0xA0, 0x00]).failed = true ∧
    (decode [0x10, 0xA0, 0x00]).pinfo.items.filter
      (fun fi => decide (fi.hfinfo = hf_cec_vendor_command)) = [] ∧
    (decode [0x10, 0xA0, 0x00, 0x00]).failed = true ∧
    (decode [0x10, 0xA0, 0x00, 0x00]).pinfo.items.filter
      (fun fi => decide (fi.hfinfo = hf_cec_vendor_command)) = [] := by
  refine ⟨rfl, ?_, rfl, ?_, rfl, ?_⟩ <;> decide

/-- C15, amended: the decode of a Vendor Command With ID frame (0xA0) of 2, 3
or 4 bytes fails with `InvalidFrame` at the vendor-id field, whose 3 bytes
from offset 2 are not inside the frame; it leaves the header items, the
opcode field and the Parameters item over the 0, 1 or 2 bytes present, and
no vendor-command field.  On the frame of 5 bytes, whose parameter block is
the vendor id alone, the decode succeeds and the vendor-command field is the
empty range at offset 5, of length 0. -/
theorem C15_vendor_command_with_id (h a b c : Fin 256) :
    decode [h, 0xA0] = Outcome.thrown exception.InvalidFrame
      { cinfo := ⟨"HDMI CEC", "Vendor Command With ID ",
          val_to_str_const (h.val >>> 4) cec_initiator "Unknown",
          val_to_str_const (h.val &&& 0xF) cec_destination "Unknown"⟩,
        items := [⟨proto_tree.root, proto_cec, 0, 1, fvalue.none, none⟩,
          ⟨proto_tree.subtree 0, hf_cec_initiator, 0, 1, fvalue.uinteger (h.val >>> 4), none⟩,
          ⟨proto_tree.subtree 0, hf_cec_destination, 0, 1, fvalue.uinteger (h.val &&& 0xF), none⟩,
          ⟨proto_tree.subtree 0, hf_cec_opcode, 1, 1, fvalue.uinteger 0xA0, none⟩,
          ⟨proto_tree.subtree 0, hf_cec_parameters, 2, 0, fvalue.bytes [],
            some "Parameters: (0 bytes)"⟩],
        expert := [] } ∧
    decode [h, 0xA0, a] = Outcome.thrown exception.InvalidFrame
      { cinfo := ⟨"HDMI CEC", "Vendor Command With ID ",
          val_to_str_const (h.val >>> 4) cec_initiator "Unknown",
          val_to_str_const (h.val &&& 0xF) cec_destination "Unknown"⟩,
        items := [⟨proto_tree.root, proto_cec, 0, 1, fvalue.none, none⟩,
          ⟨proto_tree.subtree 0, hf_cec_initiator, 0, 1, fvalue.uinteger (h.val >>> 4), none⟩,
          ⟨proto_tree.subtree 0, hf_cec_destination, 0, 1, fvalue.uinteger (h.val &&& 0xF), none⟩,
          ⟨proto_tree.subtree 0, hf_cec_opcode, 1, 1, fvalue.uinteger 0xA0, none⟩,
          ⟨proto_tree.subtree 0, hf_cec_parameters, 2, 1, fvalue.bytes [a],
            some "Parameters: (1 bytes)"⟩],
        expert := [] } ∧
    decode [h, 0xA0, a, b] = Outcome.thrown exception.InvalidFrame
      { cinfo := ⟨"HDMI CEC", "Vendor Command With ID ",
          val_to_str_const (h.val >>> 4) cec_initiator "Unknown",
          val_to_str_const (h.val &&& 0xF) cec_destination "Unknown"⟩,
        items := [⟨proto_tree.root, proto_cec, 0, 1, fvalue.none, none⟩,
          ⟨proto_tree.subtree 0, hf_cec_initiator, 0, 1, fvalue.uinteger (h.val >>> 4), none⟩,
          ⟨proto_tree.subtree 0, hf_cec_destination, 0, 1, fvalue.uinteger (h.val &&& 0xF), none⟩,
          ⟨proto_tree.subtree 0, hf_cec_opcode, 1, 1, fvalue.uinteger 0xA0, none⟩,
          ⟨proto_tree.subtree 0, hf_cec_parameters, 2, 2, fvalue.bytes [a, b],
            some "Parameters: (2 bytes)"⟩],
        expert := [] } ∧
    decode [h, 0xA0, a, b, c] = Outcome.ok ()
      { cinfo := ⟨"HDMI CEC", "Vendor Command With ID ",
          val_to_str_const (h.val >>> 4) cec_initiator "Unknown",
          val_to_str_const (h.val &&& 0xF) cec_destination "Unknown"⟩,
        items := [⟨proto_tree.root, proto_cec, 0, 5, fvalue.none, none⟩,
          ⟨proto_tree.subtree 0, hf_cec_initiator, 0, 1, fvalue.uinteger (h.val >>> 4), none⟩,
          ⟨proto_tree.subtree 0, hf_cec_destination, 0, 1, fvalue.uinteger (h.val &&& 0xF), none⟩,
          ⟨proto_tree.subtree 0, hf_cec_opcode, 1, 1, fvalue.uinteger 0xA0, none⟩,
          ⟨proto_tree.subtree 0, hf_cec_parameters, 2, 3, fvalue.bytes [a, b, c],
            some "Parameters: (3 bytes)"⟩,
          ⟨proto_tree.subtree 4, hf_cec_vendor_id, 2, 3,
            fvalue.uinteger ((a.val * 256 + b.val) * 256 + c.val), none⟩,
          ⟨proto_tree.subtree 4, hf_cec_vendor_command, 5, 0, fvalue.bytes [], none⟩],
        expert := [] } := by
  refine ⟨?_, ?_, ?_, ?_⟩
  all_goals
    simp [decode, dissect_cec, Outcome.pinfo, bind, Dissector.bind, col_set_str,
        col_clear, modify_pinfo,
        tvb_get_guint8, tvb_get_ntoh, tvb_bytes, tvb_length, pure, Dissector.pure, pntoh,
        col_add_fstr, proto_tree_add_item, get_hfi_length, column_info.set, column_info.get,
        packet_info.init, proto_item_set_len, proto_item_set_text, update_item,
        proto_item_add_subtree, add_parameters_cec, add_parameters_cec_oplen,
        add_parameters_cec_fields, col_append_fstr, expert_add_info_cec, expert_add_info,
        Fin.coe_ofNat_eq_mod,
        field_value_initiator, field_value_destination, field_value_opcode,
        field_value_parameters, field_value_vendor_id, field_value_vendor_command]
    exact ⟨rfl, rfl, rfl⟩

/-- C16 fails as stated: Feature Abort (0x00) is in the resolver table and the
frame [0x10, 0x00, 0x00, 0x03] carries its two parameter bytes, yet the
fragment is empty and the summary is "Feature Abort ", the opcode name and
one space, and no longer. -/
theorem C16_counterexample :
    (0x00 : Nat) ∈ resolver_table ∧
    params_present [0x10, 0x00, 0x00, 0x03] = true ∧
    (decode [0x10, 0x00, 0x00, 0x03]).failed = false ∧
    fragment [0x10, 0x00, 0x00, 0x03] = "" ∧
    (decode [0x10, 0x00, 0x00, 0x03]).pinfo.cinfo.info = "Feature Abort " ∧
    val_to_str_const 0x00 cec_opcode "Unknown" = "Feature Abort" ∧
    ¬ ((val_to_str_const 0x00 cec_opcode "Unknown").length + 1 <
      (decode [0x10, 0x00, 0x00, 0x03]).pinfo.cinfo.info.length) := by
  refine ⟨by decide, rfl, rfl, rfl, rfl, rfl, ?_⟩
  rw [show (decode [0x10, 0x00, 0x00, 0x03]).pinfo.cinfo.info = "Feature Abort " from rfl,
    show val_to_str_const 0x00 cec_opcode "Unknown" = "Feature Abort" from rfl]
  decide

/-- C16, amended: the opcodes of the resolver table other than 0x00, 0x1A,
0x81, 0x89 and 0xA0 are those with an appending branch; for each of them and
every frame carrying it with its parameters present the decode succeeds, the
fragment is not empty and the summary is longer than the opcode name and one
space.  For Feature Abort (0x00), Give Deck Status (0x1A), Vendor Command
(0x89) and Vendor Command With ID (0xA0), whose branches only add fields, the
fragment is empty on every frame. -/
theorem C16_fragment (h op : Fin 256) (rest : tvbuff_t) (hop : op.val ∈ fragment_opcodes)
    (hp : params_present (h :: op :: rest) = true) :
    fragment_opcodes =
      resolver_table.filter (fun x => decide (x ∉ [0x00, 0x1A, 0x81, 0x89, 0xA0])) ∧
    (decode (h :: op :: rest)).failed = false ∧
    fragment (h :: op :: rest) ≠ "" ∧
    (val_to_str_const op.val cec_opcode "Unknown").length + 1 <
      (decode (h :: op :: rest)).pinfo.cinfo.info.length ∧
    (∀ (h1 : Fin 256) (rest1 : tvbuff_t),
      fragment (h1 :: 0x00 :: rest1) = "" ∧ fragment (h1 :: 0x1A :: rest1) = "" ∧
      fragment (h1 :: 0x89 :: rest1) = "" ∧ fragment (h1 :: 0xA0 :: rest1) = "") := by
  have hok : (decode (h :: op :: rest)).failed = false :=
    dissect_cec_noThrow (h :: op :: rest) (by simp) hp _
  have hpos := fragment_pos h op rest hop hp
  obtain ⟨h1, -, -⟩ := decode_of_ok h op rest hok
  refine ⟨by decide, hok, ?_, ?_, ?_⟩
  · intro he
    rw [he] at hpos
    exact absurd hpos (by decide)
  · rw [h1]
    simp only [String.length_append]
    have : (" " : String).length = 1 := rfl
    omega
  · intro h1 rest1
    exact ⟨fragment_silent h1 0x00 rest1 (by decide), fragment_silent h1 0x1A rest1 (by decide),
      fragment_silent h1 0x89 rest1 (by decide), fragment_silent h1 0xA0 rest1 (by decide)⟩

theorem C16_fragment_witness :
    (0x82 : Fin 256).val ∈ fragment_opcodes ∧
    params_present [0x0F, 0x82, 0x10, 0x00] = true ∧
    fragment [0x0F, 0x82, 0x10, 0x00] ≠ "" ∧
    (val_to_str_const (0x82 : Fin 256).val cec_opcode "Unknown").length + 1 <
      (decode [0x0F, 0x82, 0x10, 0x00]).pinfo.cinfo.info.length :=
  ⟨by decide, rfl, (C16_fragment 0x0F 0x82 [0x10, 0x00] (by decide) rfl).2.2.1,
    (C16_fragment 0x0F 0x82 [0x10, 0x00] (by decide) rfl).2.2.2.1⟩

/-- C13 fails as stated: the decodes of the Feature Abort frames [0x10, 0x00]
and [0x10, 0x00, 0x36], of 2 and 3 bytes, fail and leave an empty expert
list, so no Feature-Abort note. -/
theorem C13_counterexample :
    (decode [0x10, 0x00]).failed = true ∧ (decode [0x10, 0x00]).pinfo.expert = [] ∧
    (decode [0x10, 0x00, 0x36]).failed = true ∧ (decode [0x10, 0x00, 0x36]).pinfo.expert = [] :=
  ⟨rfl, rfl, rfl, rfl⟩

/-- C13, amended: the decode of a Feature Abort frame (byte 1 is 0x00) of 2
or 3 bytes fails with `InvalidFrame` at the Parameters item, whose 2 bytes
from offset 2 are not inside the frame, in the state reached when
`add_parameters_cec` is called, whose expert list is empty; the decode of one
of at least 4 bytes succeeds and its expert list holds the Feature-Abort
note, once, on the protocol item. -/
theorem C13_feature_abort (h x o r : Fin 256) (rest : tvbuff_t) :
    decode [h, 0x00] = Outcome.thrown exception.InvalidFrame (opcode_state h 0x00) ∧
    decode [h, 0x00, x] = Outcome.thrown exception.InvalidFrame (opcode_state h 0x00) ∧
    (opcode_state h 0x00).expert = [] ∧
    (decode (h :: 0x00 :: o :: r :: rest)).failed = false ∧
    (decode (h :: 0x00 :: o :: r :: rest)).pinfo.expert.filter
        (fun e => decide (e.ei = ei_cec_feature_abort)) =
      [⟨ei_cec_feature_abort, some 0, "Feature Abort", none⟩] := by
  have hp : params_present (h :: 0x00 :: o :: r :: rest) = true := by
    simp [params_present, add_parameters_cec_oplen, tvb_length]
  have hok : (decode (h :: 0x00 :: o :: r :: rest)).failed = false :=
    dissect_cec_noThrow _ (by simp) hp _
  obtain ⟨-, h2, -⟩ := decode_of_ok h 0x00 (o :: r :: rest) hok
  refine ⟨?_, ?_, rfl, hok, ?_⟩
  · simp [decode, dissect_cec, bind, Dissector.bind, col_set_str, col_clear, modify_pinfo,
      tvb_get_guint8, tvb_get_ntoh, tvb_bytes, tvb_length, pure, Dissector.pure, pntoh,
      col_add_fstr, proto_tree_add_item, get_hfi_length, column_info.set, packet_info.init,
      proto_item_add_subtree, add_parameters_cec, add_parameters_cec_oplen, Fin.coe_ofNat_eq_mod,
      field_value_initiator, field_value_destination, field_value_opcode, opcode_state]
    rfl
  · simp [decode, dissect_cec, bind, Dissector.bind, col_set_str, col_clear, modify_pinfo,
      tvb_get_guint8, tvb_get_ntoh, tvb_bytes, tvb_length, pure, Dissector.pure, pntoh,
      col_add_fstr, proto_tree_add_item, get_hfi_length, column_info.set, packet_info.init,
      proto_item_add_subtree, add_parameters_cec, add_parameters_cec_oplen, Fin.coe_ofNat_eq_mod,
      field_value_initiator, field_value_destination, field_value_opcode, opcode_state]
    rfl
  · have h00 : (0x00 : Fin 256).val = 0x00 := rfl
    rw [h2, if_pos h00]
    split <;> rfl

/-! ## Report Audio Status -/

theorem field_value_audio_status (bs : List (Fin 256)) :
    field_value hf_cec_audio_status bs = fvalue.bytes bs := rfl

theorem bit7_iff (b : Fin 256) : (b.val &&& 0x80 ≠ 0) ↔ b.val.testBit 7 = true := by
  revert b
  set_option maxRecDepth 100000 in decide

theorem field_value_audio_mute_status (b : Fin 256) :
    field_value hf_cec_audio_mute_status [b] = fvalue.boolean (b.val.testBit 7) := by
  have h : ∀ b : Fin 256, (((b.val &&& 0x80) >>> 7 != 0) = b.val.testBit 7) := by
    set_option maxRecDepth 100000 in decide
  simp [field_value, hf_cec_audio_mute_status, hfinfo_mask_value, pntoh, hfinfo_bitshift,
    hfinfo_bitshift_aux]
  have := h b
  simpa using this

theorem field_value_audio_volume_status (b : Fin 256) :
    field_value hf_cec_audio_volume_status [b] = fvalue.uinteger (b.val &&& 0x7F) := by
  simp [field_value, hf_cec_audio_volume_status, hfinfo_mask_value, pntoh, hfinfo_bitshift,
    hfinfo_bitshift_aux]


theorem low7_of_not_bit7 (b : Fin 256) (hb : ¬ (b.val &&& 0x80 ≠ 0)) : b.val &&& 0x7F = b.val := by
  revert b
  set_option maxRecDepth 100000 in decide

/-- C18 fails as stated: on the frame [0x50, 0x7A, 0x80], whose byte 2 has
bit 7 set, the fragment is "is Muted " with a space at its end, not
"is Muted". -/
theorem C18_counterexample :
    (0x80 : Nat).testBit 7 = true ∧
    fragment [0x50, 0x7A, 0x80] = "is Muted " ∧
    fragment [0x50, 0x7A, 0x80] ≠ "is Muted" := by
  refine ⟨rfl, rfl, ?_⟩
  rw [show fragment [0x50, 0x7A, 0x80] = "is Muted " from rfl]
  decide

/-- C18, amended: for every Report Audio Status frame [h, 0x7A, b] the decode
succeeds; under the Audio Status item over byte 2 it has the mute field with
value bit 7 of b and the volume field with value bits 0-6 of b, both over
byte 2; the fragment is "is Muted " (ending in one space) when bit 7 of b is
set and otherwise "is at ", the text of the volume formatter on bits 0-6 and
" Volume " (ending in one space). -/
theorem C18_report_audio_status (h b : Fin 256) :
    decode [h, 0x7A, b] = Outcome.ok ()
      { cinfo := ⟨"HDMI CEC",
          "Report Audio Status " ++
            (if b.val.testBit 7 then "is Muted "
              else "is at " ++ cec_fmt_audio_volume_status (b.val &&& 0x7F) ++ " Volume "),
          val_to_str_const (h.val >>> 4) cec_initiator "Unknown",
          val_to_str_const (h.val &&& 0xF) cec_destination "Unknown"⟩,
        items := [⟨proto_tree.root, proto_cec, 0, 3, fvalue.none, none⟩,
          ⟨proto_tree.subtree 0, hf_cec_initiator, 0, 1, fvalue.uinteger (h.val >>> 4), none⟩,
          ⟨proto_tree.subtree 0, hf_cec_destination, 0, 1, fvalue.uinteger (h.val &&& 0xF), none⟩,
          ⟨proto_tree.subtree 0, hf_cec_opcode, 1, 1, fvalue.uinteger 0x7A, none⟩,
          ⟨proto_tree.subtree 0, hf_cec_parameters, 2, 1, fvalue.bytes [b],
            some "Parameters: (1 bytes)"⟩,
          ⟨proto_tree.subtree 4, hf_cec_audio_status, 2, 1, fvalue.bytes [b],
            some (if b.val.testBit 7 then "Audio Status: Muted"
              else "Audio Status: " ++ cec_fmt_audio_volume_status (b.val &&& 0x7F) ++
                " Volume")⟩,
          ⟨proto_tree.subtree 5, hf_cec_audio_mute_status, 2, 1,
            fvalue.boolean (b.val.testBit 7), none⟩,
          ⟨proto_tree.subtree 5, hf_cec_audio_volume_status, 2, 1,
            fvalue.uinteger (b.val &&& 0x7F), none⟩],
        expert := [] } ∧
    fragment [h, 0x7A, b] =
      (if b.val.testBit 7 then "is Muted "
        else "is at " ++ cec_fmt_audio_volume_status (b.val &&& 0x7F) ++ " Volume ") := by
  by_cases hb : b.val &&& 0x80 ≠ 0
  · have ht : b.val.testBit 7 = true := (bit7_iff b).1 hb
    rw [ht]
    constructor
    · simp [decode, dissect_cec, fragment, Outcome.pinfo, bind, Dissector.bind, col_set_str,
        col_clear, modify_pinfo,
        tvb_get_guint8, tvb_get_ntoh, tvb_bytes, tvb_length, pure, Dissector.pure, pntoh,
        col_add_fstr, proto_tree_add_item, get_hfi_length, column_info.set, column_info.get,
        packet_info.init, proto_item_set_len, proto_item_set_text, update_item,
        proto_item_add_subtree, add_parameters_cec, add_parameters_cec_oplen,
        add_parameters_cec_fields, col_append_fstr, expert_add_info_cec, Fin.coe_ofNat_eq_mod,
        field_value_initiator, field_value_destination, field_value_opcode,
        field_value_parameters, field_value_audio_status, field_value_audio_mute_status,
        field_value_audio_volume_status, hb, ht]
      exact ⟨rfl, rfl, rfl⟩
    · simp [decode, dissect_cec, fragment, Outcome.pinfo, bind, Dissector.bind, col_set_str,
        col_clear, modify_pinfo,
        tvb_get_guint8, tvb_get_ntoh, tvb_bytes, tvb_length, pure, Dissector.pure, pntoh,
        col_add_fstr, proto_tree_add_item, get_hfi_length, column_info.set, column_info.get,
        packet_info.init, proto_item_set_len, proto_item_set_text, update_item,
        proto_item_add_subtree, add_parameters_cec, add_parameters_cec_oplen,
        add_parameters_cec_fields, col_append_fstr, expert_add_info_cec, Fin.coe_ofNat_eq_mod,
        field_value_initiator, field_value_destination, field_value_opcode,
        field_value_parameters, field_value_audio_status, field_value_audio_mute_status,
        field_value_audio_volume_status, hb, ht]
  · have ht : b.val.testBit 7 = false := by
      cases hc : b.val.testBit 7
      · rfl
      · exact absurd ((bit7_iff b).2 hc) hb
    have hb0 : b.val &&& 0x80 = 0 := not_not.mp hb
    rw [ht, low7_of_not_bit7 b hb]
    constructor
    · simp [decode, dissect_cec, fragment, Outcome.pinfo, bind, Dissector.bind, col_set_str,
        col_clear, modify_pinfo,
        tvb_get_guint8, tvb_get_ntoh, tvb_bytes, tvb_length, pure, Dissector.pure, pntoh,
        col_add_fstr, proto_tree_add_item, get_hfi_length, column_info.set, column_info.get,
        packet_info.init, proto_item_set_len, proto_item_set_text, update_item,
        proto_item_add_subtree, add_parameters_cec, add_parameters_cec_oplen,
        add_parameters_cec_fields, col_append_fstr, expert_add_info_cec, Fin.coe_ofNat_eq_mod,
        field_value_initiator, field_value_destination, field_value_opcode,
        field_value_parameters, field_value_audio_status, field_value_audio_mute_status,
        field_value_audio_volume_status, hb0, ht]
      exact ⟨rfl, rfl, rfl, low7_of_not_bit7 b hb⟩
    · simp [decode, dissect_cec, fragment, Outcome.pinfo, bind, Dissector.bind, col_set_str,
        col_clear, modify_pinfo,
        tvb_get_guint8, tvb_get_ntoh, tvb_bytes, tvb_length, pure, Dissector.pure, pntoh,
        col_add_fstr, proto_tree_add_item, get_hfi_length, column_info.set, column_info.get,
        packet_info.init, proto_item_set_len, proto_item_set_text, update_item,
        proto_item_add_subtree, add_parameters_cec, add_parameters_cec_oplen,
        add_parameters_cec_fields, col_append_fstr, expert_add_info_cec, Fin.coe_ofNat_eq_mod,
        field_value_initiator, field_value_destination, field_value_opcode,
        field_value_parameters, field_value_audio_status, field_value_audio_mute_status,
        field_value_audio_volume_status, hb0, ht]

/-! ## The text-bearing opcodes -/

theorem fmt_s_length_le (n : Nat) (s : String) : (fmt_s (some n) s).length ≤ n := by
  unfold fmt_s
  exact List.length_take_le _ _

theorem ascii_text_printable (bs : List (Fin 256)) (hp : printable bs = true) :
    ascii_text bs = String.mk (byte_chars bs) := by
  unfold ascii_text byte_chars
  congr 1
  induction bs with
  | nil => rfl
  | cons b bs ih =>
    simp only [printable, List.all_cons, Bool.and_eq_true, decide_eq_true_eq] at hp
    have hb : b.val < 0x80 := by omega
    simp only [List.flatMap_cons, List.map_cons, if_pos hb]
    rw [ih (by simpa [printable] using hp.2)]
    rfl

theorem no_nul_of_printable (bs : List (Fin 256)) (hp : printable bs = true) :
    (byte_chars bs).takeWhile (fun c => c != Char.ofNat 0) = byte_chars bs := by
  have hc : ∀ b : Fin 256, 0x20 ≤ b.val → (Char.ofNat b.val != Char.ofNat 0) = true := by
    set_option maxRecDepth 100000 in decide
  induction bs with
  | nil => rfl
  | cons b bs ih =>
    simp only [printable, List.all_cons, Bool.and_eq_true, decide_eq_true_eq] at hp
    simp only [byte_chars, List.map_cons, List.takeWhile_cons, hc b hp.1.1, if_true]
    congr 1
    exact ih (by simpa [printable] using hp.2)

theorem fmt_s_printable (n : Nat) (bs : List (Fin 256)) (hp : printable bs = true)
    (hn : bs.length ≤ n) :
    fmt_s (some n) (ascii_text bs) = String.mk (byte_chars bs) := by
  rw [ascii_text_printable bs hp]
  unfold fmt_s
  simp only []
  rw [no_nul_of_printable bs hp, List.take_of_length_le]
  simpa [byte_chars] using hn

theorem bind_of_ok {α β : Type} {m : Dissector α} {k : α → Dissector β} {p q : packet_info}
    {a : α} (h : m p = Outcome.ok a q) : (m >>= k) p = k a q := by
  show Dissector.bind m k p = _
  unfold Dissector.bind
  rw [h]

theorem proto_tree_add_item_ok (tree : proto_tree) (hf : header_field_info) (tvb : tvbuff_t)
    (start n : Nat) (hn : start + n ≤ tvb_length tvb) (p : packet_info) :
    proto_tree_add_item tree hf tvb start (n : Int) p =
      Outcome.ok p.items.length
        { p with items := p.items ++
            [⟨tree, hf, start, n, field_value hf ((tvb.drop start).take n), none⟩] } := by
  have h1 : get_hfi_length tvb start (n : Int) = some n := by
    unfold get_hfi_length
    rw [if_neg (by omega), if_neg (by omega)]
    rfl
  unfold proto_tree_add_item
  rw [h1]
  simp only [tvb_bytes, if_pos hn]

theorem tvb_get_string_enc_ok (tvb : tvbuff_t) (start n : Nat)
    (hn : start + n ≤ tvb_length tvb) :
    tvb_get_string_enc tvb start n = Pure.pure (ascii_text ((tvb.drop start).take n)) := by
  unfold tvb_get_string_enc
  simp only [tvb_bytes, if_pos hn]

/-- The text the Set OSD Name branch appends. -/
theorem fragment_set_osd_name (h : Fin 256) (rest : tvbuff_t) :
    fragment (h :: 0x47 :: rest) =
      "to '" ++ fmt_s (some (rest.length % 256)) (ascii_text (rest.take (rest.length % 256))) ++
        "' " := by
  have hle : 2 + rest.length % 256 ≤ tvb_length (h :: 0x47 :: rest) := by
    have := Nat.mod_le rest.length 256
    simp only [tvb_length, List.length_cons]
    omega
  have hop : add_parameters_cec_oplen (0x47 : Fin 256).val (tvb_length (h :: 0x47 :: rest)) =
      some (rest.length % 256) := by
    simp [add_parameters_cec_oplen, tvb_length, Fin.coe_ofNat_eq_mod]
  have hf : ∀ t oplen, add_parameters_cec_fields (h :: 0x47 :: rest) t (0x47 : Fin 256).val oplen =
      (do
        let _ ← proto_tree_add_item t hf_cec_osd_name (h :: 0x47 :: rest) 2 oplen
        let s ← tvb_get_string_enc (h :: 0x47 :: rest) 2 oplen
        col_append_fstr column.COL_INFO ("to '" ++ fmt_s (some oplen) s ++ "' ")) := by
    intro t oplen
    simp [add_parameters_cec_fields, Fin.coe_ofNat_eq_mod]
  generalize rest.length % 256 = n at hle hop ⊢
  unfold fragment add_parameters_cec
  rw [tvb_get_guint8_one, dissector_pure_bind, hop]
  simp only []
  rw [bind_of_ok (proto_tree_add_item_ok _ _ _ _ _ hle _), hf,
    tvb_get_string_enc_ok _ _ _ hle]
  simp [bind, Dissector.bind, proto_item_set_text, modify_pinfo,
    proto_tree_add_item_ok _ _ _ _ _ hle, pure, Dissector.pure, col_append_fstr,
    column_info.set, column_info.get, Outcome.pinfo, packet_info.init]

/-- The text the Set Menu Language branch appends. -/
theorem fragment_set_menu_language (h a b c : Fin 256) (rest : tvbuff_t) :
    fragment (h :: 0x32 :: a :: b :: c :: rest) =
      "to '" ++ fmt_s (some 3) (ascii_text [a, b, c]) ++ "' " := by
  simp [fragment, Outcome.pinfo, bind, Dissector.bind, modify_pinfo,
    tvb_get_guint8, tvb_get_ntoh, tvb_bytes, tvb_length, pure, Dissector.pure, pntoh,
    proto_tree_add_item, get_hfi_length, column_info.set, column_info.get,
    packet_info.init, proto_item_set_text, update_item, tvb_get_string_enc,
    proto_item_add_subtree, add_parameters_cec, add_parameters_cec_oplen,
    add_parameters_cec_fields, col_append_fstr, Fin.coe_ofNat_eq_mod]

/-- C19 fails as stated: on the Set Menu Language frame with the printable
parameter bytes "eng" the fragment is "to 'eng' ", with a space at its end,
not "to 'eng'". -/
theorem C19_counterexample :
    printable [0x65, 0x6E, 0x67] = true ∧
    String.mk (byte_chars [0x65, 0x6E, 0x67]) = "eng" ∧
    fragment [0x0F, 0x32, 0x65, 0x6E, 0x67] = "to 'eng' " ∧
    fragment [0x0F, 0x32, 0x65, 0x6E, 0x67] ≠
      "to '" ++ String.mk (byte_chars [0x65, 0x6E, 0x67]) ++ "'" := by
  refine ⟨rfl, rfl, rfl, ?_⟩
  rw [show fragment [0x0F, 0x32, 0x65, 0x6E, 0x67] = "to 'eng' " from rfl,
    show "to '" ++ String.mk (byte_chars [0x65, 0x6E, 0x67]) ++ "'" = "to 'eng'" from rfl]
  decide

/-- C19, amended: the fragment of a Set Menu Language frame (0x32) with its 3
parameter bytes is "to '", a text and "' " (ending in one space); the text
is that of the bytes at offsets 2-4 cut at 3 bytes, and is exactly those
bytes when they are printable ASCII.  The fragment of a Set OSD Name frame
(0x47) of length L is "to '", a text and "' "; the text is that of the
first (L - 2) mod 256 bytes from offset 2, cut at that many bytes, which is
at most L - 2, and is exactly the bytes from offset 2 to L - 1 when they are
printable ASCII and L - 2 is at most 255. -/
theorem C19_text_fragment (h a b c : Fin 256) (rest : tvbuff_t) :
    (fragment (h :: 0x32 :: a :: b :: c :: rest) =
        "to '" ++ fmt_s (some 3) (ascii_text [a, b, c]) ++ "' " ∧
      (fmt_s (some 3) (ascii_text [a, b, c])).length ≤ 3 ∧
      (printable [a, b, c] = true →
        fmt_s (some 3) (ascii_text [a, b, c]) = String.mk (byte_chars [a, b, c]))) ∧
    (fragment (h :: 0x47 :: rest) =
        "to '" ++
          fmt_s (some (rest.length % 256)) (ascii_text (rest.take (rest.length % 256))) ++ "' " ∧
      (fmt_s (some (rest.length % 256)) (ascii_text (rest.take (rest.length % 256)))).length ≤
        rest.length % 256 ∧
      rest.length % 256 ≤ tvb_length (h :: 0x47 :: rest) - 2 ∧
      (printable rest = true → rest.length ≤ 255 →
        fmt_s (some (rest.length % 256)) (ascii_text (rest.take (rest.length % 256))) =
          String.mk (byte_chars rest))) := by
  refine ⟨⟨fragment_set_menu_language h a b c rest, fmt_s_length_le _ _, fun hp => ?_⟩,
    ⟨fragment_set_osd_name h rest, fmt_s_length_le _ _, ?_, fun hp hl => ?_⟩⟩
  · exact fmt_s_printable 3 [a, b, c] hp (le_refl _)
  · show rest.length % 256 ≤ rest.length + 2 - 2
    have := Nat.mod_le rest.length 256
    omega
  · have hm : rest.length % 256 = rest.length := Nat.mod_eq_of_lt (by omega)
    rw [hm, List.take_length]
    exact fmt_s_printable _ rest hp (le_refl _)

theorem C19_text_fragment_witness :
    printable [0x65, 0x6E, 0x67] = true ∧
    fmt_s (some 3) (ascii_text [0x65, 0x6E, 0x67]) = String.mk (byte_chars [0x65, 0x6E, 0x67]) ∧
    printable [0x54, 0x56] = true ∧ [(0x54 : Fin 256), 0x56].length ≤ 255 ∧
    fmt_s (some ([(0x54 : Fin 256), 0x56].length % 256))
        (ascii_text ([(0x54 : Fin 256), 0x56].take ([(0x54 : Fin 256), 0x56].length % 256))) =
      String.mk (byte_chars [0x54, 0x56]) :=
  ⟨rfl, (C19_text_fragment 0x0F 0x65 0x6E 0x67 []).1.2.2 rfl, rfl, by decide,
    (C19_text_fragment 0x0F 0x65 0x6E 0x67 [0x54, 0x56]).2.2.2.2 rfl (by decide)⟩

/-! ## The ranges of the sub-fields -/

theorem adds_pure {α : Type} (a : α) : Adds (Pure.pure a : Dissector α) [] := by
  intro p _
  show p.items.map field_range = _
  rw [List.append_nil]

theorem adds_bind {α β : Type} {m : Dissector α} {k : α → Dissector β}
    {r1 r2 : List (Nat × Nat)} (hm : Adds m r1) (hk : ∀ a, Adds (k a) r2) :
    Adds (m >>= k) (r1 ++ r2) := by
  intro p
  have h1 := hm p
  change (Dissector.bind m k p).failed = false →
    (Dissector.bind m k p).pinfo.items.map field_range = _
  unfold Dissector.bind
  cases hq : m p with
  | ok a q =>
    rw [hq] at h1
    intro hf
    have h2 := hk a q hf
    have h3 : q.items.map field_range = p.items.map field_range ++ r1 := h1 rfl
    simp only [] at hf ⊢
    rw [h2, h3, List.append_assoc]
  | thrown e q => intro hf; cases hf

theorem adds_ite {α : Type} {c : Prop} [Decidable c] {a b : Dissector α}
    {r1 r2 : List (Nat × Nat)} (ha : Adds a r1) (hb : Adds b r2) (hr : r2 = r1) :
    Adds (if c then a else b) r1 := by
  subst hr
  split
  · exact ha
  · exact hb

theorem adds_get_ntoh (tvb : tvbuff_t) (o n : Nat) : Adds (tvb_get_ntoh tvb o n) [] := by
  intro p
  unfold tvb_get_ntoh
  cases tvb_bytes tvb o n with
  | none => intro hf; cases hf
  | some bs => intro _; exact (List.append_nil _).symm

theorem adds_get_string (tvb : tvbuff_t) (o n : Nat) : Adds (tvb_get_string_enc tvb o n) [] := by
  intro p
  unfold tvb_get_string_enc
  cases tvb_bytes tvb o n with
  | none => intro hf; cases hf
  | some bs => intro _; exact (List.append_nil _).symm

theorem adds_add_item (t : proto_tree) (hf : header_field_info) (tvb : tvbuff_t)
    (s : Nat) (n : Int) (hn : 0 ≤ n) :
    Adds (proto_tree_add_item t hf tvb s n) [(s, n.toNat)] := by
  intro p
  have h1 : get_hfi_length tvb s n = some n.toNat := by
    unfold get_hfi_length
    rw [if_neg (by omega), if_neg (by omega)]
  unfold proto_tree_add_item
  rw [h1]
  dsimp only
  cases tvb_bytes tvb s n.toNat with
  | none => intro hf; cases hf
  | some bs =>
    intro _
    simp [Outcome.pinfo, field_range]

theorem map_range_update_item (f : field_info → field_info)
    (hf : ∀ fi, field_range (f fi) = field_range fi) (n : Nat) (l : List field_info) :
    (update_item f n l).map field_range = l.map field_range := by
  induction l generalizing n with
  | nil => cases n <;> rfl
  | cons x xs ih =>
    cases n with
    | zero => simp [update_item, hf]
    | succ k => simp [update_item, ih]

theorem adds_set_text (pi : Nat) (s : String) : Adds (proto_item_set_text pi s) [] := by
  intro p _
  show (update_item _ pi p.items).map field_range = _
  rw [map_range_update_item, List.append_nil]
  intro fi
  rfl

theorem adds_col_append (c : column) (s : String) : Adds (col_append_fstr c s) [] := by
  intro p _
  exact (List.append_nil _).symm

theorem fields_adds (opcode len n : Nat)
    (hop : opcode ∈ fixed_opcodes) (hn : add_parameters_cec_oplen opcode len = some n) :
    ∃ rs, (∀ tvb t, Adds (add_parameters_cec_fields tvb t opcode n) rs) ∧
      (∀ r ∈ rs, 2 ≤ r.1 ∧ r.1 + r.2 ≤ 2 + n) ∧
      (∀ i, i < n → ∃ r ∈ rs, r.1 ≤ 2 + i ∧ 2 + i < r.1 + r.2) := by
  simp only [fixed_opcodes, List.mem_cons, List.mem_singleton, List.not_mem_nil, or_false] at hop
  rcases hop with h | h | h | h | h | h | h | h | h | h | h | h | h | h | h | h | h | h
  all_goals
    subst h
    simp only [add_parameters_cec_oplen, Nat.reduceEqDiff, if_false, if_true, Option.some.injEq,
      Nat.reduceAdd, Nat.reduceMod] at hn
    subst hn
    apply Exists.intro
    refine ⟨?h1, ?h2, ?h3⟩
    case h1 =>
      intro tvb t
      simp only [add_parameters_cec_fields, Nat.reduceEqDiff, if_false, if_true]
      repeat' first
          | apply adds_bind
          | apply adds_ite
          | exact adds_pure _
          | exact adds_add_item _ _ _ _ _ (by decide)
          | exact adds_get_ntoh _ _ _
          | exact adds_get_string _ _ _
          | exact adds_set_text _ _
          | exact adds_col_append _ _
          | rfl
          | intro _
    case h2 => decide
    case h3 => decide

theorem fixed_oplen (opcode : Nat) (hop : opcode ∈ fixed_opcodes) :
    ∃ n, 1 ≤ n ∧ n ≤ 4 ∧ ∀ len, add_parameters_cec_oplen opcode len = some n := by
  simp only [fixed_opcodes, List.mem_cons, List.mem_singleton, List.not_mem_nil, or_false] at hop
  have hm : opcode ∈ resolver_table := by
    rcases hop with h | h | h | h | h | h | h | h | h | h | h | h | h | h | h | h | h | h <;>
      subst h <;> simp [resolver_table]
  rcases oplen_of_mem opcode hm with ⟨n, h1, h2, hn⟩ | ⟨hx, -⟩ | ⟨hx, -⟩
  · exact ⟨n, h1, h2, hn⟩
  · omega
  · omega

theorem add_parameters_cec_adds (h op : Fin 256) (rest : tvbuff_t) (tree : proto_tree)
    (n : Nat) (rs : List (Nat × Nat))
    (hn : add_parameters_cec_oplen op.val (tvb_length (h :: op :: rest)) = some n)
    (hrs : ∀ tvb t, Adds (add_parameters_cec_fields tvb t op.val n) rs) :
    Adds (add_parameters_cec (h :: op :: rest) tree) ((2, n) :: rs) := by
  unfold add_parameters_cec
  rw [tvb_get_guint8_one, dissector_pure_bind, hn]
  have h1 := adds_bind (adds_add_item tree hf_cec_parameters (h :: op :: rest) 2 (n : Int)
    (Int.ofNat_nonneg n)) (fun params_item =>
      adds_bind (adds_set_text params_item ("Parameters: (" ++ fmt_u n ++ " bytes)")) fun _ =>
        adds_bind (hrs (h :: op :: rest) (proto_item_add_subtree params_item)) fun _ =>
          adds_pure n)
  simpa using h1

theorem drop_update_item_zero (f : field_info → field_info) (l : List field_info) (k : Nat) :
    (update_item f 0 l).drop (k + 1) = l.drop (k + 1) := by
  cases l <;> rfl

theorem params_present_fixed (h op : Fin 256) (rest : tvbuff_t) (n : Nat)
    (hop : op.val ∈ fixed_opcodes)
    (hn : add_parameters_cec_oplen op.val (tvb_length (h :: op :: rest)) = some n)
    (hl : n ≤ rest.length) : params_present (h :: op :: rest) = true := by
  have hA : op.val ≠ 0xA0 := by
    intro hA
    rw [hA] at hop
    simp [fixed_opcodes] at hop
  simp only [params_present, hn]
  have hL : tvb_length (h :: op :: rest) = rest.length + 2 := rfl
  simp [hL, hA]
  omega

/-- The ranges of the items of the decode of a frame with a fixed-length
opcode and its parameters. -/
theorem decode_ranges_fixed (h op : Fin 256) (rest : tvbuff_t) (n : Nat)
    (rs : List (Nat × Nat)) (hop : op.val ∈ fixed_opcodes)
    (hn : add_parameters_cec_oplen op.val (tvb_length (h :: op :: rest)) = some n)
    (hrs : ∀ tvb t, Adds (add_parameters_cec_fields tvb t op.val n) rs)
    (hl : n ≤ rest.length) :
    (decode (h :: op :: rest)).failed = false ∧
    ((decode (h :: op :: rest)).pinfo.items.drop 4).map field_range = (2, n) :: rs := by
  have hp := params_present_fixed h op rest n hop hn hl
  have hok : (decode (h :: op :: rest)).failed = false :=
    dissect_cec_noThrow (h :: op :: rest) (by simp) hp _
  refine ⟨hok, ?_⟩
  have hnt := add_parameters_cec_noThrow h op rest (proto_tree.subtree 0) hp (opcode_state h op)
  have ha := add_parameters_cec_adds h op rest (proto_tree.subtree 0) n rs hn hrs
    (opcode_state h op) hnt
  rw [decode_cons_cons]
  change ((Dissector.bind _ _ _).pinfo.items.drop 4).map field_range = _
  unfold Dissector.bind
  cases hr : add_parameters_cec (h :: op :: rest) (proto_tree.subtree 0) (opcode_state h op) with
  | thrown e q => rw [hr] at hnt; cases hnt
  | ok v p1 =>
    rw [hr] at ha
    simp only []
    rw [proto_item_set_len_bind, expert_add_info_cec_cons_cons]
    simp only [Outcome.pinfo] at ha ⊢
    rw [drop_update_item_zero, List.map_drop, ha]
    rfl

/-- C21: the opcodes of the resolver table other than 0x47, 0x70, 0x89 and
0xA0 have a parameter length n between 1 and 4 that is the same for every
frame length; on a frame with at least n bytes after the opcode the decode
succeeds, the Parameters item covers the n bytes from offset 2, every
sub-field lies within the offsets 2 to 2 + n - 1, and every offset of that
range lies in a sub-field. -/
theorem C21_fixed_length (op : Fin 256) (hop : op.val ∈ fixed_opcodes) :
    fixed_opcodes =
      resolver_table.filter (fun x => decide (x ∉ [0x47, 0x70, 0x89, 0xA0])) ∧
    ∃ n, 1 ≤ n ∧ n ≤ 4 ∧ (∀ len, resolve op.val len = n) ∧
      ∀ (h : Fin 256) (rest : tvbuff_t), n ≤ rest.length →
        (decode (h :: op :: rest)).failed = false ∧
        ((decode (h :: op :: rest)).pinfo.items.drop 4).head?.map field_range = some (2, n) ∧
        (∀ fi ∈ sub_fields (h :: op :: rest), 2 ≤ fi.start ∧ fi.start + fi.length ≤ 2 + n) ∧
        (∀ i, 2 ≤ i → i < 2 + n →
          ∃ fi ∈ sub_fields (h :: op :: rest), fi.start ≤ i ∧ i < fi.start + fi.length) := by
  refine ⟨by decide, ?_⟩
  obtain ⟨n, h1, h2, hn⟩ := fixed_oplen op.val hop
  obtain ⟨rs, hrs, hin, hcov⟩ := fields_adds op.val 0 n hop (hn 0)
  refine ⟨n, h1, h2, fun len => by simp [resolve, hn len], fun h rest hl => ?_⟩
  obtain ⟨hok, hr⟩ := decode_ranges_fixed h op rest n rs hop (hn _) hrs hl
  have hsub : (sub_fields (h :: op :: rest)).map field_range = rs := by
    unfold sub_fields
    have := congrArg List.tail hr
    rw [← List.map_tail, List.tail_drop] at this
    exact this
  refine ⟨hok, ?_, ?_, ?_⟩
  · have := congrArg List.head? hr
    rw [List.head?_map] at this
    exact this
  · intro fi hfi
    have : field_range fi ∈ rs := by
      rw [← hsub]
      exact List.mem_map_of_mem _ hfi
    exact hin _ this
  · intro i hi1 hi2
    obtain ⟨r, hr1, hr2⟩ := hcov (i - 2) (by omega)
    rw [← hsub, List.mem_map] at hr1
    obtain ⟨fi, hfi, rfl⟩ := hr1
    refine ⟨fi, hfi, ?_⟩
    simp only [field_range] at hr2
    omega

theorem C21_fixed_length_witness :
    (0x80 : Fin 256).val ∈ fixed_opcodes ∧
    4 ≤ [(0x10 : Fin 256), 0x00, 0x20, 0x00].length ∧
    (sub_fields [0xF0, 0x80, 0x10, 0x00, 0x20, 0x00]).map field_range = [(2, 2), (4, 2)] ∧
    (∀ fi ∈ sub_fields [0xF0, 0x80, 0x10, 0x00, 0x20, 0x00],
      2 ≤ fi.start ∧ fi.start + fi.length ≤ 2 + 4) ∧
    (∀ i, 2 ≤ i → i < 2 + 4 →
      ∃ fi ∈ sub_fields [0xF0, 0x80, 0x10, 0x00, 0x20, 0x00],
        fi.start ≤ i ∧ i < fi.start + fi.length) := by
  obtain ⟨n, -, -, hres, hall⟩ := (C21_fixed_length 0x80 (by decide)).2
  have h4 : n = 4 := (hres 6).symm.trans rfl
  subst h4
  exact ⟨by decide, by decide, rfl,
    (hall 0xF0 [0x10, 0x00, 0x20, 0x00] (by decide)).2.2.1,
    (hall 0xF0 [0x10, 0x00, 0x20, 0x00] (by decide)).2.2.2⟩

/-! ## The texts of the formatters -/

theorem cec_fmt_physical_address_eq (v : Nat) :
    cec_fmt_physical_address v =
      String.mk [upper_hex_digit (v >>> 12 &&& 0xF), Char.ofNat 46,
                 upper_hex_digit (v >>> 8 &&& 0xF), Char.ofNat 46,
                 upper_hex_digit (v >>> 4 &&& 0xF), Char.ofNat 46,
                 upper_hex_digit (v &&& 0xF)] := by
  unfold cec_fmt_physical_address
  rw [fmt_hhX_digit _ Nat.and_le_right, fmt_hhX_digit _ Nat.and_le_right,
    fmt_hhX_digit _ Nat.and_le_right, fmt_hhX_digit _ Nat.and_le_right]
  rw [g_snprintf_of_short]
  · rfl
  · show (7 : Nat) < 240
    decide

theorem upper_hex_digit_inj (a b : Nat) (ha : a ≤ 15) (hb : b ≤ 15)
    (h : upper_hex_digit a = upper_hex_digit b) : a = b := by
  have key : ∀ x y : Fin 16, upper_hex_digit x.val = upper_hex_digit y.val → x = y := by
    decide
  have := key ⟨a, by omega⟩ ⟨b, by omega⟩ h
  exact congrArg Fin.val this

theorem nibble_eq (v k : Nat) : v >>> k &&& 0xF = v / 2 ^ k % 16 := by
  rw [Nat.shiftRight_eq_div_pow]
  exact Nat.and_pow_two_sub_one_eq_mod _ 4

theorem low16_eq (v : Nat) : v &&& 0xFFFF = v % 65536 :=
  Nat.and_pow_two_sub_one_eq_mod _ 16

/-- C23: the texts the physical-address formatter writes for v and w are equal
if and only if v and w have the same low 16 bits: the text depends on these
bits only and determines them. -/
theorem C23_physical_address_injective (v w : Nat) :
    cec_fmt_physical_address v = cec_fmt_physical_address w ↔ v &&& 0xFFFF = w &&& 0xFFFF := by
  rw [cec_fmt_physical_address_eq, cec_fmt_physical_address_eq, low16_eq, low16_eq]
  have e0 : v &&& 0xF = v % 16 := by simpa using nibble_eq v 0
  have f0 : w &&& 0xF = w % 16 := by simpa using nibble_eq w 0
  rw [nibble_eq v 12, nibble_eq v 8, nibble_eq v 4, nibble_eq w 12, nibble_eq w 8,
    nibble_eq w 4, e0, f0]
  constructor
  · intro h
    injection h with h
    simp only [List.cons.injEq, and_true, true_and] at h
    obtain ⟨h3, h2, h1, h0⟩ := h
    have g3 := upper_hex_digit_inj _ _ (by omega) (by omega) h3
    have g2 := upper_hex_digit_inj _ _ (by omega) (by omega) h2
    have g1 := upper_hex_digit_inj _ _ (by omega) (by omega) h1
    have g0 := upper_hex_digit_inj _ _ (by omega) (by omega) h0
    clear h3 h2 h1 h0
    simp only [Nat.reducePow] at g3 g2 g1 g0
    omega
  · intro h
    have g3 : v / 2 ^ 12 % 16 = w / 2 ^ 12 % 16 := by simp only [Nat.reducePow]; omega
    have g2 : v / 2 ^ 8 % 16 = w / 2 ^ 8 % 16 := by simp only [Nat.reducePow]; omega
    have g1 : v / 2 ^ 4 % 16 = w / 2 ^ 4 % 16 := by simp only [Nat.reducePow]; omega
    have g0 : v % 16 = w % 16 := by omega
    rw [g3, g2, g1, g0]

theorem percent_length (pct : Nat) (h : pct ≤ 100) :
    (g_snprintf ITEM_LABEL_LENGTH (fmt_u pct ++ "%")).length ≤ 4 := by
  interval_cases pct <;> decide

/-- C24: for every argument the text of the physical-address formatter has
exactly 7 characters, so with its terminator it fits the buffers of 8 bytes,
and the text of the volume formatter has at most 10 characters, so with its
terminator it fits the buffer of 11 bytes. -/
theorem C24_buffers_fit (v : Nat) :
    (cec_fmt_physical_address v).length = 7 ∧
    (cec_fmt_physical_address v).length + 1 ≤ addr_size ∧
    (cec_fmt_audio_volume_status v).length ≤ 10 ∧
    (cec_fmt_audio_volume_status v).length + 1 ≤ vol_size := by
  have h7 : (cec_fmt_physical_address v).length = 7 := by
    rw [cec_fmt_physical_address_eq]
    rfl
  have h10 : (cec_fmt_audio_volume_status v).length ≤ 10 := by
    unfold cec_fmt_audio_volume_status
    simp only []
    split
    · rename_i h
      exact le_trans (percent_length _ h) (by decide)
    · split
      · decide
      · decide
  refine ⟨h7, ?_, h10, ?_⟩
  · rw [h7]; decide
  · exact Nat.succ_le_succ h10

/-! ## The volume text on the decode path and unnamed opcodes -/

/-- The text the Report Audio Status branch appends when the mute bit is
clear. -/
theorem fragment_report_audio_status_unmuted (h b : Fin 256) (hb : b.val &&& 0x80 = 0) :
    fragment [h, 0x7A, b] = "is at " ++ cec_fmt_audio_volume_status b.val ++ " Volume " := by
  simp [fragment, Outcome.pinfo, bind, Dissector.bind, modify_pinfo,
    tvb_get_guint8, tvb_get_ntoh, tvb_bytes, tvb_length, pure, Dissector.pure, pntoh,
    proto_tree_add_item, get_hfi_length, column_info.set, column_info.get,
    packet_info.init, proto_item_set_text, update_item,
    proto_item_add_subtree, add_parameters_cec, add_parameters_cec_oplen,
    add_parameters_cec_fields, col_append_fstr, Fin.coe_ofNat_eq_mod, hb]

theorem volume_text_unmuted (b : Fin 256) (hb : b.val.testBit 7 = false) :
    cec_fmt_audio_volume_status b.val =
      (if b.val ≤ 100 then fmt_u b.val ++ "%"
        else if b.val = 0x7F then "(Unknown)" else "(Reserved)") ∧
    (b.val ≤ 100 ∨ b.val = 0x7F ∨ (101 ≤ b.val ∧ b.val ≤ 126)) := by
  revert b
  set_option maxRecDepth 100000 in decide

/-- C22: for every Report Audio Status frame [h, 0x7A, b] with bit 7 of b
clear, the fragment is "is at ", the volume text and " Volume ", where the
volume text, written by the volume formatter on b, is the decimal digits of b
and "%" when b is at most 100, "(Unknown)" when b is 0x7F and "(Reserved)"
otherwise, that is when b is 101 to 126. -/
theorem C22_volume_text (h b : Fin 256) (hb : b.val.testBit 7 = false) :
    fragment [h, 0x7A, b] = "is at " ++ cec_fmt_audio_volume_status b.val ++ " Volume " ∧
    cec_fmt_audio_volume_status b.val =
      (if b.val ≤ 100 then fmt_u b.val ++ "%"
        else if b.val = 0x7F then "(Unknown)" else "(Reserved)") ∧
    (b.val ≤ 100 ∨ b.val = 0x7F ∨ (101 ≤ b.val ∧ b.val ≤ 126)) := by
  have hb0 : b.val &&& 0x80 = 0 := by
    by_contra hc
    have := (bit7_iff b).1 hc
    rw [hb] at this
    cases this
  exact ⟨fragment_report_audio_status_unmuted h b hb0, volume_text_unmuted b hb⟩

theorem C22_volume_text_witness :
    (0x32 : Fin 256).val.testBit 7 = false ∧
    fragment [0x50, 0x7A, 0x32] =
      "is at " ++ cec_fmt_audio_volume_status (0x32 : Fin 256).val ++ " Volume " ∧
    cec_fmt_audio_volume_status (0x32 : Fin 256).val = "50%" :=
  ⟨rfl, (C22_volume_text 0x50 0x32 rfl).1, (C22_volume_text 0x50 0x32 rfl).2.1⟩

theorem add_parameters_cec_none (h op : Fin 256) (rest : tvbuff_t) (tree : proto_tree)
    (p : packet_info)
    (hn : add_parameters_cec_oplen op.val (tvb_length (h :: op :: rest)) = none) :
    add_parameters_cec (h :: op :: rest) tree p = Outcome.ok 0 p := by
  unfold add_parameters_cec
  rw [tvb_get_guint8_one, dissector_pure_bind, hn]
  rfl

theorem resolver_table_named :
    ∀ x ∈ resolver_table, (try_val_to_str x cec_opcode).isSome = true ∧
      val_to_str_const x cec_opcode "Unknown" ≠ "Unknown" := by
  decide

/-- C25: every opcode of the resolver table has a name in the opcode table;
so for a frame whose opcode byte is rendered "Unknown" the opcode is not in
the resolver table, the resolved parameter length is 0, the decode succeeds
and its items are the protocol item and the initiator, destination and opcode
fields only: no Parameters item and no parameter field. -/
theorem C25_unknown_opcode (h op : Fin 256) (rest : tvbuff_t)
    (hu : val_to_str_const op.val cec_opcode "Unknown" = "Unknown") :
    (∀ x ∈ resolver_table, (try_val_to_str x cec_opcode).isSome = true) ∧
    op.val ∉ resolver_table ∧
    resolve op.val (tvb_length (h :: op :: rest)) = 0 ∧
    (decode (h :: op :: rest)).failed = false ∧
    (decode (h :: op :: rest)).pinfo.items.map (fun fi => fi.hfinfo) =
      [proto_cec, hf_cec_initiator, hf_cec_destination, hf_cec_opcode] := by
  have hm : op.val ∉ resolver_table := fun hm => (resolver_table_named _ hm).2 hu
  have hn := oplen_none_of_not_mem op.val (tvb_length (h :: op :: rest)) hm
  refine ⟨fun x hx => (resolver_table_named x hx).1, hm, by simp [resolve, hn], ?_, ?_⟩
  all_goals
    rw [decode_cons_cons, bind_of_ok (add_parameters_cec_none h op rest _ _ hn),
      proto_item_set_len_bind, expert_add_info_cec_cons_cons]
    rfl

theorem C25_unknown_opcode_witness :
    val_to_str_const (0x01 : Fin 256).val cec_opcode "Unknown" = "Unknown" ∧
    (0x01 : Fin 256).val ∉ resolver_table ∧
    (decode [0x10, 0x01]).pinfo.items.map (fun fi => fi.hfinfo) =
      [proto_cec, hf_cec_initiator, hf_cec_destination, hf_cec_opcode] :=
  ⟨rfl, (C25_unknown_opcode 0x10 0x01 [] rfl).2.1, (C25_unknown_opcode 0x10 0x01 [] rfl).2.2.2.2⟩

/-! ## The volume text of a frame byte -/

end Cec

